import Mathlib

/-!
# The per-file disk cache of fzf-bibtex (`cache/cache.go`)

A shallow embedding of `cache.go`.  The file system, the clock and the two
callbacks are explicit: every operating-system call of the source is a
function on a `World`, every Go function is a function from a `World` to an
`Outcome` (normal return, panic, or waiting for the lock marker for ever).
-/

namespace Cache

/-! ## Go library functions used by the source -/

/-- Largest int64. -/
def maxInt64 : Int := 9223372036854775807

/-- Smallest int64. -/
def minInt64 : Int := -9223372036854775808

/-- Largest uint64. -/
def maxUint64 : Nat := 18446744073709551615

/-- Conversion of a mathematical integer to int64 (two's complement wrap-around),
as performed by `UnixNano()`. -/
def toInt64 (i : Int) : Int := (i + 9223372036854775808) % 18446744073709551616 - 9223372036854775808

/-- Result of `strconv.ParseUint(s, 10, 64)`. -/
inductive UintResult where
  | value (n : Nat)
  | syntaxErr
  | rangeErr
  deriving DecidableEq, Repr

/-- The digit loop of `strconv.ParseUint` for base 10 and 64 bits: a byte that is
not a decimal digit is a syntax error, an overflow is reported at once (the
rest of the text is not inspected). -/
def parseUintLoop : List Char → Nat → UintResult
  | [], n => .value n
  | c :: cs, n =>
    if 48 ≤ c.toNat ∧ c.toNat ≤ 57 then
      if n ≥ maxUint64 / 10 + 1 then .rangeErr
      else
        let n1 := n * 10 + (c.toNat - 48)
        if n1 > maxUint64 then .rangeErr else parseUintLoop cs n1
    else .syntaxErr

/-- Go's `strconv.ParseUint(s, 10, 64)`. -/
def parseUint (s : List Char) : UintResult :=
  if s = [] then .syntaxErr else parseUintLoop s 0

/-- The error value of `strconv.ParseInt`. -/
inductive NumError where
  | errSyntax
  | errRange
  deriving DecidableEq, Repr

/-- Go's `strconv.ParseInt(s, 10, 64)`: the value and the error.  A syntax error
comes with the value 0, a range error with the nearest int64 bound. -/
def parseInt (s : String) : Int × Option NumError :=
  match s.data with
  | [] => (0, some .errSyntax)
  | c :: cs =>
    let neg : Bool := c = '-'
    let digits := if c = '+' ∨ c = '-' then cs else c :: cs
    match parseUint digits with
    | .syntaxErr => (0, some .errSyntax)
    | .rangeErr => if neg then (minInt64, some .errRange) else (maxInt64, some .errRange)
    | .value un =>
      if neg = false ∧ un ≥ 9223372036854775808 then (maxInt64, some .errRange)
      else if neg = true ∧ un > 9223372036854775808 then (minInt64, some .errRange)
      else if neg then (-(un : Int), none) else ((un : Int), none)

/-- Decimal digits of a natural number, most significant first (`fuel` bounds
the number of digits). -/
def formatBits : Nat → Nat → List Char → List Char
  | 0, _, acc => acc
  | fuel + 1, n, acc =>
    if n < 10 then Char.ofNat (48 + n) :: acc
    else formatBits fuel (n / 10) (Char.ofNat (48 + n % 10) :: acc)

/-- Go's `strconv.FormatInt(i, 10)`. -/
def formatInt (i : Int) : String :=
  if i < 0 then ⟨'-' :: formatBits (i.natAbs + 1) i.natAbs []⟩
  else ⟨formatBits (i.natAbs + 1) i.natAbs []⟩

/-- Go's `bufio.MaxScanTokenSize`. -/
def maxScanTokenSize : Nat := 64 * 1024

/-- Number of bytes of a text in UTF-8. -/
def byteLen (l : List Char) : Nat := (l.map Char.utf8Size).sum

/-- The helper `dropCR` of `bufio.ScanLines`: one trailing carriage return is removed. -/
def dropCR (l : List Char) : List Char :=
  if l.getLast? = some '\r' then l.dropLast else l

/-- The text before the first newline, and what follows that newline if there is one. -/
def breakLine : List Char → List Char × Option (List Char)
  | [] => ([], none)
  | c :: cs =>
    if c = '\n' then ([], some cs)
    else ((c :: (breakLine cs).1), (breakLine cs).2)

/-- Result of one `scanner.Scan()` on the unread part of a file. -/
inductive ScanResult where
  | token (text : String) (rest : List Char)
  | eof
  | tooLong
  deriving DecidableEq, Repr

/-- One `scanner.Scan()` of a `bufio.Scanner` with the default split function
`ScanLines` and the default buffer: at the end of the data there is no token,
a line of `maxScanTokenSize` bytes or more is `ErrTooLong`, otherwise the token
is the next line without its line end. -/
def scan (data : List Char) : ScanResult :=
  if data = [] then .eof
  else if byteLen (breakLine data).1 ≥ maxScanTokenSize then .tooLong
  else .token ⟨dropCR (breakLine data).1⟩ ((breakLine data).2.getD [])

/-- The tokens of successive `scanner.Scan()` calls until one returns false, and
whether `scanner.Err()` is then non-nil. -/
def scanTokens : Nat → List Char → List String × Bool
  | 0, _ => ([], false)
  | fuel + 1, data =>
    match scan data with
    | .eof => ([], false)
    | .tooLong => ([], true)
    | .token text rest => (text :: (scanTokens fuel rest).1, (scanTokens fuel rest).2)

/-- All tokens of a file content: the fuel `length + 1` is never used up. -/
def scanAll (content : String) : List String × Bool :=
  scanTokens (content.data.length + 1) content.data

/-- The text `scanner.Text()` holds after one `scanner.Scan()` on a fresh scanner, or
`none` when `scanner.Err()` is then non-nil.  At the end of the data `Scan` returns
false without an error and the text is empty. -/
def scanFirst (content : String) : Option String :=
  match scan content.data with
  | .tooLong => none
  | .eof => some ""
  | .token text _ => some text

/-- The content of a file that holds the given lines, each ended by a newline. -/
def unlines : List String → String
  | [] => ""
  | l :: rest => ⟨l.data ++ '\n' :: (unlines rest).data⟩

/-- The elements of a path: the texts between its slashes. -/
def splitSlash : List Char → List (List Char)
  | [] => [[]]
  | c :: cs =>
    if c = '/' then [] :: splitSlash cs
    else
      match splitSlash cs with
      | [] => [[c]]
      | first :: others => (c :: first) :: others

/-- One element of a path met by `filepath.Clean`; `kept` holds the elements kept so
far, the last one first.  An empty element and `.` are dropped, `..` removes the
element before it, unless there is none (then it is dropped in a rooted path and kept
otherwise) or that element is itself a kept `..`. -/
def cleanStep (rooted : Bool) (kept : List (List Char)) (element : List Char) :
    List (List Char) :=
  if element = [] ∨ element = ['.'] then kept
  else if element = ['.', '.'] then
    match kept with
    | [] => if rooted then [] else [element]
    | top :: below => if top = ['.', '.'] then element :: kept else below
  else element :: kept

/-- The elements joined by slashes. -/
def joinSlash : List (List Char) → List Char
  | [] => []
  | [x] => x
  | x :: y :: rest => x ++ '/' :: joinSlash (y :: rest)

/-- Go's `filepath.Clean` on Unix for a non-empty path. -/
def clean (path : List Char) : List Char :=
  let rooted : Bool := path.head? = some '/'
  let body := joinSlash ((splitSlash path).foldl (cleanStep rooted) []).reverse
  if rooted then '/' :: body else if body = [] then ['.'] else body

/-- Go's `filepath.Join(dir, name)` on Unix: empty arguments are ignored, the others
are joined by a slash and the result is cleaned. -/
def filepathJoin (dir name : String) : String :=
  if dir = "" then (if name = "" then "" else ⟨clean name.data⟩)
  else ⟨clean (dir.data ++ '/' :: name.data)⟩

/-! ## The world: files, clock, callbacks -/

/-- Regular files by path: the content, or `none` when no such file exists. -/
abbrev Files := String → Option String

/-- The files with the entry of one path replaced. -/
def Files.set (f : Files) (path : String) (v : Option String) : Files :=
  fun q => if q = path then v else f q

/-- The calls the code makes to the operating system and to its two callbacks. -/
inductive Event where
  | openExcl (path : String)
  | remove (path : String)
  | openRead (path : String)
  | stat (path : String)
  | create (path : String)
  | writeString (path : String) (text : String)
  | timeNow
  | parse (bibFile : String)
  | doSomething (line : String)
  deriving DecidableEq, Repr

/-- One entry of the history: a call, and the files as they are right after it. -/
structure Step where
  ev : Event
  after : Files

/-- The state the code runs in.  `files` and `modTime` are one table of files by name:
`modTime p` is the modification time of the file `p` in nanoseconds since the epoch,
as a mathematical integer (`none`: `os.Stat` fails on the file although it exists).
`fsTime n` is the time the file system stamps on a file at the `n`-th change of the
content of a file and `fsTick` counts those changes; `clock n` is the `n`-th reading of
`time.Now()` in nanoseconds and `tick` counts the readings taken so far; `log` is the
history of calls, oldest first. -/
structure World where
  files : Files
  modTime : String → Option Int
  fsTime : Nat → Int
  fsTick : Nat
  clock : Nat → Int
  tick : Nat
  log : List Step

/-- The world after a call `e` that leaves the files as `f`. -/
def World.record (w : World) (e : Event) (f : Files) : World :=
  { w with files := f, log := w.log ++ [⟨e, f⟩] }

/-- The file system changes the content of the file `path`: it stamps the file with
its current time. -/
def World.touch (w : World) (path : String) : World :=
  { w with
    modTime := fun q => if q = path then some (w.fsTime w.fsTick) else w.modTime q,
    fsTick := w.fsTick + 1 }

/-- The lines passed to `doSomething` so far, oldest first. -/
def delivered (log : List Step) : List String :=
  log.filterMap fun s =>
    match s.ev with
    | .doSomething line => some line
    | _ => none

/-- The source files `bibtex.Parse` has been called on so far, oldest first. -/
def parsed (log : List Step) : List String :=
  log.filterMap fun s =>
    match s.ev with
    | .parse bibFile => some bibFile
    | _ => none

/-- The parameter `formatter func(map[string]string) string`. -/
abbrev Formatter := (String → Option String) → String

/-- The parameter `doSomething func(string)`: given the lines it has received so
far and a new line, whether the call panics. -/
abbrev Sink := List String → String → Bool

/-- What one call of `bibtex.Parse` does: the lines it passes to `doSomething`, the
text it leaves in `*data`, and whether it panics itself once those lines are passed. -/
structure ParseOut where
  lines : List String
  data : String
  fails : Bool

/-- What the code takes from outside `cache.go`: the key `cacheName` computes with
`filepath.Abs`, `sha256.Sum256` and `%x`, the parser `bibtex.Parse`, and the failures
of the file system:
`exclErr p`: `os.OpenFile(p, O_CREATE|O_EXCL)` fails with an error other than
"exists"; `removeErr p`: `os.Remove(p)` fails with an error other than "does not
exist"; `createErr p`: `os.Create(p)` fails; `shortWrite p = some n`:
`WriteString` on `p` writes only the first `n` characters and reports an error.
`resolve p` is the name, in the table of files, of the file the path `p` of a source
leads to when `os.Stat(p)` follows the working directory and the links on the way;
the files of the cache are named by the paths `filepath.Join` builds for them. -/
structure Env where
  cacheName : String → String
  resolve : String → String
  parse : Formatter → Files → String → ParseOut
  exclErr : String → Bool
  removeErr : String → Bool
  createErr : String → Bool
  shortWrite : String → Option Nat

/-- How a call ends: it returns, it panics, or it waits for ever in `lock`. -/
inductive Outcome (α : Type) where
  | done (a : α) (w : World)
  | abort (w : World)
  | spin (w : World)

/-- The world in which a call ends. -/
def Outcome.world : Outcome α → World
  | .done _ w => w
  | .abort w => w
  | .spin w => w

/-- The value a call returns, if it returns. -/
def Outcome.value? : Outcome α → Option α
  | .done a _ => some a
  | .abort _ => none
  | .spin _ => none

/-- Whether the call returns normally. -/
def Outcome.returns : Outcome α → Bool
  | .done _ _ => true
  | .abort _ => false
  | .spin _ => false

/-- Whether the call waits for ever. -/
def Outcome.spins : Outcome α → Bool
  | .done _ _ => false
  | .abort _ => false
  | .spin _ => true

/-- Whether the call panics. -/
def Outcome.aborts : Outcome α → Bool
  | .done _ _ => false
  | .abort _ => true
  | .spin _ => false

/-- Sequencing: the rest runs only after a normal return. -/
def Outcome.bind (o : Outcome α) (f : α → World → Outcome β) : Outcome β :=
  match o with
  | .done a w => f a w
  | .abort w => .abort w
  | .spin w => .spin w

/-- Go's `defer`: `d` runs when the body returns and when it panics; the body's
return value is kept when `d` returns, a panic stays a panic. -/
def Outcome.deferred (o : Outcome α) (d : World → Outcome Unit) : Outcome α :=
  match o with
  | .done a w =>
    match d w with
    | .done _ w1 => .done a w1
    | .abort w1 => .abort w1
    | .spin w1 => .spin w1
  | .abort w =>
    match d w with
    | .done _ w1 => .abort w1
    | .abort w1 => .abort w1
    | .spin w1 => .spin w1
  | .spin w => .spin w

/-! ## The functions of `cache.go` -/

/-- The function `lock`: create the marker `<key>.lock` exclusively.  When the marker
exists the loop sleeps and retries; nothing in this model removes the marker
meanwhile, so the call never returns.  The modification time of the marker is left
out of the table: the code calls `os.Stat` on source files only, and the marker of a
source exists only while that source is handled. -/
def lock (env : Env) (cacheDir cacheFile : String) (w : World) : Outcome Unit :=
  let lockFile := filepathJoin cacheDir (cacheFile ++ ".lock")
  if env.exclErr lockFile then .abort (w.record (.openExcl lockFile) w.files)
  else
    match w.files lockFile with
    | some _ => .spin (w.record (.openExcl lockFile) w.files)
    | none => .done () (w.record (.openExcl lockFile) (w.files.set lockFile (some "")))

/-- The function `unlock`: remove the marker; "does not exist" is not an error. -/
def unlock (env : Env) (cacheDir cacheFile : String) (w : World) : Outcome Unit :=
  let lockFile := filepathJoin cacheDir (cacheFile ++ ".lock")
  if env.removeErr lockFile then .abort (w.record (.remove lockFile) w.files)
  else .done () (w.record (.remove lockFile) (w.files.set lockFile none))

/-- The call `os.Create(path)` followed by `check(err)`: the file is created or
truncated, which moves its modification time. -/
def osCreate (env : Env) (path : String) (w : World) : Outcome Unit :=
  if env.createErr path then .abort (w.record (.create path) w.files)
  else .done () ((w.record (.create path) (w.files.set path (some ""))).touch path)

/-- What `f.WriteString(text)` leaves in a file just created at `path`. -/
def written (env : Env) (path : String) (text : String) : String :=
  match env.shortWrite path with
  | none => text
  | some n => ⟨text.data.take n⟩

/-- The call `f.WriteString(text)` on the file just created at `path`; the code drops
the error it returns.  A write that puts at least one character into the file moves
its modification time. -/
def writeString (env : Env) (path : String) (text : String) (w : World) : World :=
  if (written env path text).data = [] then
    w.record (.writeString path text) (w.files.set path (some (written env path text)))
  else
    (w.record (.writeString path text)
      (w.files.set path (some (written env path text)))).touch path

/-- The function `write`. -/
def write (env : Env) (cacheFile : String) (data : String) (w : World) : Outcome Unit :=
  (osCreate env cacheFile w).bind fun _ w1 =>
  .done () (writeString env cacheFile data w1)

/-- The calls `doSomething(line)` for the lines in order; a panic of the callback
ends them. -/
def feed (doSomething : Sink) : List String → World → Outcome Unit
  | [], w => .done () w
  | line :: rest, w =>
    if doSomething (delivered w.log) line then .abort (w.record (.doSomething line) w.files)
    else feed doSomething rest (w.record (.doSomething line) w.files)

/-- Modelled from the spec: the call `bibtex.Parse(&data, []string{bibFile}, formatter,
doSomething)`, whose code is in the package `bibtex`, outside `cache.go`: it passes
lines to `doSomething` and leaves one text in `data`. -/
def bibtexParse (env : Env) (formatter : Formatter) (doSomething : Sink) (bibFile : String)
    (w : World) : Outcome String :=
  let r := env.parse formatter w.files bibFile
  (feed doSomething r.lines (w.record (.parse bibFile) w.files)).bind fun _ w1 =>
  if r.fails then .abort w1 else .done r.data w1

/-- The path of the data file of an entry. -/
def dataPath (env : Env) (cacheDir subcache bibFile : String) : String :=
  filepathJoin cacheDir (env.cacheName bibFile ++ "." ++ subcache)

/-- The path of the timestamp file of an entry. -/
def timestampPath (env : Env) (cacheDir subcache bibFile : String) : String :=
  filepathJoin cacheDir (env.cacheName bibFile ++ "." ++ subcache ++ ".timestamp")

/-- The path of the lock marker of a source file. -/
def lockPath (env : Env) (cacheDir bibFile : String) : String :=
  filepathJoin cacheDir (env.cacheName bibFile ++ ".lock")

/-- The call `os.Stat(path)` on a source, reduced to `ModTime()` in nanoseconds; it
fails when no file is there. -/
def osStat (env : Env) (w : World) (path : String) : Option Int :=
  match w.files (env.resolve path) with
  | none => none
  | some _ => w.modTime (env.resolve path)

/-- The body of `isFresh` between `lock` and the deferred `unlock`. -/
def isFreshBody (env : Env) (cacheDir subcache bibFile : String) (w : World) : Outcome Bool :=
  let cacheFile := env.cacheName bibFile
  let toRead := filepathJoin cacheDir (cacheFile ++ "." ++ subcache ++ ".timestamp")
  match w.files toRead with
  | none => .done false (w.record (.openRead toRead) w.files)
  | some content =>
    let w1 := w.record (.openRead toRead) w.files
    match scanFirst content with
    | none => .abort w1
    | some text =>
      let timestamp := (parseInt text).1
      match osStat env w1 bibFile with
      | none => .abort (w1.record (.stat bibFile) w1.files)
      | some m =>
        if timestamp < toInt64 m then .done false (w1.record (.stat bibFile) w1.files)
        else .done true (w1.record (.stat bibFile) w1.files)

/-- The function `isFresh`. -/
def isFresh (env : Env) (cacheDir subcache bibFile : String) (w : World) : Outcome Bool :=
  let cacheFile := env.cacheName bibFile
  (lock env cacheDir cacheFile w).bind fun _ w1 =>
  (isFreshBody env cacheDir subcache bibFile w1).deferred (unlock env cacheDir cacheFile)

/-- The function `IsFresh`. -/
def IsFresh (env : Env) (cacheDir subcache : String) : List String → World → Outcome Bool
  | [], w => .done true w
  | bibFile :: rest, w =>
    (isFresh env cacheDir subcache bibFile w).bind fun fresh w1 =>
    if !fresh then .done false w1 else IsFresh env cacheDir subcache rest w1

/-- The body of `refreshAndDo` between `lock` and the deferred `unlock`. -/
def refreshBody (env : Env) (cacheDir bibFile subcache : String) (formatter : Formatter)
    (doSomething : Sink) (w : World) : Outcome Unit :=
  let cacheFile := env.cacheName bibFile
  (bibtexParse env formatter doSomething bibFile w).bind fun data w1 =>
  (write env (filepathJoin cacheDir (cacheFile ++ "." ++ subcache)) data w1).bind fun _ w2 =>
  let timestamp := toInt64 (w2.clock w2.tick)
  let w3 := { w2.record .timeNow w2.files with tick := w2.tick + 1 }
  (osCreate env (filepathJoin cacheDir (cacheFile ++ "." ++ subcache ++ ".timestamp")) w3).bind
    fun _ w4 =>
  .done () (writeString env (filepathJoin cacheDir (cacheFile ++ "." ++ subcache ++ ".timestamp"))
    (formatInt timestamp) w4)

/-- The function `refreshAndDo`. -/
def refreshAndDo (env : Env) (cacheDir bibFile subcache : String) (formatter : Formatter)
    (doSomething : Sink) (w : World) : Outcome Unit :=
  let cacheFile := env.cacheName bibFile
  (lock env cacheDir cacheFile w).bind fun _ w1 =>
  (refreshBody env cacheDir bibFile subcache formatter doSomething w1).deferred
    (unlock env cacheDir cacheFile)

/-- The function `RefreshAndDo`. -/
def RefreshAndDo (env : Env) (cacheDir : String) (subcache : String) (formatter : Formatter)
    (doSomething : Sink) : List String → World → Outcome Unit
  | [], w => .done () w
  | bibFile :: rest, w =>
    (refreshAndDo env cacheDir bibFile subcache formatter doSomething w).bind fun _ w1 =>
    RefreshAndDo env cacheDir subcache formatter doSomething rest w1

/-- The body of `readCache` between `lock` and the deferred `unlock`. -/
def readBody (env : Env) (cacheDir bibFile subcache : String) (doSomething : Sink)
    (w : World) : Outcome Unit :=
  let cacheFile := env.cacheName bibFile
  let toRead := filepathJoin cacheDir (cacheFile ++ "." ++ subcache)
  match w.files toRead with
  | none => .abort (w.record (.openRead toRead) w.files)
  | some content =>
    (feed doSomething (scanAll content).1 (w.record (.openRead toRead) w.files)).bind
      fun _ w1 =>
    if (scanAll content).2 then .abort w1 else .done () w1

/-- The function `readCache`. -/
def readCache (env : Env) (cacheDir bibFile subcache : String) (doSomething : Sink)
    (w : World) : Outcome Unit :=
  let cacheFile := env.cacheName bibFile
  (lock env cacheDir cacheFile w).bind fun _ w1 =>
  (readBody env cacheDir bibFile subcache doSomething w1).deferred
    (unlock env cacheDir cacheFile)

/-- The function `ReadAndDo`. -/
def ReadAndDo (env : Env) (cacheDir : String) (subcache : String) (formatter : Formatter)
    (doSomething : Sink) : List String → World → Outcome Unit
  | [], w => .done () w
  | bibFile :: rest, w =>
    (isFresh env cacheDir subcache bibFile w).bind fun fresh w1 =>
    if !fresh then
      (refreshAndDo env cacheDir bibFile subcache formatter doSomething w1).bind fun _ w2 =>
      ReadAndDo env cacheDir subcache formatter doSomething rest w2
    else
      (readCache env cacheDir bibFile subcache doSomething w1).bind fun _ w2 =>
      ReadAndDo env cacheDir subcache formatter doSomething rest w2

/-- The world a refresh ends in when nothing fails, from the world `w1` in which the
parser has returned `data`: the data file is created and written, the clock is read,
the timestamp file is created and written. -/
def refreshed (env : Env) (cacheDir subcache bibFile : String) (data : String) (w1 : World) :
    World :=
  let w2 := writeString env (dataPath env cacheDir subcache bibFile) data
    ((w1.record (.create (dataPath env cacheDir subcache bibFile))
      (w1.files.set (dataPath env cacheDir subcache bibFile) (some ""))).touch
        (dataPath env cacheDir subcache bibFile))
  let w3 : World := { w2.record .timeNow w2.files with tick := w2.tick + 1 }
  writeString env (timestampPath env cacheDir subcache bibFile)
    (formatInt (toInt64 (w2.clock w2.tick)))
    ((w3.record (.create (timestampPath env cacheDir subcache bibFile))
      (w3.files.set (timestampPath env cacheDir subcache bibFile) (some ""))).touch
        (timestampPath env cacheDir subcache bibFile))

/-- The world in which creating the timestamp file fails, from the world `w1` in which
the parser has returned `data`. -/
def refreshedData (env : Env) (cacheDir subcache bibFile : String) (data : String)
    (w1 : World) : World :=
  let w2 := writeString env (dataPath env cacheDir subcache bibFile) data
    ((w1.record (.create (dataPath env cacheDir subcache bibFile))
      (w1.files.set (dataPath env cacheDir subcache bibFile) (some ""))).touch
        (dataPath env cacheDir subcache bibFile))
  let w3 : World := { w2.record .timeNow w2.files with tick := w2.tick + 1 }
  w3.record (.create (timestampPath env cacheDir subcache bibFile)) w3.files

/-- The history of `w1` is the history of `w0` followed by steps that all satisfy `P`. -/
def Extends (w0 w1 : World) (P : Step → Prop) : Prop :=
  ∃ new, w1.log = w0.log ++ new ∧ ∀ st ∈ new, P st

/-! ## A concrete environment for examples -/

/-- The keys of the examples, for a process working in `/home/u`: the hex SHA-256
digests of `/home/u/other.bib`, of `/c/x.timestamp` and of `/home/u/refs.bib`. -/
def demoName (bibFile : String) : String :=
  if bibFile = "other.bib" then
    "6006e44ce9341e902f7dfa8d36480b7402cef7e2904a0989ba205992a299b835"
  else if bibFile = "/c/x.timestamp" then
    "02e4c5c6e1ab5ae3c5ab91f8f3396035c33780fd30ee338e8012a4d88d1bc501"
  else "b2ef12d45fe269a344610001fe9366888d68dbad80e6357e86b5ae057d71eacc"

/-- A parser that finds one record: `B. Writer (2021)` in `other.bib`, `A. Author
(2020)` in any other source. -/
def demoParse (_formatter : Formatter) (_files : Files) (bibFile : String) : ParseOut :=
  if bibFile = "other.bib" then ⟨["B. Writer (2021)"], "B. Writer (2021)\n", false⟩
  else ⟨["A. Author (2020)"], "A. Author (2020)\n", false⟩

/-- The file a path leads to for a process working in `/home/u` on a file system
without links: `filepath.Abs`.  The examples keep their caches in directories given by
absolute paths (`/c`, `/home/u`), so this is also the name `filepath.Join` builds for
a source that lies in the cache directory. -/
def demoResolve (path : String) : String :=
  if path.data.head? = some '/' then ⟨clean path.data⟩ else filepathJoin "/home/u" path

/-- An environment without failures. -/
def demoEnv : Env :=
  { cacheName := demoName, resolve := demoResolve, parse := demoParse,
    exclErr := fun _ => false, removeErr := fun _ => false, createErr := fun _ => false,
    shortWrite := fun _ => none }

/-- A formatter (the example parser ignores it). -/
def demoFormatter : Formatter := fun _ => "A. Author (2020)"

/-- A callback that never panics. -/
def quietSink : Sink := fun _ _ => false

/-- The text of the source files of the examples. -/
def demoSource : String := "@book\x7bkey, author = \x7bA. Author\x7d, year = 2020\x7d\n"

/-- The given files of a cache next to the source `/home/u/refs.bib`. -/
def withSource (cache : Files) : Files :=
  fun p => if p = "/home/u/refs.bib" then some demoSource else cache p

/-- The modification times of a table in which only `/home/u/refs.bib` has one. -/
def sourceTime (m : Int) : String → Option Int :=
  fun p => if p = "/home/u/refs.bib" then some m else none

/-- An empty cache directory, a source last modified at time 50, a clock that reads
100, a file system that stamps the time 100. -/
def demoWorld : World :=
  { files := withSource fun _ => none, modTime := sourceTime 50,
    fsTime := fun _ => 100, fsTick := 0, clock := fun _ => 100, tick := 0, log := [] }

/-- The cache of the examples after a refresh at time 100: the data file and the
timestamp file of the entry `default` of `refs.bib`; the source was last modified at
time 50. -/
def freshWorld : World :=
  { files := withSource fun p =>
      if p = "/c/b2ef12d45fe269a344610001fe9366888d68dbad80e6357e86b5ae057d71eacc.default" then
        some "A. Author (2020)\n"
      else if p =
          "/c/b2ef12d45fe269a344610001fe9366888d68dbad80e6357e86b5ae057d71eacc.default.timestamp" then
        some "100"
      else none,
    modTime := sourceTime 50,
    fsTime := fun _ => 200, fsTick := 0, clock := fun _ => 200, tick := 0, log := [] }

/-- The cache of the examples with a timestamp file that holds the given text, and a
source last modified at the given time. -/
def stampedAt (stamp : String) (m : Int) : World :=
  { files := withSource fun p =>
      if p =
          "/c/b2ef12d45fe269a344610001fe9366888d68dbad80e6357e86b5ae057d71eacc.default.timestamp" then
        some stamp
      else none,
    modTime := sourceTime m,
    fsTime := fun _ => 200, fsTick := 0, clock := fun _ => 200, tick := 0, log := [] }

/-- The cache of the examples with a timestamp file that holds the given text; the
source was last modified at time 50, after the epoch. -/
def stampedWorld (stamp : String) : World := stampedAt stamp 50

/-- The first instant of the year 2300 in nanoseconds since the epoch; it is beyond
the largest int64. -/
def year2300 : Int := 10413792000000000000

/-- The examples environment on a disk where the write of the data file stops after
three characters and reports an error. -/
def fullDiskEnv : Env :=
  { demoEnv with
    shortWrite := fun p =>
      if p = "/c/b2ef12d45fe269a344610001fe9366888d68dbad80e6357e86b5ae057d71eacc.default" then
        some 3
      else none }

/-- The examples environment in a cache directory where no file can be created
besides the lock marker. -/
def readOnlyEnv : Env :=
  { demoEnv with
    createErr := fun p =>
      p ≠ "/c/b2ef12d45fe269a344610001fe9366888d68dbad80e6357e86b5ae057d71eacc.lock" }

/-- A cache directory with a timestamp file, and no source file: `os.Stat` fails. -/
def noSourceWorld : World :=
  { files := fun p =>
      if p =
          "/c/b2ef12d45fe269a344610001fe9366888d68dbad80e6357e86b5ae057d71eacc.default.timestamp" then
        some "100"
      else none,
    modTime := fun _ => none,
    fsTime := fun _ => 100, fsTick := 0, clock := fun _ => 100, tick := 0, log := [] }

/-- An empty cache directory, a source whose modification time (500) is later than
what the clock reads (100). -/
def futureWorld : World :=
  { files := withSource fun _ => none, modTime := sourceTime 500,
    fsTime := fun _ => 100, fsTick := 0, clock := fun _ => 100, tick := 0, log := [] }

/-- The cache of the examples with a fresh entry for the subcache `a`: its data file
and its timestamp file, written at time 100; the source was last modified at time 50. -/
def viewWorld : World :=
  { files := withSource fun p =>
      if p = "/c/b2ef12d45fe269a344610001fe9366888d68dbad80e6357e86b5ae057d71eacc.a" then
        some "An old line\n"
      else if p =
          "/c/b2ef12d45fe269a344610001fe9366888d68dbad80e6357e86b5ae057d71eacc.a.timestamp" then
        some "100"
      else none,
    modTime := sourceTime 50,
    fsTime := fun _ => 200, fsTick := 0, clock := fun _ => 200, tick := 0, log := [] }

/-- A cache kept in `/home/u`, the directory of the source itself, with a fresh entry
for the subcache `a` written at time 100; the source was last modified at time 50. -/
def homeWorld : World :=
  { files := withSource fun p =>
      if p = "/home/u/b2ef12d45fe269a344610001fe9366888d68dbad80e6357e86b5ae057d71eacc.a" then
        some "An old line\n"
      else if p =
          "/home/u/b2ef12d45fe269a344610001fe9366888d68dbad80e6357e86b5ae057d71eacc.a.timestamp" then
        some "100"
      else none,
    modTime := sourceTime 50,
    fsTime := fun _ => 200, fsTick := 0, clock := fun _ => 200, tick := 0, log := [] }

/-- An empty cache directory `/c` that holds the source `/c/x.timestamp` itself, last
modified at time 50; the clock reads 100 and the file system then stamps 101. -/
def selfWorld : World :=
  { files := fun p => if p = "/c/x.timestamp" then some demoSource else none,
    modTime := fun p => if p = "/c/x.timestamp" then some 50 else none,
    fsTime := fun _ => 101, fsTick := 0, clock := fun _ => 100, tick := 0, log := [] }

/-- A cache with a fresh entry `default` for `other.bib`, written at time 100, and no
entry for `refs.bib`; both sources were last modified at time 50. -/
def pairWorld : World :=
  { files := fun p =>
      if p = "/home/u/refs.bib" then some demoSource
      else if p = "/home/u/other.bib" then some demoSource
      else if p = "/c/6006e44ce9341e902f7dfa8d36480b7402cef7e2904a0989ba205992a299b835.default" then
        some "B. Writer (2021)\nC. Third (2022)\n"
      else if p =
          "/c/6006e44ce9341e902f7dfa8d36480b7402cef7e2904a0989ba205992a299b835.default.timestamp" then
        some "100"
      else none,
    modTime := fun p =>
      if p = "/home/u/refs.bib" then some 50
      else if p = "/home/u/other.bib" then some 50 else none,
    fsTime := fun _ => 200, fsTick := 0, clock := fun _ => 200, tick := 0, log := [] }

/-! ## Facts about the library functions -/

theorem splitSlash_ne_nil (l : List Char) : splitSlash l ≠ [] := by
  cases l with
  | nil => simp [splitSlash]
  | cons c cs =>
    unfold splitSlash
    split
    · simp
    · split <;> simp

theorem splitSlash_noSlash (l : List Char) (h : ∀ c ∈ l, c ≠ '/') : splitSlash l = [l] := by
  induction l with
  | nil => rfl
  | cons c cs ih =>
    have hc : c ≠ '/' := h c (by simp)
    have hcs : splitSlash cs = [cs] := ih (fun d hd => h d (by simp [hd]))
    simp [splitSlash, hc, hcs]

/-- Appending a text without slashes extends the last element of a path. -/
theorem splitSlash_append (p suffix : List Char) (h : ∀ c ∈ suffix, c ≠ '/') :
    ∃ init last, splitSlash p = init ++ [last] ∧
      splitSlash (p ++ suffix) = init ++ [last ++ suffix] := by
  induction p with
  | nil => exact ⟨[], [], rfl, by simpa using splitSlash_noSlash suffix h⟩
  | cons c cs ih =>
    obtain ⟨init, last, h1, h2⟩ := ih
    by_cases hc : c = '/'
    · exact ⟨[] :: init, last, by simp [splitSlash, hc, h1], by simp [splitSlash, hc, h2]⟩
    · cases init with
      | nil =>
        exact ⟨[], c :: last, by simp [splitSlash, hc, h1], by simp [splitSlash, hc, h2]⟩
      | cons f o =>
        exact ⟨(c :: f) :: o, last, by simp [splitSlash, hc, h1], by simp [splitSlash, hc, h2]⟩

theorem joinSlash_length (xs : List (List Char)) :
    (joinSlash xs).length = (xs.map List.length).sum + (xs.length - 1) := by
  induction xs with
  | nil => rfl
  | cons x rest ih =>
    cases rest with
    | nil => simp [joinSlash]
    | cons y ys =>
      simp only [joinSlash, List.length_append, List.length_cons, ih, List.map_cons,
        List.sum_cons]
      omega

theorem joinSlash_concat (xs : List (List Char)) (e : List Char) :
    ∃ r, joinSlash (xs ++ [e]) = r ++ e := by
  induction xs with
  | nil => exact ⟨[], rfl⟩
  | cons x rest ih =>
    obtain ⟨r, hr⟩ := ih
    cases rest with
    | nil => exact ⟨x ++ ['/'], by simp [joinSlash]⟩
    | cons y ys =>
      refine ⟨x ++ '/' :: r, ?_⟩
      have : joinSlash (x :: y :: ys ++ [e]) = x ++ '/' :: joinSlash (y :: ys ++ [e]) := by
        simp [joinSlash]
      rw [this, hr]
      simp

/-- The length of a cleaned path, from the elements kept. -/
theorem clean_length (p : List Char) :
    (clean p).length =
      if p.head? = some '/' then
        1 + (joinSlash ((splitSlash p).foldl (cleanStep true) []).reverse).length
      else if joinSlash ((splitSlash p).foldl (cleanStep false) []).reverse = [] then 1
      else (joinSlash ((splitSlash p).foldl (cleanStep false) []).reverse).length := by
  unfold clean
  by_cases h : p.head? = some '/'
  · simp [h]; omega
  · simp only [h, decide_False, Bool.false_eq_true, if_false]
    split <;> simp

theorem cleanStep_normal (rooted : Bool) (st : List (List Char)) (e : List Char)
    (h0 : e ≠ []) (h1 : e ≠ ['.']) (h2 : e ≠ ['.', '.']) :
    cleanStep rooted st e = e :: st := by
  simp [cleanStep, h0, h1, h2]

theorem cleanStep_timestamp (rooted : Bool) (st : List (List Char)) (last ts : List Char)
    (hts : ts.length = 10) : cleanStep rooted st (last ++ ts) = (last ++ ts) :: st := by
  apply cleanStep_normal <;> intro h <;> have := congrArg List.length h <;>
    simp only [List.length_append, List.length_cons, List.length_nil, hts] at this <;> omega

theorem cleanStep_timestamp_length (rooted : Bool) (st : List (List Char))
    (last ts : List Char) (hts : ts.length = 10) :
    (joinSlash (cleanStep rooted st last).reverse).length + 10 ≤
      (joinSlash (cleanStep rooted st (last ++ ts)).reverse).length := by
  rw [cleanStep_timestamp rooted st last ts hts]
  unfold cleanStep
  split
  · simp only [joinSlash_length, List.map_reverse, List.sum_reverse, List.length_reverse,
      List.map_cons, List.sum_cons, List.length_cons, List.length_append, hts]
    omega
  · split
    · cases st with
      | nil =>
        rename_i h
        subst h
        cases rooted <;> simp [joinSlash_length, hts]
      | cons top below =>
        rename_i h
        subst h
        simp only []
        split
        · simp only [joinSlash_length, List.map_reverse, List.sum_reverse, List.length_reverse,
            List.map_cons, List.sum_cons, List.length_cons, List.length_append, hts,
            List.length_nil]
          omega
        · simp only [joinSlash_length, List.map_reverse, List.sum_reverse, List.length_reverse,
            List.map_cons, List.sum_cons, List.length_cons, List.length_append, hts,
            List.length_nil]
          omega
    · simp only [joinSlash_length, List.map_reverse, List.sum_reverse, List.length_reverse,
        List.map_cons, List.sum_cons, List.length_cons, List.length_append, hts]
      omega

/-- Cleaning never maps a path and the same path followed by a ten-character text
without slashes (such as `.timestamp`) to one path. -/
theorem clean_append_ne (p ts : List Char) (hp : p ≠ []) (hts : ts.length = 10)
    (hslash : ∀ c ∈ ts, c ≠ '/') : clean (p ++ ts) ≠ clean p := by
  intro heq
  have hlen := congrArg List.length heq
  rw [clean_length, clean_length] at hlen
  have hhead : (p ++ ts).head? = p.head? := by
    cases p with
    | nil => exact absurd rfl hp
    | cons c cs => rfl
  obtain ⟨init, last, h1, h2⟩ := splitSlash_append p ts hslash
  rw [hhead, h1, h2] at hlen
  simp only [List.foldl_append, List.foldl_cons, List.foldl_nil] at hlen
  have k1 := cleanStep_timestamp_length true (List.foldl (cleanStep true) [] init) last ts hts
  have k2 := cleanStep_timestamp_length false (List.foldl (cleanStep false) [] init) last ts hts
  simp only [List.length_eq_zero.symm] at hlen
  split at hlen
  · omega
  · split at hlen <;> split at hlen <;> omega

/-- A cleaned path ends with the last character of the path, when that is neither a
slash nor a dot. -/
theorem clean_getLast (q : List Char) (c : Char) (h1 : c ≠ '/') (h2 : c ≠ '.') :
    (clean (q ++ [c])).getLast? = some c := by
  obtain ⟨init, last, _, hs⟩ := splitSlash_append q [c] (by simpa using h1)
  have hstep : ∀ rooted st, cleanStep rooted st (last ++ [c]) = (last ++ [c]) :: st := by
    intro rooted st
    apply cleanStep_normal
    · simp
    · intro h
      have := congrArg List.getLast? h
      simp at this
      exact h2 this
    · intro h
      have := congrArg List.getLast? h
      simp at this
      exact h2 this
  unfold clean
  simp only [hs, List.foldl_append, List.foldl_cons, List.foldl_nil, hstep, List.reverse_cons]
  obtain ⟨r, hr⟩ := joinSlash_concat
    (List.foldl (cleanStep (decide ((q ++ [c]).head? = some '/'))) [] init).reverse (last ++ [c])
  rw [hr]
  split
  · rw [← List.cons_append, ← List.append_assoc, List.getLast?_append]; simp
  · split
    · rename_i h; simp at h
    · rw [← List.append_assoc, List.getLast?_append]; simp

theorem filepathJoin_getLast (d n : String) (q : List Char) (c : Char)
    (hn : n.data = q ++ [c]) (h1 : c ≠ '/') (h2 : c ≠ '.') :
    (filepathJoin d n).data.getLast? = some c := by
  have hne : n ≠ "" := by
    intro h
    rw [h] at hn
    have := congrArg List.length hn
    simp at this
  unfold filepathJoin
  by_cases hd : d = ""
  · simp only [hd, if_true, hne, if_false, hn]
    exact clean_getLast q c h1 h2
  · simp only [hd, if_false, hn]
    have : d.data ++ '/' :: (q ++ [c]) = (d.data ++ '/' :: q) ++ [c] := by simp
    rw [this]
    exact clean_getLast _ c h1 h2

theorem filepathJoin_timestamp_ne (d n : String) (hn : n ≠ "") :
    filepathJoin d n ≠ filepathJoin d (n ++ ".timestamp") := by
  have hdata : n.data ≠ [] := by
    intro h
    apply hn
    cases n
    simp_all
  have hn2 : n ++ ".timestamp" ≠ "" := by
    intro h
    have := congrArg String.data h
    simp at this
  have hts : ".timestamp".data.length = 10 := by decide
  have hslash : ∀ c ∈ ".timestamp".data, c ≠ '/' := by decide
  unfold filepathJoin
  by_cases hd : d = ""
  · simp only [hd, if_true, hn, hn2, if_false, String.data_append]
    intro h
    have h3 := congrArg String.data h
    exact clean_append_ne n.data ".timestamp".data hdata hts hslash h3.symm
  · simp only [hd, if_false, String.data_append]
    intro h
    have h3 := congrArg String.data h
    have h4 : d.data ++ '/' :: (n.data ++ ".timestamp".data) =
        (d.data ++ '/' :: n.data) ++ ".timestamp".data := by simp
    simp only [h4] at h3
    exact clean_append_ne _ ".timestamp".data (by simp) hts hslash h3.symm

theorem timestampPath_ne_lockPath (env : Env) (cacheDir subcache bibFile : String) :
    timestampPath env cacheDir subcache bibFile ≠ lockPath env cacheDir bibFile := by
  intro h
  have h1 := filepathJoin_getLast cacheDir (env.cacheName bibFile ++ "." ++ subcache ++ ".timestamp")
    ((env.cacheName bibFile ++ "." ++ subcache).data ++ ".timestam".data) 'p'
    (by simp [String.data_append]) (by decide) (by decide)
  have h2 := filepathJoin_getLast cacheDir (env.cacheName bibFile ++ ".lock")
    ((env.cacheName bibFile).data ++ ".loc".data) 'k'
    (by simp [String.data_append]) (by decide) (by decide)
  unfold timestampPath lockPath at h
  rw [h, h2] at h1
  exact absurd h1 (by decide)

theorem dataPath_ne_timestampPath (env : Env) (cacheDir subcache bibFile : String) :
    dataPath env cacheDir subcache bibFile ≠ timestampPath env cacheDir subcache bibFile := by
  unfold dataPath timestampPath
  apply filepathJoin_timestamp_ne
  intro h
  have := congrArg String.data h
  simp at this

/-! ### Numbers -/

theorem digit_toNat (d : Nat) (h : d < 10) : (Char.ofNat (48 + d)).toNat = 48 + d := by
  interval_cases d <;> rfl

theorem digit_plain (d : Nat) (h : d < 10) :
    Char.ofNat (48 + d) ≠ '\n' ∧ Char.ofNat (48 + d) ≠ '\r' ∧ Char.ofNat (48 + d) ≠ '+' ∧
      Char.ofNat (48 + d) ≠ '-' := by
  interval_cases d <;> decide

theorem parseUintLoop_cons (c : Char) (cs : List Char) (n : Nat) :
    parseUintLoop (c :: cs) n =
      if 48 ≤ c.toNat ∧ c.toNat ≤ 57 then
        if n ≥ maxUint64 / 10 + 1 then .rangeErr
        else if n * 10 + (c.toNat - 48) > maxUint64 then .rangeErr
        else parseUintLoop cs (n * 10 + (c.toNat - 48))
      else .syntaxErr := by
  simp [parseUintLoop]

theorem parseUintLoop_digit (d : Nat) (hd : d < 10) (cs : List Char) (n : Nat)
    (h : n * 10 + d ≤ maxUint64) :
    parseUintLoop (Char.ofNat (48 + d) :: cs) n = parseUintLoop cs (n * 10 + d) := by
  rw [parseUintLoop_cons, digit_toNat d hd]
  unfold maxUint64 at *
  have h1 : 48 ≤ 48 + d ∧ 48 + d ≤ 57 := by omega
  have h2 : ¬ (n ≥ 18446744073709551615 / 10 + 1) := by omega
  have h3 : ¬ (n * 10 + (48 + d - 48) > 18446744073709551615) := by omega
  have h4 : n * 10 + (48 + d - 48) = n * 10 + d := by omega
  rw [if_pos h1, if_neg h2, if_neg h3, h4]

/-- Reading the digits written for `n` continues from `n`. -/
theorem parseUintLoop_formatBits (fuel : Nat) :
    ∀ (n : Nat) (acc : List Char), n < fuel → n ≤ maxUint64 →
      parseUintLoop (formatBits fuel n acc) 0 = parseUintLoop acc n := by
  induction fuel with
  | zero => intro n acc h; omega
  | succ fuel ih =>
    intro n acc hfuel hmax
    unfold formatBits
    by_cases h10 : n < 10
    · simp only [h10, if_true]
      rw [parseUintLoop_digit n h10 acc 0 (by omega)]
      simp
    · simp only [h10, if_false]
      rw [ih (n / 10) _ (by omega) (by unfold maxUint64 at *; omega)]
      rw [parseUintLoop_digit (n % 10) (Nat.mod_lt _ (by omega)) acc (n / 10)
        (by unfold maxUint64 at *; omega)]
      congr 1
      omega

theorem formatBits_head (fuel : Nat) :
    ∀ (n : Nat) (acc : List Char),
      ∃ d rest, d < 10 ∧ formatBits (fuel + 1) n acc = Char.ofNat (48 + d) :: rest := by
  induction fuel with
  | zero =>
    intro n acc
    unfold formatBits
    by_cases h10 : n < 10
    · exact ⟨n, acc, h10, by simp [h10]⟩
    · exact ⟨n % 10, acc, Nat.mod_lt _ (by omega), by simp [h10, formatBits]⟩
  | succ fuel ih =>
    intro n acc
    unfold formatBits
    by_cases h10 : n < 10
    · exact ⟨n, acc, h10, by simp [h10]⟩
    · simp only [h10, if_false]
      exact ih _ _

theorem formatBits_mem (fuel : Nat) :
    ∀ (n : Nat) (acc : List Char) (c : Char), c ∈ formatBits fuel n acc →
      (∃ d, d < 10 ∧ c = Char.ofNat (48 + d)) ∨ c ∈ acc := by
  induction fuel with
  | zero => intro n acc c h; right; simpa [formatBits] using h
  | succ fuel ih =>
    intro n acc c h
    unfold formatBits at h
    by_cases h10 : n < 10
    · simp only [h10, if_true, List.mem_cons] at h
      rcases h with h | h
      · exact Or.inl ⟨n, h10, h⟩
      · exact Or.inr h
    · simp only [h10, if_false] at h
      rcases ih _ _ _ h with h | h
      · exact Or.inl h
      · simp only [List.mem_cons] at h
        rcases h with h | h
        · exact Or.inl ⟨n % 10, Nat.mod_lt _ (by omega), h⟩
        · exact Or.inr h

theorem formatBits_length (k : Nat) :
    ∀ (fuel n : Nat) (acc : List Char), n < 10 ^ (k + 1) →
      (formatBits fuel n acc).length ≤ acc.length + (k + 1) := by
  induction k with
  | zero =>
    intro fuel n acc h
    cases fuel with
    | zero => simp [formatBits]
    | succ fuel =>
      have h10 : n < 10 := by simpa using h
      simp [formatBits, h10]
  | succ k ih =>
    intro fuel n acc h
    cases fuel with
    | zero => simp [formatBits]
    | succ fuel =>
      unfold formatBits
      by_cases h10 : n < 10
      · simp only [h10, if_true, List.length_cons]; omega
      · simp only [h10, if_false]
        have hdiv : n / 10 < 10 ^ (k + 1) := by
          rw [Nat.div_lt_iff_lt_mul (by omega)]
          calc n < 10 ^ (k + 1 + 1) := h
            _ = 10 ^ (k + 1) * 10 := by ring
        have := ih fuel (n / 10) (Char.ofNat (48 + n % 10) :: acc) hdiv
        simp only [List.length_cons] at this
        omega

theorem parseUint_formatBits (n : Nat) (h : n ≤ maxUint64) :
    parseUint (formatBits (n + 1) n []) = .value n := by
  obtain ⟨d, rest, _, hd⟩ := formatBits_head n n []
  unfold parseUint
  rw [if_neg (by rw [hd]; simp), parseUintLoop_formatBits (n + 1) n [] (by omega) h]
  rfl

theorem toInt64_range (i : Int) : minInt64 ≤ toInt64 i ∧ toInt64 i ≤ maxInt64 := by
  unfold toInt64 minInt64 maxInt64
  omega

theorem toInt64_id (i : Int) (h1 : minInt64 ≤ i) (h2 : i ≤ maxInt64) : toInt64 i = i := by
  unfold toInt64 minInt64 maxInt64 at *
  omega

/-- What `FormatInt` writes for an int64, `ParseInt` reads back without an error. -/
theorem parseInt_formatInt (t : Int) (h1 : minInt64 ≤ t) (h2 : t ≤ maxInt64) :
    parseInt (formatInt t) = (t, none) := by
  unfold minInt64 maxInt64 at *
  have hmax : t.natAbs ≤ maxUint64 := by unfold maxUint64; omega
  have hp := parseUint_formatBits t.natAbs hmax
  by_cases hneg : t < 0
  · unfold formatInt parseInt
    simp only [hneg, if_true, hp]
    have h3 : ¬ (9223372036854775808 < t.natAbs) := by omega
    simp only [decide_True, or_true, if_true, Bool.true_eq_false, false_and, if_false, true_and]
    rw [hp]
    simp only [gt_iff_lt, h3, if_false, Prod.mk.injEq, and_true]
    omega
  · obtain ⟨d, rest, hd10, hd⟩ := formatBits_head t.natAbs t.natAbs []
    obtain ⟨_, _, hplus, hminus⟩ := digit_plain d hd10
    unfold formatInt parseInt
    simp only [hneg, if_false]
    rw [hd] at hp ⊢
    have h3 : ¬ (t.natAbs ≥ 9223372036854775808) := by omega
    simp only [hplus, hminus, or_self, if_false, decide_False]
    rw [hp]
    simp only [h3, and_false, if_false, Bool.false_eq_true, false_and, Prod.mk.injEq, and_true]
    omega

theorem formatInt_mem (t : Int) (c : Char) (h : c ∈ (formatInt t).data) :
    c ≠ '\n' ∧ c ≠ '\r' := by
  have key : ∀ c ∈ formatBits (t.natAbs + 1) t.natAbs [], c ≠ '\n' ∧ c ≠ '\r' := by
    intro c hc
    rcases formatBits_mem _ _ _ c hc with ⟨d, hd, rfl⟩ | hc
    · exact ⟨(digit_plain d hd).1, (digit_plain d hd).2.1⟩
    · simp at hc
  unfold formatInt at h
  by_cases hneg : t < 0
  · simp only [hneg, if_true, List.mem_cons] at h
    rcases h with rfl | h
    · decide
    · exact key c h
  · simp only [hneg, if_false] at h
    exact key c h

theorem formatInt_length (t : Int) (h1 : minInt64 ≤ t) (h2 : t ≤ maxInt64) :
    (formatInt t).data.length ≤ 20 ∧ (formatInt t).data ≠ [] := by
  unfold minInt64 maxInt64 at *
  have hlen := formatBits_length 18 (t.natAbs + 1) t.natAbs [] (by norm_num; omega)
  obtain ⟨d, rest, _, hd⟩ := formatBits_head t.natAbs t.natAbs []
  unfold formatInt
  by_cases hneg : t < 0
  · simp only [hneg, if_true, List.length_cons]
    simp at hlen
    exact ⟨by omega, by simp⟩
  · simp only [hneg, if_false]
    simp at hlen
    exact ⟨by omega, by rw [hd]; simp⟩

theorem byteLen_le (l : List Char) : byteLen l ≤ 4 * l.length := by
  induction l with
  | nil => simp [byteLen]
  | cons c cs ih =>
    have := c.utf8Size_le_four
    simp only [byteLen, List.map_cons, List.sum_cons, List.length_cons] at *
    omega

theorem breakLine_noNewline (l : List Char) (h : ∀ c ∈ l, c ≠ '\n') :
    breakLine l = (l, none) := by
  induction l with
  | nil => rfl
  | cons c cs ih =>
    have hc : c ≠ '\n' := h c (by simp)
    have := ih (fun d hd => h d (by simp [hd]))
    simp [breakLine, hc, this]

theorem dropCR_plain (l : List Char) (h : ∀ c ∈ l, c ≠ '\r') : dropCR l = l := by
  unfold dropCR
  split
  · rename_i hl
    exact absurd rfl (h _ (List.mem_of_getLast?_eq_some hl))
  · rfl

/-- The scanner reads the text that `FormatInt` wrote for an int64 as one token. -/
theorem scanFirst_formatInt (t : Int) (h1 : minInt64 ≤ t) (h2 : t ≤ maxInt64) :
    scanFirst (formatInt t) = some (formatInt t) := by
  obtain ⟨hlen, hne⟩ := formatInt_length t h1 h2
  have hbreak := breakLine_noNewline (formatInt t).data (fun c hc => (formatInt_mem t c hc).1)
  have hcr := dropCR_plain (formatInt t).data (fun c hc => (formatInt_mem t c hc).2)
  have hbytes := byteLen_le (formatInt t).data
  unfold scanFirst scan
  rw [if_neg hne, hbreak]
  simp only [hcr]
  rw [if_neg (by unfold maxScanTokenSize; omega)]

/-! ## Facts about the model -/

@[simp] theorem Files.set_same (f : Files) (p : String) (v : Option String) :
    f.set p v p = v := by
  simp [Files.set]

theorem Files.set_other (f : Files) (p q : String) (v : Option String) (h : q ≠ p) :
    f.set p v q = f q := by
  simp [Files.set, h]

/-- Creating and then removing a marker that was absent leaves the files as they were. -/
theorem Files.set_set_none (f : Files) (p : String) (v : Option String) (h : f p = none) :
    (f.set p v).set p none = f := by
  funext q
  by_cases hq : q = p
  · subst hq; simp [Files.set, h]
  · simp [Files.set, hq]

@[simp] theorem Outcome.bind_done (a : α) (w : World) (f : α → World → Outcome β) :
    (Outcome.done a w).bind f = f a w := rfl

@[simp] theorem Outcome.bind_abort (w : World) (f : α → World → Outcome β) :
    (Outcome.abort w : Outcome α).bind f = .abort w := rfl

@[simp] theorem Outcome.bind_spin (w : World) (f : α → World → Outcome β) :
    (Outcome.spin w : Outcome α).bind f = .spin w := rfl

@[simp] theorem Outcome.value_done (a : α) (w : World) :
    (Outcome.done a w).value? = some a := rfl

@[simp] theorem Outcome.value_abort (w : World) : (Outcome.abort w : Outcome α).value? = none :=
  rfl

@[simp] theorem Outcome.value_spin (w : World) : (Outcome.spin w : Outcome α).value? = none :=
  rfl

@[simp] theorem Outcome.world_done (a : α) (w : World) : (Outcome.done a w).world = w := rfl

@[simp] theorem Outcome.world_abort (w : World) : (Outcome.abort w : Outcome α).world = w := rfl

@[simp] theorem Outcome.world_spin (w : World) : (Outcome.spin w : Outcome α).world = w := rfl

@[simp] theorem Outcome.returns_done (a : α) (w : World) : (Outcome.done a w).returns = true :=
  rfl

@[simp] theorem Outcome.returns_abort (w : World) :
    (Outcome.abort w : Outcome α).returns = false := rfl

@[simp] theorem Outcome.returns_spin (w : World) :
    (Outcome.spin w : Outcome α).returns = false := rfl

@[simp] theorem Outcome.aborts_done (a : α) (w : World) : (Outcome.done a w).aborts = false :=
  rfl

@[simp] theorem Outcome.aborts_abort (w : World) :
    (Outcome.abort w : Outcome α).aborts = true := rfl

@[simp] theorem Outcome.aborts_spin (w : World) :
    (Outcome.spin w : Outcome α).aborts = false := rfl

@[simp] theorem Outcome.spins_done (a : α) (w : World) : (Outcome.done a w).spins = false :=
  rfl

@[simp] theorem Outcome.spins_abort (w : World) :
    (Outcome.abort w : Outcome α).spins = false := rfl

@[simp] theorem Outcome.spins_spin (w : World) : (Outcome.spin w : Outcome α).spins = true :=
  rfl

@[simp] theorem World.record_files (w : World) (e : Event) (f : Files) :
    (w.record e f).files = f := rfl

@[simp] theorem World.record_modTime (w : World) (e : Event) (f : Files) :
    (w.record e f).modTime = w.modTime := rfl

@[simp] theorem World.record_clock (w : World) (e : Event) (f : Files) :
    (w.record e f).clock = w.clock := rfl

@[simp] theorem World.record_tick (w : World) (e : Event) (f : Files) :
    (w.record e f).tick = w.tick := rfl

@[simp] theorem World.record_log (w : World) (e : Event) (f : Files) :
    (w.record e f).log = w.log ++ [⟨e, f⟩] := rfl

@[simp] theorem World.record_fsTime (w : World) (e : Event) (f : Files) :
    (w.record e f).fsTime = w.fsTime := rfl

@[simp] theorem World.record_fsTick (w : World) (e : Event) (f : Files) :
    (w.record e f).fsTick = w.fsTick := rfl

@[simp] theorem World.touch_files (w : World) (p : String) : (w.touch p).files = w.files := rfl

@[simp] theorem World.touch_log (w : World) (p : String) : (w.touch p).log = w.log := rfl

@[simp] theorem World.touch_clock (w : World) (p : String) : (w.touch p).clock = w.clock := rfl

@[simp] theorem World.touch_tick (w : World) (p : String) : (w.touch p).tick = w.tick := rfl

@[simp] theorem World.touch_fsTime (w : World) (p : String) : (w.touch p).fsTime = w.fsTime :=
  rfl

theorem World.touch_modTime_other (w : World) (p q : String) (h : q ≠ p) :
    (w.touch p).modTime q = w.modTime q := by
  simp [World.touch, h]

theorem World.touch_modTime_same (w : World) (p : String) :
    (w.touch p).modTime p = some (w.fsTime w.fsTick) := by
  simp [World.touch]

@[simp] theorem writeString_files (env : Env) (path text : String) (w : World) :
    (writeString env path text w).files = w.files.set path (some (written env path text)) := by
  unfold writeString
  split <;> rfl

@[simp] theorem writeString_log (env : Env) (path text : String) (w : World) :
    (writeString env path text w).log =
      w.log ++ [⟨.writeString path text, w.files.set path (some (written env path text))⟩] := by
  unfold writeString
  split <;> rfl

@[simp] theorem writeString_clock (env : Env) (path text : String) (w : World) :
    (writeString env path text w).clock = w.clock := by
  unfold writeString
  split <;> rfl

@[simp] theorem writeString_tick (env : Env) (path text : String) (w : World) :
    (writeString env path text w).tick = w.tick := by
  unfold writeString
  split <;> rfl

@[simp] theorem writeString_fsTime (env : Env) (path text : String) (w : World) :
    (writeString env path text w).fsTime = w.fsTime := by
  unfold writeString
  split <;> rfl

theorem writeString_modTime_other (env : Env) (path text : String) (w : World) (q : String)
    (h : q ≠ path) : (writeString env path text w).modTime q = w.modTime q := by
  unfold writeString
  split
  · rfl
  · simp [World.touch, h]

@[simp] theorem osStat_record_same (env : Env) (w : World) (e : Event) (p : String) :
    osStat env (w.record e w.files) p = osStat env w p := rfl

/-- The result of `os.Stat` depends on the world only through the files and the
modification times. -/
theorem osStat_congr (env : Env) (w w1 : World) (p : String)
    (hf : w1.files (env.resolve p) = w.files (env.resolve p))
    (hm : w1.modTime (env.resolve p) = w.modTime (env.resolve p)) :
    osStat env w1 p = osStat env w p := by
  simp [osStat, hf, hm]

/-- A source that exists is not a file that does not. -/
theorem resolve_ne_of_stat (env : Env) (w : World) (p q : String) (m : Int)
    (hstat : osStat env w p = some m) (hq : w.files q = none) : env.resolve p ≠ q := by
  intro h
  rw [osStat, h, hq] at hstat
  simp at hstat

/-- Holding the lock marker does not change what `os.Stat` gives for a source that
exists while the marker does not. -/
theorem osStat_locked (env : Env) (w : World) (p lockFile : String) (e : Event)
    (v : Option String) (m : Int)
    (hstat : osStat env w p = some m) (hmarker : w.files lockFile = none) :
    osStat env (w.record e (w.files.set lockFile v)) p = some m := by
  have hne := resolve_ne_of_stat env w p lockFile m hstat hmarker
  rw [← hstat]
  apply osStat_congr
  · simp [Files.set, hne]
  · rfl

/-- The marker is acquired at once when it is absent and its creation does not fail. -/
theorem lock_done (env : Env) (cacheDir cacheFile : String) (w : World)
    (hexcl : env.exclErr (filepathJoin cacheDir (cacheFile ++ ".lock")) = false)
    (hmarker : w.files (filepathJoin cacheDir (cacheFile ++ ".lock")) = none) :
    lock env cacheDir cacheFile w =
      .done () (w.record (.openExcl (filepathJoin cacheDir (cacheFile ++ ".lock")))
        (w.files.set (filepathJoin cacheDir (cacheFile ++ ".lock")) (some ""))) := by
  simp [lock, hexcl, hmarker]

theorem unlock_done (env : Env) (cacheDir cacheFile : String) (w : World)
    (hremove : env.removeErr (filepathJoin cacheDir (cacheFile ++ ".lock")) = false) :
    unlock env cacheDir cacheFile w =
      .done () (w.record (.remove (filepathJoin cacheDir (cacheFile ++ ".lock")))
        (w.files.set (filepathJoin cacheDir (cacheFile ++ ".lock")) none)) := by
  simp [unlock, hremove]

theorem isFreshBody_missing (env : Env) (cacheDir subcache bibFile : String) (w : World)
    (h1 : w.files (timestampPath env cacheDir subcache bibFile) = none) :
    isFreshBody env cacheDir subcache bibFile w =
      .done false (w.record (.openRead (timestampPath env cacheDir subcache bibFile)) w.files) := by
  unfold timestampPath at h1 ⊢
  simp [isFreshBody, h1]

theorem isFreshBody_tooLong (env : Env) (cacheDir subcache bibFile : String) (w : World)
    (content : String)
    (h1 : w.files (timestampPath env cacheDir subcache bibFile) = some content)
    (h2 : scanFirst content = none) :
    isFreshBody env cacheDir subcache bibFile w =
      .abort (w.record (.openRead (timestampPath env cacheDir subcache bibFile)) w.files) := by
  unfold timestampPath at h1 ⊢
  simp [isFreshBody, h1, h2]

theorem isFreshBody_noStat (env : Env) (cacheDir subcache bibFile : String) (w : World)
    (content text : String)
    (h1 : w.files (timestampPath env cacheDir subcache bibFile) = some content)
    (h2 : scanFirst content = some text) (h3 : osStat env w bibFile = none) :
    isFreshBody env cacheDir subcache bibFile w =
      .abort ((w.record (.openRead (timestampPath env cacheDir subcache bibFile)) w.files).record
        (.stat bibFile) w.files) := by
  unfold timestampPath at h1 ⊢
  simp [isFreshBody, h1, h2, h3]

theorem isFreshBody_verdict (env : Env) (cacheDir subcache bibFile : String) (w : World)
    (content text : String) (m : Int)
    (h1 : w.files (timestampPath env cacheDir subcache bibFile) = some content)
    (h2 : scanFirst content = some text) (h3 : osStat env w bibFile = some m) :
    isFreshBody env cacheDir subcache bibFile w =
      .done (decide (toInt64 m ≤ (parseInt text).1))
        ((w.record (.openRead (timestampPath env cacheDir subcache bibFile)) w.files).record
          (.stat bibFile) w.files) := by
  unfold timestampPath at h1 ⊢
  by_cases h4 : (parseInt text).1 < toInt64 m
  · have h5 : ¬ (toInt64 m ≤ (parseInt text).1) := by omega
    simp [isFreshBody, h1, h2, h3, h4, h5]
  · have h5 : toInt64 m ≤ (parseInt text).1 := by omega
    simp [isFreshBody, h1, h2, h3, h4, h5]

/-- The verdict of the body of `isFresh`, from the timestamp file and the source's
modification time. -/
theorem isFreshBody_value (env : Env) (cacheDir subcache bibFile : String) (w : World) :
    (isFreshBody env cacheDir subcache bibFile w).value? =
      match w.files (timestampPath env cacheDir subcache bibFile) with
      | none => some false
      | some content =>
        match scanFirst content with
        | none => none
        | some text =>
          match osStat env w bibFile with
          | none => none
          | some m => some (decide (toInt64 m ≤ (parseInt text).1)) := by
  cases h1 : w.files (timestampPath env cacheDir subcache bibFile) with
  | none => rw [isFreshBody_missing _ _ _ _ _ h1]; rfl
  | some content =>
    cases h2 : scanFirst content with
    | none => rw [isFreshBody_tooLong _ _ _ _ _ _ h1 h2]; simp [h2, Outcome.value?]
    | some text =>
      cases h3 : osStat env w bibFile with
      | none => rw [isFreshBody_noStat _ _ _ _ _ _ _ h1 h2 h3]; simp [h2, Outcome.value?]
      | some m => rw [isFreshBody_verdict _ _ _ _ _ _ _ _ h1 h2 h3]; simp [h2, Outcome.value?]

theorem isFreshBody_world (env : Env) (cacheDir subcache bibFile : String) (w : World) :
    (isFreshBody env cacheDir subcache bibFile w).world.files = w.files ∧
    (isFreshBody env cacheDir subcache bibFile w).world.modTime = w.modTime ∧
    (isFreshBody env cacheDir subcache bibFile w).world.clock = w.clock ∧
    (isFreshBody env cacheDir subcache bibFile w).world.tick = w.tick ∧
    (isFreshBody env cacheDir subcache bibFile w).spins = false ∧
    delivered (isFreshBody env cacheDir subcache bibFile w).world.log = delivered w.log ∧
    parsed (isFreshBody env cacheDir subcache bibFile w).world.log = parsed w.log := by
  cases h1 : w.files (timestampPath env cacheDir subcache bibFile) with
  | none =>
    rw [isFreshBody_missing _ _ _ _ _ h1]
    simp [Outcome.world, Outcome.spins, delivered, parsed, List.filterMap_append]
  | some content =>
    cases h2 : scanFirst content with
    | none =>
      rw [isFreshBody_tooLong _ _ _ _ _ _ h1 h2]
      simp [Outcome.world, Outcome.spins, delivered, parsed, List.filterMap_append]
    | some text =>
      cases h3 : osStat env w bibFile with
      | none =>
        rw [isFreshBody_noStat _ _ _ _ _ _ _ h1 h2 h3]
        simp [Outcome.world, Outcome.spins, delivered, parsed, List.filterMap_append]
      | some m =>
        rw [isFreshBody_verdict _ _ _ _ _ _ _ _ h1 h2 h3]
        simp [Outcome.world, Outcome.spins, delivered, parsed, List.filterMap_append]

/-- What the deferred `unlock` adds to a body that does not wait: the marker is
removed and the result is kept. -/
theorem deferred_unlock (env : Env) (cacheDir cacheFile : String) (o : Outcome α)
    (hremove : env.removeErr (filepathJoin cacheDir (cacheFile ++ ".lock")) = false)
    (hspin : o.spins = false) :
    (o.deferred (unlock env cacheDir cacheFile)).value? = o.value? ∧
    (o.deferred (unlock env cacheDir cacheFile)).returns = o.returns ∧
    (o.deferred (unlock env cacheDir cacheFile)).aborts = o.aborts ∧
    (o.deferred (unlock env cacheDir cacheFile)).spins = false ∧
    (o.deferred (unlock env cacheDir cacheFile)).world =
      o.world.record (.remove (filepathJoin cacheDir (cacheFile ++ ".lock")))
        (o.world.files.set (filepathJoin cacheDir (cacheFile ++ ".lock")) none) := by
  cases o with
  | done a w => simp [Outcome.deferred, unlock_done, hremove, Outcome.value?, Outcome.returns,
      Outcome.aborts, Outcome.spins, Outcome.world]
  | abort w => simp [Outcome.deferred, unlock_done, hremove, Outcome.value?, Outcome.returns,
      Outcome.aborts, Outcome.spins, Outcome.world]
  | spin w => simp [Outcome.spins] at hspin

/-- The verdict of `isFresh` when the marker is absent and can be created and removed. -/
theorem isFresh_value (env : Env) (cacheDir subcache bibFile : String) (w : World)
    (hmarker : w.files (lockPath env cacheDir bibFile) = none)
    (hexcl : env.exclErr (lockPath env cacheDir bibFile) = false)
    (hremove : env.removeErr (lockPath env cacheDir bibFile) = false) :
    (isFresh env cacheDir subcache bibFile w).value? =
      match w.files (timestampPath env cacheDir subcache bibFile) with
      | none => some false
      | some content =>
        match scanFirst content with
        | none => none
        | some text =>
          match osStat env (w.record (.openExcl (lockPath env cacheDir bibFile))
              (w.files.set (lockPath env cacheDir bibFile) (some ""))) bibFile with
          | none => none
          | some m => some (decide (toInt64 m ≤ (parseInt text).1)) := by
  unfold lockPath at hmarker hexcl hremove ⊢
  unfold isFresh
  simp only [lock_done env cacheDir _ w hexcl hmarker, Outcome.bind_done]
  rw [(deferred_unlock env cacheDir _ _ hremove (isFreshBody_world _ _ _ _ _).2.2.2.2.1).1]
  rw [isFreshBody_value]
  simp only [World.record_files]
  have hne := timestampPath_ne_lockPath env cacheDir subcache bibFile
  unfold lockPath at hne
  rw [Files.set_other _ _ _ _ hne]

theorem deferred_unlock_fails (env : Env) (cacheDir cacheFile : String) (o : Outcome α)
    (hremove : env.removeErr (filepathJoin cacheDir (cacheFile ++ ".lock")) = true) :
    (o.deferred (unlock env cacheDir cacheFile)).returns = false ∧
    (o.deferred (unlock env cacheDir cacheFile)).value? = none ∧
    (o.deferred (unlock env cacheDir cacheFile)).world.files = o.world.files := by
  cases o <;> simp [Outcome.deferred, unlock, hremove, Outcome.returns, Outcome.value?,
    Outcome.world]

/-- A critical section (`lock`, a body, the deferred `unlock`) that returns found the
marker absent and could create and remove it. -/
theorem section_returns_inv (env : Env) (cacheDir cacheFile : String) (w : World)
    (body : World → Outcome α)
    (h : ((lock env cacheDir cacheFile w).bind fun _ w1 =>
      (body w1).deferred (unlock env cacheDir cacheFile)).returns = true) :
    w.files (filepathJoin cacheDir (cacheFile ++ ".lock")) = none ∧
    env.exclErr (filepathJoin cacheDir (cacheFile ++ ".lock")) = false ∧
    env.removeErr (filepathJoin cacheDir (cacheFile ++ ".lock")) = false := by
  unfold lock at h
  cases hx : env.exclErr (filepathJoin cacheDir (cacheFile ++ ".lock")) with
  | true => simp [hx, Outcome.returns] at h
  | false =>
    cases hm : w.files (filepathJoin cacheDir (cacheFile ++ ".lock")) with
    | some c => simp [hx, hm, Outcome.returns] at h
    | none =>
      cases hr : env.removeErr (filepathJoin cacheDir (cacheFile ++ ".lock")) with
      | false => simp
      | true =>
        simp only [hx, hm, Bool.false_eq_true, if_false, Outcome.bind_done] at h
        rw [(deferred_unlock_fails env cacheDir cacheFile _ hr).1] at h
        simp at h

/-- A critical section started with the marker absent, when the marker can be created. -/
theorem section_eq (env : Env) (cacheDir cacheFile : String) (w : World)
    (body : World → Outcome α)
    (hmarker : w.files (filepathJoin cacheDir (cacheFile ++ ".lock")) = none)
    (hexcl : env.exclErr (filepathJoin cacheDir (cacheFile ++ ".lock")) = false) :
    ((lock env cacheDir cacheFile w).bind fun _ w1 =>
      (body w1).deferred (unlock env cacheDir cacheFile)) =
    (body (w.record (.openExcl (filepathJoin cacheDir (cacheFile ++ ".lock")))
      (w.files.set (filepathJoin cacheDir (cacheFile ++ ".lock")) (some "")))).deferred
      (unlock env cacheDir cacheFile) := by
  rw [lock_done env cacheDir cacheFile w hexcl hmarker, Outcome.bind_done]

theorem Outcome.returns_iff_value (o : Outcome α) : o.returns = true ↔ ∃ a, o.value? = some a := by
  cases o <;> simp [Outcome.returns, Outcome.value?]

theorem Outcome.done_of_value (o : Outcome α) (a : α) (h : o.value? = some a) :
    o = .done a o.world := by
  cases o <;> simp_all [Outcome.value?, Outcome.world]

theorem isFresh_returns_inv (env : Env) (cacheDir subcache bibFile : String) (w : World)
    (h : (isFresh env cacheDir subcache bibFile w).returns = true) :
    w.files (lockPath env cacheDir bibFile) = none ∧
    env.exclErr (lockPath env cacheDir bibFile) = false ∧
    env.removeErr (lockPath env cacheDir bibFile) = false :=
  section_returns_inv env cacheDir (env.cacheName bibFile) w _ h

/-- The world `isFresh` leaves when the marker is absent and can be created and
removed: files, modification times and clock are as before, nothing was parsed, no
line was delivered. -/
theorem isFresh_world (env : Env) (cacheDir subcache bibFile : String) (w : World)
    (hmarker : w.files (lockPath env cacheDir bibFile) = none)
    (hexcl : env.exclErr (lockPath env cacheDir bibFile) = false)
    (hremove : env.removeErr (lockPath env cacheDir bibFile) = false) :
    (isFresh env cacheDir subcache bibFile w).world.files = w.files ∧
    (isFresh env cacheDir subcache bibFile w).world.modTime = w.modTime ∧
    (isFresh env cacheDir subcache bibFile w).world.clock = w.clock ∧
    (isFresh env cacheDir subcache bibFile w).world.tick = w.tick ∧
    (isFresh env cacheDir subcache bibFile w).spins = false ∧
    delivered (isFresh env cacheDir subcache bibFile w).world.log = delivered w.log ∧
    parsed (isFresh env cacheDir subcache bibFile w).world.log = parsed w.log := by
  unfold lockPath at hmarker hexcl hremove
  unfold isFresh
  simp only [lock_done env cacheDir _ w hexcl hmarker, Outcome.bind_done]
  obtain ⟨h1, h2, h3, h4, h5, h6, h7⟩ := isFreshBody_world env cacheDir subcache bibFile
    (w.record (.openExcl (filepathJoin cacheDir (env.cacheName bibFile ++ ".lock")))
      (w.files.set (filepathJoin cacheDir (env.cacheName bibFile ++ ".lock")) (some "")))
  obtain ⟨_, _, _, k4, k5⟩ := deferred_unlock env cacheDir (env.cacheName bibFile) _ hremove h5
  rw [k5]
  refine ⟨?_, ?_, ?_, ?_, k4, ?_, ?_⟩
  · simp only [World.record_files, h1]
    exact Files.set_set_none _ _ _ hmarker
  · simp [h2]
  · simp [h3]
  · simp [h4]
  · simp only [World.record_log, delivered, List.filterMap_append] at h6 ⊢
    simp [h6]
  · simp only [World.record_log, parsed, List.filterMap_append] at h7 ⊢
    simp [h7]

/-- The value `ParseInt` returns with an error: 0 with a syntax error, an int64
bound with a range error. -/
theorem parseInt_error_value (s : String) :
    ((parseInt s).2 = some .errSyntax → (parseInt s).1 = 0) ∧
    ((parseInt s).2 = some .errRange →
      (parseInt s).1 = maxInt64 ∨ (parseInt s).1 = minInt64) := by
  unfold parseInt
  split
  · simp
  · simp only []
    split
    · simp
    · split <;> simp
    · split
      · simp
      · split
        · simp
        · split <;> simp

/-- The value `ParseInt` returns with a range error: the smallest int64 for a text
that starts with a minus sign, the largest otherwise. -/
theorem parseInt_range_value (s : String) :
    (parseInt s).2 = some .errRange →
      (parseInt s).1 = if s.data.head? = some '-' then minInt64 else maxInt64 := by
  unfold parseInt
  cases hd : s.data with
  | nil => simp
  | cons c cs =>
    simp only [List.head?_cons, Option.some.injEq]
    cases hp : parseUint (if c = '+' ∨ c = '-' then cs else c :: cs) with
    | syntaxErr => simp
    | rangeErr =>
      by_cases hc : c = '-'
      · simp [hc]
      · simp [hc]
    | value un =>
      by_cases hc : c = '-'
      · subst hc
        simp only [decide_True, Bool.true_eq_false, false_and, if_false, true_and, if_true]
        split <;> simp
      · simp only [hc, decide_False, true_and, Bool.false_eq_true, false_and, if_false]
        split <;> simp

theorem Outcome.value_none_of_not_returns (o : Outcome α) (h : o.returns = false) :
    o.value? = none := by
  cases o <;> simp_all [Outcome.returns, Outcome.value?]

/-- The verdict of `isFresh` depends on the world only through the files and the
modification times. -/
theorem isFresh_value_congr (env : Env) (cacheDir subcache bibFile : String) (w w1 : World)
    (hf : w1.files = w.files) (hm : w1.modTime = w.modTime) :
    (isFresh env cacheDir subcache bibFile w1).value? =
      (isFresh env cacheDir subcache bibFile w).value? := by
  by_cases h : (isFresh env cacheDir subcache bibFile w).returns = true
  · obtain ⟨h1, h2, h3⟩ := isFresh_returns_inv env cacheDir subcache bibFile w h
    rw [isFresh_value env cacheDir subcache bibFile w h1 h2 h3,
      isFresh_value env cacheDir subcache bibFile w1 (by rw [hf]; exact h1) h2 h3, hf]
    simp only [osStat, World.record_files, World.record_modTime, hm]
  · by_cases h0 : (isFresh env cacheDir subcache bibFile w1).returns = true
    · obtain ⟨h1, h2, h3⟩ := isFresh_returns_inv env cacheDir subcache bibFile w1 h0
      rw [hf] at h1
      have h4 := isFresh_value env cacheDir subcache bibFile w h1 h2 h3
      have h5 := isFresh_value env cacheDir subcache bibFile w1 (by rw [hf]; exact h1) h2 h3
      rw [hf] at h5
      simp only [osStat, World.record_files, World.record_modTime, hm] at h4 h5
      rw [h4, h5]
    · rw [Outcome.value_none_of_not_returns _ (by simpa using h0),
        Outcome.value_none_of_not_returns _ (by simpa using h)]

/-- A call of `isFresh` that returns leaves the files and the modification times as
they were. -/
theorem isFresh_done_world (env : Env) (cacheDir subcache bibFile : String) (w w1 : World)
    (b : Bool) (h : isFresh env cacheDir subcache bibFile w = .done b w1) :
    w1.files = w.files ∧ w1.modTime = w.modTime ∧ parsed w1.log = parsed w.log ∧
      delivered w1.log = delivered w.log := by
  have hr : (isFresh env cacheDir subcache bibFile w).returns = true := by
    rw [h]; rfl
  obtain ⟨h1, h2, h3⟩ := isFresh_returns_inv env cacheDir subcache bibFile w hr
  have hw := isFresh_world env cacheDir subcache bibFile w h1 h2 h3
  rw [h] at hw
  exact ⟨hw.1, hw.2.1, hw.2.2.2.2.2.2, hw.2.2.2.2.2.1⟩

theorem IsFresh_cons (env : Env) (cacheDir subcache bibFile : String) (rest : List String)
    (w : World) :
    IsFresh env cacheDir subcache (bibFile :: rest) w =
      (isFresh env cacheDir subcache bibFile w).bind fun fresh w1 =>
        if !fresh then .done false w1 else IsFresh env cacheDir subcache rest w1 := rfl

theorem IsFresh_true_iff (env : Env) (cacheDir subcache : String) (l : List String) :
    ∀ w : World, (IsFresh env cacheDir subcache l w).value? = some true ↔
      ∀ s ∈ l, (isFresh env cacheDir subcache s w).value? = some true := by
  induction l with
  | nil => intro w; simp [IsFresh, Outcome.value?]
  | cons a rest ih =>
    intro w
    rw [IsFresh_cons]
    cases h : isFresh env cacheDir subcache a w with
    | abort w1 => simp [Outcome.value?, h]
    | spin w1 => simp [Outcome.value?, h]
    | done b w1 =>
      obtain ⟨hf, hm, _, _⟩ := isFresh_done_world env cacheDir subcache a w w1 b h
      cases b with
      | false => simp [Outcome.value?, h]
      | true =>
        simp only [Outcome.bind_done, Bool.not_true, Bool.false_eq_true, if_false, ih w1,
          List.mem_cons, forall_eq_or_imp, h]
        simp only [Outcome.value_done, true_and]
        constructor
        · intro hall s hs
          rw [← isFresh_value_congr env cacheDir subcache s w w1 hf hm]
          exact hall s hs
        · intro hall s hs
          rw [isFresh_value_congr env cacheDir subcache s w w1 hf hm]
          exact hall s hs

theorem IsFresh_first_stale (env : Env) (cacheDir subcache : String) (pre : List String) :
    ∀ (w w1 w2 : World) (s : String) (post : List String),
      IsFresh env cacheDir subcache pre w = .done true w1 →
      isFresh env cacheDir subcache s w1 = .done false w2 →
      IsFresh env cacheDir subcache (pre ++ s :: post) w = .done false w2 := by
  induction pre with
  | nil =>
    intro w w1 w2 s post h1 h2
    simp only [IsFresh, Outcome.done.injEq, true_and] at h1
    subst h1
    simp [IsFresh_cons, h2]
  | cons a rest ih =>
    intro w w1 w2 s post h1 h2
    rw [List.cons_append, IsFresh_cons]
    rw [IsFresh_cons] at h1
    cases h : isFresh env cacheDir subcache a w with
    | abort w0 => simp [h] at h1
    | spin w0 => simp [h] at h1
    | done b w0 =>
      cases b with
      | false => simp [h] at h1
      | true =>
        simp only [h, Outcome.bind_done, Bool.not_true, Bool.false_eq_true, if_false] at h1 ⊢
        exact ih w0 w1 w2 s post h1 h2

/-! ### The callbacks and the bodies of the critical sections -/

theorem Extends.refl (w : World) (P : Step → Prop) : Extends w w P :=
  ⟨[], by simp, by simp⟩

theorem Extends.trans {w0 w1 w2 : World} {P : Step → Prop} (h1 : Extends w0 w1 P)
    (h2 : Extends w1 w2 P) : Extends w0 w2 P := by
  obtain ⟨n1, e1, p1⟩ := h1
  obtain ⟨n2, e2, p2⟩ := h2
  refine ⟨n1 ++ n2, by rw [e2, e1, List.append_assoc], ?_⟩
  intro st hst
  rcases List.mem_append.1 hst with h | h
  · exact p1 st h
  · exact p2 st h

theorem Extends.mono {w0 w1 : World} {P Q : Step → Prop} (h : Extends w0 w1 P)
    (hPQ : ∀ st, P st → Q st) : Extends w0 w1 Q := by
  obtain ⟨n, e, p⟩ := h
  exact ⟨n, e, fun st hst => hPQ st (p st hst)⟩

theorem Extends.record (w : World) (e : Event) (f : Files) (P : Step → Prop)
    (h : P ⟨e, f⟩) : Extends w (w.record e f) P :=
  ⟨[⟨e, f⟩], rfl, by simpa using h⟩

/-- The calls of the callback leave the files, the modification times and the clock
alone, never wait, and add only `doSomething` steps to the history. -/
theorem feed_frame (doSomething : Sink) (lines : List String) :
    ∀ w : World,
      (feed doSomething lines w).spins = false ∧
      (feed doSomething lines w).world.files = w.files ∧
      (feed doSomething lines w).world.modTime = w.modTime ∧
      (feed doSomething lines w).world.clock = w.clock ∧
      (feed doSomething lines w).world.tick = w.tick ∧
      parsed (feed doSomething lines w).world.log = parsed w.log ∧
      Extends w (feed doSomething lines w).world
        (fun st => st.after = w.files ∧ ∃ line, st.ev = .doSomething line) := by
  induction lines with
  | nil =>
    intro w
    simp only [feed, Outcome.spins_done, Outcome.world_done, true_and]
    exact Extends.refl _ _
  | cons line rest ih =>
    intro w
    unfold feed
    have hstep : Extends w (w.record (.doSomething line) w.files)
        (fun st => st.after = w.files ∧ ∃ line, st.ev = .doSomething line) :=
      Extends.record _ _ _ _ ⟨rfl, line, rfl⟩
    split
    · simp only [Outcome.spins_abort, Outcome.world_abort, World.record_files,
        World.record_modTime, World.record_clock, World.record_tick, true_and]
      exact ⟨by simp [parsed, List.filterMap_append], hstep⟩
    · obtain ⟨h1, h2, h3, h4, h5, h6, h7⟩ := ih (w.record (.doSomething line) w.files)
      refine ⟨h1, by simpa using h2, by simpa using h3, by simpa using h4, by simpa using h5, ?_,
        ?_⟩
      · rw [h6]
        simp [parsed, List.filterMap_append]
      · exact hstep.trans (by simpa using h7)

theorem delivered_append (l1 l2 : List Step) :
    delivered (l1 ++ l2) = delivered l1 ++ delivered l2 := by
  simp [delivered, List.filterMap_append]

theorem parsed_append (l1 l2 : List Step) : parsed (l1 ++ l2) = parsed l1 ++ parsed l2 := by
  simp [parsed, List.filterMap_append]

/-- When the calls of the callback all return, the lines were delivered in order. -/
theorem feed_done_delivered (doSomething : Sink) (lines : List String) :
    ∀ w w1 : World, feed doSomething lines w = .done () w1 →
      delivered w1.log = delivered w.log ++ lines := by
  induction lines with
  | nil =>
    intro w w1 h
    simp only [feed, Outcome.done.injEq, true_and] at h
    subst h
    simp
  | cons line rest ih =>
    intro w w1 h
    unfold feed at h
    split at h
    · simp at h
    · rw [ih _ _ h]
      simp [delivered_append, delivered]

/-- A callback that never panics receives all the lines. -/
theorem feed_quiet (doSomething : Sink) (hquiet : ∀ seen line, doSomething seen line = false)
    (lines : List String) :
    ∀ w : World, (feed doSomething lines w).returns = true := by
  induction lines with
  | nil => intro w; rfl
  | cons line rest ih =>
    intro w
    unfold feed
    rw [hquiet]
    simpa using ih _

theorem write_eq (env : Env) (path data : String) (w : World) :
    write env path data w =
      if env.createErr path then .abort (w.record (.create path) w.files)
      else .done () (writeString env path data
        ((w.record (.create path) (w.files.set path (some ""))).touch path)) := by
  unfold write osCreate
  split <;> simp

/-- The ways the body of `refreshAndDo` ends: the callback panics while the parser
runs, the parser panics, creating the data file fails, creating the timestamp file
fails, or the body returns. -/
theorem refreshBody_cases (env : Env) (cacheDir bibFile subcache : String)
    (formatter : Formatter) (doSomething : Sink) (w : World)
    (motive : Outcome Unit → Prop)
    (hsink : ∀ wa,
      feed doSomething (env.parse formatter w.files bibFile).lines
        (w.record (.parse bibFile) w.files) = .abort wa → motive (.abort wa))
    (hparser : ∀ w1,
      feed doSomething (env.parse formatter w.files bibFile).lines
        (w.record (.parse bibFile) w.files) = .done () w1 →
      (env.parse formatter w.files bibFile).fails = true → motive (.abort w1))
    (hdata : ∀ w1,
      feed doSomething (env.parse formatter w.files bibFile).lines
        (w.record (.parse bibFile) w.files) = .done () w1 →
      (env.parse formatter w.files bibFile).fails = false →
      env.createErr (dataPath env cacheDir subcache bibFile) = true →
      motive (.abort (w1.record (.create (dataPath env cacheDir subcache bibFile)) w1.files)))
    (hstamp : ∀ w1,
      feed doSomething (env.parse formatter w.files bibFile).lines
        (w.record (.parse bibFile) w.files) = .done () w1 →
      (env.parse formatter w.files bibFile).fails = false →
      env.createErr (dataPath env cacheDir subcache bibFile) = false →
      env.createErr (timestampPath env cacheDir subcache bibFile) = true →
      motive (.abort (refreshedData env cacheDir subcache bibFile
        (env.parse formatter w.files bibFile).data w1)))
    (hdone : ∀ w1,
      feed doSomething (env.parse formatter w.files bibFile).lines
        (w.record (.parse bibFile) w.files) = .done () w1 →
      (env.parse formatter w.files bibFile).fails = false →
      env.createErr (dataPath env cacheDir subcache bibFile) = false →
      env.createErr (timestampPath env cacheDir subcache bibFile) = false →
      motive (.done () (refreshed env cacheDir subcache bibFile
        (env.parse formatter w.files bibFile).data w1))) :
    motive (refreshBody env cacheDir bibFile subcache formatter doSomething w) := by
  have hspin := (feed_frame doSomething (env.parse formatter w.files bibFile).lines
    (w.record (.parse bibFile) w.files)).1
  unfold refreshBody bibtexParse
  simp only []
  cases hfeed : feed doSomething (env.parse formatter w.files bibFile).lines
      (w.record (.parse bibFile) w.files) with
  | spin wa => rw [hfeed] at hspin; simp at hspin
  | abort wa => simpa using hsink wa hfeed
  | done u w1 =>
    simp only [Outcome.bind_done]
    cases hfails : (env.parse formatter w.files bibFile).fails with
    | true => simpa using hparser w1 hfeed hfails
    | false =>
      simp only [Bool.false_eq_true, if_false, Outcome.bind_done, write_eq]
      cases hcd : env.createErr (dataPath env cacheDir subcache bibFile) with
      | true =>
        have := hdata w1 hfeed hfails hcd
        unfold dataPath at hcd this
        simpa [hcd] using this
      | false =>
        cases hct : env.createErr (timestampPath env cacheDir subcache bibFile) with
        | true =>
          have := hstamp w1 hfeed hfails hcd hct
          unfold refreshedData dataPath timestampPath at *
          simpa [hcd, hct, osCreate] using this
        | false =>
          have := hdone w1 hfeed hfails hcd hct
          unfold refreshed dataPath timestampPath at *
          simpa [hcd, hct, osCreate] using this

theorem refreshBody_spins (env : Env) (cacheDir bibFile subcache : String)
    (formatter : Formatter) (doSomething : Sink) (w : World) :
    (refreshBody env cacheDir bibFile subcache formatter doSomething w).spins = false := by
  apply refreshBody_cases env cacheDir bibFile subcache formatter doSomething w
    (fun o => o.spins = false) <;> intros <;> rfl

/-- The body of `refreshAndDo` returns only when the parser returned and both files
could be created. -/
theorem refreshBody_returns_inv (env : Env) (cacheDir bibFile subcache : String)
    (formatter : Formatter) (doSomething : Sink) (w : World)
    (h : (refreshBody env cacheDir bibFile subcache formatter doSomething w).returns = true) :
    env.createErr (dataPath env cacheDir subcache bibFile) = false ∧
    env.createErr (timestampPath env cacheDir subcache bibFile) = false ∧
    (env.parse formatter w.files bibFile).fails = false ∧
    ∃ w1, feed doSomething (env.parse formatter w.files bibFile).lines
        (w.record (.parse bibFile) w.files) = .done () w1 ∧
      refreshBody env cacheDir bibFile subcache formatter doSomething w =
        .done () (refreshed env cacheDir subcache bibFile
          (env.parse formatter w.files bibFile).data w1) := by
  refine refreshBody_cases env cacheDir bibFile subcache formatter doSomething w
    (fun o : Outcome Unit => o.returns = true →
      env.createErr (dataPath env cacheDir subcache bibFile) = false ∧
      env.createErr (timestampPath env cacheDir subcache bibFile) = false ∧
      (env.parse formatter w.files bibFile).fails = false ∧
      ∃ w1, feed doSomething (env.parse formatter w.files bibFile).lines
          (w.record (.parse bibFile) w.files) = .done () w1 ∧
        o = .done () (refreshed env cacheDir subcache bibFile
          (env.parse formatter w.files bibFile).data w1)) ?_ ?_ ?_ ?_ ?_ h
  · intro wa _ hr; simp at hr
  · intro w1 _ _ hr; simp at hr
  · intro w1 _ _ _ hr; simp at hr
  · intro w1 _ _ _ _ hr; simp at hr
  · intro w1 h1 h2 h3 h4 _
    exact ⟨h3, h4, h2, w1, h1, rfl⟩

theorem readBody_missing (env : Env) (cacheDir bibFile subcache : String) (doSomething : Sink)
    (w : World) (h : w.files (dataPath env cacheDir subcache bibFile) = none) :
    readBody env cacheDir bibFile subcache doSomething w =
      .abort (w.record (.openRead (dataPath env cacheDir subcache bibFile)) w.files) := by
  unfold dataPath at h ⊢
  simp [readBody, h]

theorem readBody_found (env : Env) (cacheDir bibFile subcache : String) (doSomething : Sink)
    (w : World) (content : String)
    (h : w.files (dataPath env cacheDir subcache bibFile) = some content) :
    readBody env cacheDir bibFile subcache doSomething w =
      (feed doSomething (scanAll content).1
        (w.record (.openRead (dataPath env cacheDir subcache bibFile)) w.files)).bind
        fun _ w1 => if (scanAll content).2 then .abort w1 else .done () w1 := by
  unfold dataPath at h ⊢
  simp [readBody, h]

/-- The body of `readCache` changes no file, parses nothing and never waits. -/
theorem readBody_frame (env : Env) (cacheDir bibFile subcache : String) (doSomething : Sink)
    (w : World) :
    (readBody env cacheDir bibFile subcache doSomething w).spins = false ∧
    (readBody env cacheDir bibFile subcache doSomething w).world.files = w.files ∧
    (readBody env cacheDir bibFile subcache doSomething w).world.modTime = w.modTime ∧
    (readBody env cacheDir bibFile subcache doSomething w).world.clock = w.clock ∧
    (readBody env cacheDir bibFile subcache doSomething w).world.tick = w.tick ∧
    parsed (readBody env cacheDir bibFile subcache doSomething w).world.log = parsed w.log := by
  cases h : w.files (dataPath env cacheDir subcache bibFile) with
  | none =>
    rw [readBody_missing _ _ _ _ _ _ h]
    simp [parsed_append, parsed]
  | some content =>
    rw [readBody_found _ _ _ _ _ _ _ h]
    obtain ⟨h1, h2, h3, h4, h5, h6, _⟩ := feed_frame doSomething (scanAll content).1
      (w.record (.openRead (dataPath env cacheDir subcache bibFile)) w.files)
    cases hf : feed doSomething (scanAll content).1
        (w.record (.openRead (dataPath env cacheDir subcache bibFile)) w.files) with
    | spin wa => rw [hf] at h1; simp at h1
    | abort wa =>
      rw [hf] at h2 h3 h4 h5 h6
      simp only [Outcome.world_abort, World.record_files, World.record_modTime,
        World.record_clock, World.record_tick, World.record_log] at h2 h3 h4 h5 h6
      refine ⟨rfl, h2, h3, h4, h5, ?_⟩
      simp only [Outcome.bind_abort, Outcome.world_abort]
      rw [h6]
      simp [parsed_append, parsed]
    | done u w1 =>
      rw [hf] at h2 h3 h4 h5 h6
      simp only [Outcome.world_done, World.record_files, World.record_modTime,
        World.record_clock, World.record_tick, World.record_log] at h2 h3 h4 h5 h6
      simp only [Outcome.bind_done]
      split
      · refine ⟨rfl, h2, h3, h4, h5, ?_⟩
        simp only [Outcome.world_abort]
        rw [h6]
        simp [parsed_append, parsed]
      · refine ⟨rfl, h2, h3, h4, h5, ?_⟩
        simp only [Outcome.world_done]
        rw [h6]
        simp [parsed_append, parsed]

/-- A body of `readCache` that returns found the data file, met no line that is too
long, and delivered the lines of the file in order. -/
theorem readBody_returns_inv (env : Env) (cacheDir bibFile subcache : String)
    (doSomething : Sink) (w : World)
    (h : (readBody env cacheDir bibFile subcache doSomething w).returns = true) :
    ∃ content, w.files (dataPath env cacheDir subcache bibFile) = some content ∧
      (scanAll content).2 = false ∧
      delivered (readBody env cacheDir bibFile subcache doSomething w).world.log =
        delivered w.log ++ (scanAll content).1 := by
  cases hfile : w.files (dataPath env cacheDir subcache bibFile) with
  | none =>
    rw [readBody_missing _ _ _ _ _ _ hfile] at h
    simp at h
  | some content =>
    rw [readBody_found _ _ _ _ _ _ _ hfile] at h ⊢
    refine ⟨content, rfl, ?_⟩
    cases hf : feed doSomething (scanAll content).1
        (w.record (.openRead (dataPath env cacheDir subcache bibFile)) w.files) with
    | spin wa => rw [hf] at h; simp at h
    | abort wa => rw [hf] at h; simp at h
    | done u w1 =>
      rw [hf] at h
      simp only [Outcome.bind_done] at h ⊢
      cases herr : (scanAll content).2 with
      | true => rw [herr] at h; simp at h
      | false =>
        have := feed_done_delivered _ _ _ _ hf
        simp only [World.record_log, delivered_append] at this
        simp only [Bool.false_eq_true, if_false, Outcome.world_done]
        rw [this]
        simp [delivered]

/-- With a callback that never panics, the body of `readCache` returns when the data
file exists and holds no line that is too long. -/
theorem readBody_returns (env : Env) (cacheDir bibFile subcache : String)
    (doSomething : Sink) (w : World) (content : String)
    (hquiet : ∀ seen line, doSomething seen line = false)
    (hfile : w.files (dataPath env cacheDir subcache bibFile) = some content)
    (hlines : (scanAll content).2 = false) :
    (readBody env cacheDir bibFile subcache doSomething w).returns = true := by
  rw [readBody_found _ _ _ _ _ _ _ hfile]
  have := feed_quiet doSomething hquiet (scanAll content).1
    (w.record (.openRead (dataPath env cacheDir subcache bibFile)) w.files)
  cases hf : feed doSomething (scanAll content).1
      (w.record (.openRead (dataPath env cacheDir subcache bibFile)) w.files) with
  | spin wa => rw [hf] at this; simp at this
  | abort wa => rw [hf] at this; simp at this
  | done u w1 => simp [hlines]

/-- A critical section whose body never waits, started with the marker absent, ends
with the marker absent when its removal does not fail, and never waits. -/
theorem section_marker (env : Env) (cacheDir cacheFile : String) (w : World)
    (body : World → Outcome α) (hbody : ∀ w1, (body w1).spins = false)
    (hmarker : w.files (filepathJoin cacheDir (cacheFile ++ ".lock")) = none)
    (hremove : env.removeErr (filepathJoin cacheDir (cacheFile ++ ".lock")) = false) :
    ((lock env cacheDir cacheFile w).bind fun _ w1 =>
      (body w1).deferred (unlock env cacheDir cacheFile)).world.files
        (filepathJoin cacheDir (cacheFile ++ ".lock")) = none ∧
    ((lock env cacheDir cacheFile w).bind fun _ w1 =>
      (body w1).deferred (unlock env cacheDir cacheFile)).spins = false := by
  cases hx : env.exclErr (filepathJoin cacheDir (cacheFile ++ ".lock")) with
  | true => simp [lock, hx, hmarker]
  | false =>
    rw [section_eq env cacheDir cacheFile w body hmarker hx]
    obtain ⟨_, _, _, h4, h5⟩ := deferred_unlock env cacheDir cacheFile _ hremove (hbody _)
    rw [h5]
    exact ⟨by simp, h4⟩

/-- A body that panics makes the critical section panic, whatever `unlock` does. -/
theorem deferred_aborts (env : Env) (cacheDir cacheFile : String) (o : Outcome α)
    (h : o.aborts = true) : (o.deferred (unlock env cacheDir cacheFile)).aborts = true := by
  cases o with
  | done a w => simp at h
  | spin w => simp at h
  | abort w =>
    cases hr : env.removeErr (filepathJoin cacheDir (cacheFile ++ ".lock")) <;>
      simp [Outcome.deferred, unlock, hr]

theorem Outcome.trichotomy (o : Outcome α) :
    o.returns = true ∨ o.aborts = true ∨ o.spins = true := by
  cases o <;> simp

/-- A critical section that returns had a body that returned. -/
theorem section_returns_body (env : Env) (cacheDir cacheFile : String) (w : World)
    (body : World → Outcome α) (hbody : ∀ w1, (body w1).spins = false)
    (h : ((lock env cacheDir cacheFile w).bind fun _ w1 =>
      (body w1).deferred (unlock env cacheDir cacheFile)).returns = true) :
    (body (w.record (.openExcl (filepathJoin cacheDir (cacheFile ++ ".lock")))
      (w.files.set (filepathJoin cacheDir (cacheFile ++ ".lock")) (some "")))).returns = true := by
  obtain ⟨h1, h2, h3⟩ := section_returns_inv env cacheDir cacheFile w body h
  rw [section_eq env cacheDir cacheFile w body h1 h2] at h
  rw [(deferred_unlock env cacheDir cacheFile _ h3 (hbody _)).2.1] at h
  exact h

theorem refreshed_log (env : Env) (cacheDir subcache bibFile data : String) (w1 : World) :
    (refreshed env cacheDir subcache bibFile data w1).log =
      w1.log ++
        [⟨.create (dataPath env cacheDir subcache bibFile),
            w1.files.set (dataPath env cacheDir subcache bibFile) (some "")⟩,
          ⟨.writeString (dataPath env cacheDir subcache bibFile) data,
            (w1.files.set (dataPath env cacheDir subcache bibFile) (some "")).set
              (dataPath env cacheDir subcache bibFile)
              (some (written env (dataPath env cacheDir subcache bibFile) data))⟩,
          ⟨.timeNow,
            (w1.files.set (dataPath env cacheDir subcache bibFile) (some "")).set
              (dataPath env cacheDir subcache bibFile)
              (some (written env (dataPath env cacheDir subcache bibFile) data))⟩,
          ⟨.create (timestampPath env cacheDir subcache bibFile),
            ((w1.files.set (dataPath env cacheDir subcache bibFile) (some "")).set
              (dataPath env cacheDir subcache bibFile)
              (some (written env (dataPath env cacheDir subcache bibFile) data))).set
              (timestampPath env cacheDir subcache bibFile) (some "")⟩,
          ⟨.writeString (timestampPath env cacheDir subcache bibFile)
              (formatInt (toInt64 (w1.clock w1.tick))),
            (((w1.files.set (dataPath env cacheDir subcache bibFile) (some "")).set
              (dataPath env cacheDir subcache bibFile)
              (some (written env (dataPath env cacheDir subcache bibFile) data))).set
              (timestampPath env cacheDir subcache bibFile) (some "")).set
              (timestampPath env cacheDir subcache bibFile)
              (some (written env (timestampPath env cacheDir subcache bibFile)
                (formatInt (toInt64 (w1.clock w1.tick)))))⟩] := by
  simp [refreshed]

theorem refreshed_files (env : Env) (cacheDir subcache bibFile data : String) (w1 : World) :
    (refreshed env cacheDir subcache bibFile data w1).files =
      (((w1.files.set (dataPath env cacheDir subcache bibFile) (some "")).set
        (dataPath env cacheDir subcache bibFile)
        (some (written env (dataPath env cacheDir subcache bibFile) data))).set
        (timestampPath env cacheDir subcache bibFile) (some "")).set
        (timestampPath env cacheDir subcache bibFile)
        (some (written env (timestampPath env cacheDir subcache bibFile)
          (formatInt (toInt64 (w1.clock w1.tick))))) := by
  simp [refreshed]

/-- A refresh moves the modification time of the data file and of the timestamp file
only. -/
theorem refreshed_modTime (env : Env) (cacheDir subcache bibFile data : String) (w1 : World)
    (q : String) (hd : q ≠ dataPath env cacheDir subcache bibFile)
    (ht : q ≠ timestampPath env cacheDir subcache bibFile) :
    (refreshed env cacheDir subcache bibFile data w1).modTime q = w1.modTime q := by
  unfold refreshed
  simp only []
  rw [writeString_modTime_other _ _ _ _ _ ht, World.touch_modTime_other _ _ _ ht]
  simp only [World.record_modTime]
  rw [writeString_modTime_other _ _ _ _ _ hd, World.touch_modTime_other _ _ _ hd]
  rfl

theorem refreshedData_log (env : Env) (cacheDir subcache bibFile data : String) (w1 : World) :
    (refreshedData env cacheDir subcache bibFile data w1).log =
      w1.log ++
        [⟨.create (dataPath env cacheDir subcache bibFile),
            w1.files.set (dataPath env cacheDir subcache bibFile) (some "")⟩,
          ⟨.writeString (dataPath env cacheDir subcache bibFile) data,
            (w1.files.set (dataPath env cacheDir subcache bibFile) (some "")).set
              (dataPath env cacheDir subcache bibFile)
              (some (written env (dataPath env cacheDir subcache bibFile) data))⟩,
          ⟨.timeNow,
            (w1.files.set (dataPath env cacheDir subcache bibFile) (some "")).set
              (dataPath env cacheDir subcache bibFile)
              (some (written env (dataPath env cacheDir subcache bibFile) data))⟩,
          ⟨.create (timestampPath env cacheDir subcache bibFile),
            (w1.files.set (dataPath env cacheDir subcache bibFile) (some "")).set
              (dataPath env cacheDir subcache bibFile)
              (some (written env (dataPath env cacheDir subcache bibFile) data))⟩] := by
  simp [refreshedData]

theorem refreshedData_files (env : Env) (cacheDir subcache bibFile data : String)
    (w1 : World) :
    (refreshedData env cacheDir subcache bibFile data w1).files =
      (w1.files.set (dataPath env cacheDir subcache bibFile) (some "")).set
        (dataPath env cacheDir subcache bibFile)
        (some (written env (dataPath env cacheDir subcache bibFile) data)) := by
  simp [refreshedData]

/-- While the parser runs (the call of `bibtex.Parse` and the calls of the callback it
makes) the files stay as they were. -/
theorem feed_parse_extends (doSomething : Sink) (lines : List String) (bibFile : String)
    (wl : World) :
    Extends wl (feed doSomething lines (wl.record (.parse bibFile) wl.files)).world
      (fun st => st.after = wl.files) ∧
    (feed doSomething lines (wl.record (.parse bibFile) wl.files)).world.files = wl.files := by
  obtain ⟨_, h2, _, _, _, _, h7⟩ := feed_frame doSomething lines
    (wl.record (.parse bibFile) wl.files)
  refine ⟨?_, by simpa using h2⟩
  refine (Extends.record wl (.parse bibFile) wl.files (fun st => st.after = wl.files) rfl).trans ?_
  exact h7.mono (fun st hst => by simpa using hst.1)

/-- The order of the writes in the body of `refreshAndDo`: in every state the body
passes through, the timestamp file has the content `old` it had at the start or the
data file holds what the write of the parser's text left; and in a body that does not
return the timestamp file keeps the content `old` throughout. -/
theorem refreshBody_order (env : Env) (cacheDir bibFile subcache : String)
    (formatter : Formatter) (doSomething : Sink) (wl : World) (old : Option String)
    (hold : wl.files (timestampPath env cacheDir subcache bibFile) = old) :
    Extends wl (refreshBody env cacheDir bibFile subcache formatter doSomething wl).world
      (fun st => st.after (timestampPath env cacheDir subcache bibFile) = old ∨
        st.after (dataPath env cacheDir subcache bibFile) =
          some (written env (dataPath env cacheDir subcache bibFile)
            (env.parse formatter wl.files bibFile).data)) ∧
    ((refreshBody env cacheDir bibFile subcache formatter doSomething wl).world.files
        (timestampPath env cacheDir subcache bibFile) = old ∨
      (refreshBody env cacheDir bibFile subcache formatter doSomething wl).world.files
        (dataPath env cacheDir subcache bibFile) =
          some (written env (dataPath env cacheDir subcache bibFile)
            (env.parse formatter wl.files bibFile).data)) ∧
    ((refreshBody env cacheDir bibFile subcache formatter doSomething wl).returns = false →
      Extends wl (refreshBody env cacheDir bibFile subcache formatter doSomething wl).world
        (fun st => st.after (timestampPath env cacheDir subcache bibFile) = old) ∧
      (refreshBody env cacheDir bibFile subcache formatter doSomething wl).world.files
        (timestampPath env cacheDir subcache bibFile) = old) := by
  have hdt := dataPath_ne_timestampPath env cacheDir subcache bibFile
  have htd : timestampPath env cacheDir subcache bibFile ≠ dataPath env cacheDir subcache bibFile :=
    fun h => hdt h.symm
  obtain ⟨hext, hfiles⟩ := feed_parse_extends doSomething
    (env.parse formatter wl.files bibFile).lines bibFile wl
  have hext1 : Extends wl (feed doSomething (env.parse formatter wl.files bibFile).lines
      (wl.record (.parse bibFile) wl.files)).world
      (fun st => st.after (timestampPath env cacheDir subcache bibFile) = old) :=
    hext.mono (fun st hst => by rw [hst, hold])
  refine refreshBody_cases env cacheDir bibFile subcache formatter doSomething wl
    (fun o : Outcome Unit =>
      Extends wl o.world
        (fun st => st.after (timestampPath env cacheDir subcache bibFile) = old ∨
          st.after (dataPath env cacheDir subcache bibFile) =
            some (written env (dataPath env cacheDir subcache bibFile)
              (env.parse formatter wl.files bibFile).data)) ∧
      (o.world.files (timestampPath env cacheDir subcache bibFile) = old ∨
        o.world.files (dataPath env cacheDir subcache bibFile) =
          some (written env (dataPath env cacheDir subcache bibFile)
            (env.parse formatter wl.files bibFile).data)) ∧
      (o.returns = false →
        Extends wl o.world
          (fun st => st.after (timestampPath env cacheDir subcache bibFile) = old) ∧
        o.world.files (timestampPath env cacheDir subcache bibFile) = old)) ?_ ?_ ?_ ?_ ?_
  · intro wa hf
    rw [hf] at hext1 hfiles
    simp only [Outcome.world_abort] at hext1 hfiles ⊢
    have hts : wa.files (timestampPath env cacheDir subcache bibFile) = old := by
      rw [hfiles, hold]
    exact ⟨hext1.mono (fun st h => Or.inl h), Or.inl hts, fun _ => ⟨hext1, hts⟩⟩
  · intro w1 hf _
    rw [hf] at hext1 hfiles
    simp only [Outcome.world_done, Outcome.world_abort] at hext1 hfiles ⊢
    have hts : w1.files (timestampPath env cacheDir subcache bibFile) = old := by
      rw [hfiles, hold]
    exact ⟨hext1.mono (fun st h => Or.inl h), Or.inl hts, fun _ => ⟨hext1, hts⟩⟩
  · intro w1 hf _ _
    rw [hf] at hext1 hfiles
    simp only [Outcome.world_done, Outcome.world_abort] at hext1 hfiles ⊢
    have hts : w1.files (timestampPath env cacheDir subcache bibFile) = old := by
      rw [hfiles, hold]
    have hall : Extends wl (w1.record (.create (dataPath env cacheDir subcache bibFile)) w1.files)
        (fun st => st.after (timestampPath env cacheDir subcache bibFile) = old) :=
      hext1.trans (Extends.record _ _ _ _ hts)
    exact ⟨hall.mono (fun st h => Or.inl h), Or.inl (by simpa using hts),
      fun _ => ⟨hall, by simpa using hts⟩⟩
  · intro w1 hf _ _ _
    rw [hf] at hext1 hfiles
    simp only [Outcome.world_done, Outcome.world_abort] at hext1 hfiles ⊢
    have hts : w1.files (timestampPath env cacheDir subcache bibFile) = old := by
      rw [hfiles, hold]
    have hall : Extends wl (refreshedData env cacheDir subcache bibFile
        (env.parse formatter wl.files bibFile).data w1)
        (fun st => st.after (timestampPath env cacheDir subcache bibFile) = old) := by
      refine hext1.trans ⟨_, refreshedData_log _ _ _ _ _ _, ?_⟩
      intro st hst
      simp only [List.mem_cons, List.mem_singleton, List.mem_nil_iff, or_false] at hst
      rcases hst with rfl | rfl | rfl | rfl <;> simp [Files.set, htd, hts]
    have hfin : (refreshedData env cacheDir subcache bibFile
        (env.parse formatter wl.files bibFile).data w1).files
        (timestampPath env cacheDir subcache bibFile) = old := by
      rw [refreshedData_files]
      simp [Files.set, htd, hts]
    exact ⟨hall.mono (fun st h => Or.inl h), Or.inl hfin, fun _ => ⟨hall, hfin⟩⟩
  · intro w1 hf _ _ _
    rw [hf] at hext1 hfiles
    simp only [Outcome.world_done] at hext1 hfiles ⊢
    have hts : w1.files (timestampPath env cacheDir subcache bibFile) = old := by
      rw [hfiles, hold]
    refine ⟨?_, Or.inr ?_, fun h => by simp at h⟩
    · refine (hext1.mono (fun st h => Or.inl h)).trans ⟨_, refreshed_log _ _ _ _ _ _, ?_⟩
      intro st hst
      simp only [List.mem_cons, List.mem_singleton, List.mem_nil_iff, or_false] at hst
      rcases hst with rfl | rfl | rfl | rfl | rfl <;> simp [Files.set, htd, hdt, hts]
    · rw [refreshed_files]
      simp [Files.set, hdt]

/-- The world a critical section ends in, from the world in which its body ended. -/
theorem deferred_unlock_world (env : Env) (cacheDir cacheFile : String) (o : Outcome α)
    (hspin : o.spins = false) :
    (o.deferred (unlock env cacheDir cacheFile)).world =
      o.world.record (.remove (filepathJoin cacheDir (cacheFile ++ ".lock")))
        (if env.removeErr (filepathJoin cacheDir (cacheFile ++ ".lock")) then o.world.files
          else o.world.files.set (filepathJoin cacheDir (cacheFile ++ ".lock")) none) := by
  cases hr : env.removeErr (filepathJoin cacheDir (cacheFile ++ ".lock")) <;>
    cases o <;> simp_all [Outcome.deferred, unlock]

/-- The three ways a critical section starts: creating the marker fails, the marker
exists, or the marker is created and the body runs. -/
theorem section_cases (env : Env) (cacheDir cacheFile : String) (w : World)
    (body : World → Outcome α) (motive : Outcome α → Prop)
    (hfail : env.exclErr (filepathJoin cacheDir (cacheFile ++ ".lock")) = true →
      motive (.abort (w.record (.openExcl (filepathJoin cacheDir (cacheFile ++ ".lock")))
        w.files)))
    (hheld : env.exclErr (filepathJoin cacheDir (cacheFile ++ ".lock")) = false →
      w.files (filepathJoin cacheDir (cacheFile ++ ".lock")) ≠ none →
      motive (.spin (w.record (.openExcl (filepathJoin cacheDir (cacheFile ++ ".lock")))
        w.files)))
    (hrun : env.exclErr (filepathJoin cacheDir (cacheFile ++ ".lock")) = false →
      w.files (filepathJoin cacheDir (cacheFile ++ ".lock")) = none →
      motive ((body (w.record (.openExcl (filepathJoin cacheDir (cacheFile ++ ".lock")))
        (w.files.set (filepathJoin cacheDir (cacheFile ++ ".lock")) (some "")))).deferred
        (unlock env cacheDir cacheFile))) :
    motive ((lock env cacheDir cacheFile w).bind fun _ w1 =>
      (body w1).deferred (unlock env cacheDir cacheFile)) := by
  cases hx : env.exclErr (filepathJoin cacheDir (cacheFile ++ ".lock")) with
  | true => simpa [lock, hx] using hfail hx
  | false =>
    cases hm : w.files (filepathJoin cacheDir (cacheFile ++ ".lock")) with
    | some c => simpa [lock, hx, hm] using hheld hx (by simp [hm])
    | none =>
      rw [section_eq env cacheDir cacheFile w body hm hx]
      exact hrun hx hm

/-! ### What a completed refresh and a completed read leave -/

/-- The verdict of `isFresh` depends on the world only through the marker, the
timestamp file, and the source file with its modification time. -/
theorem isFresh_value_local (env : Env) (cacheDir subcache bibFile : String) (w w1 : World)
    (hl : w1.files (lockPath env cacheDir bibFile) = w.files (lockPath env cacheDir bibFile))
    (ht : w1.files (timestampPath env cacheDir subcache bibFile) =
      w.files (timestampPath env cacheDir subcache bibFile))
    (hs : w1.files (env.resolve bibFile) = w.files (env.resolve bibFile))
    (hm : w1.modTime (env.resolve bibFile) = w.modTime (env.resolve bibFile)) :
    (isFresh env cacheDir subcache bibFile w1).value? =
      (isFresh env cacheDir subcache bibFile w).value? := by
  have hstat : ∀ e : Event,
      osStat env (w1.record e (w1.files.set (lockPath env cacheDir bibFile) (some ""))) bibFile =
      osStat env (w.record e (w.files.set (lockPath env cacheDir bibFile) (some ""))) bibFile := by
    intro e
    apply osStat_congr
    · by_cases hq : env.resolve bibFile = lockPath env cacheDir bibFile
      · simp [Files.set, hq]
      · simp [Files.set, hq, hs]
    · simpa using hm
  by_cases h : (isFresh env cacheDir subcache bibFile w).returns = true
  · obtain ⟨h1, h2, h3⟩ := isFresh_returns_inv env cacheDir subcache bibFile w h
    rw [isFresh_value env cacheDir subcache bibFile w h1 h2 h3,
      isFresh_value env cacheDir subcache bibFile w1 (by rw [hl]; exact h1) h2 h3, ht, hstat]
  · by_cases h0 : (isFresh env cacheDir subcache bibFile w1).returns = true
    · obtain ⟨h1, h2, h3⟩ := isFresh_returns_inv env cacheDir subcache bibFile w1 h0
      rw [hl] at h1
      have h4 := isFresh_value env cacheDir subcache bibFile w h1 h2 h3
      have h5 := isFresh_value env cacheDir subcache bibFile w1 (by rw [hl]; exact h1) h2 h3
      rw [ht, hstat] at h5
      rw [h4, h5]
    · rw [Outcome.value_none_of_not_returns _ (by simpa using h0),
        Outcome.value_none_of_not_returns _ (by simpa using h)]

/-- What a call of `refreshAndDo` that returns has done: the marker was absent and
could be created and removed, the parser and the callback returned, both files were
created, and the call ended in the refreshed world with the marker removed. -/
theorem refreshAndDo_done_inv (env : Env) (cacheDir bibFile subcache : String)
    (formatter : Formatter) (doSomething : Sink) (w w1 : World)
    (h : refreshAndDo env cacheDir bibFile subcache formatter doSomething w = .done () w1) :
    w.files (lockPath env cacheDir bibFile) = none ∧
    env.exclErr (lockPath env cacheDir bibFile) = false ∧
    env.removeErr (lockPath env cacheDir bibFile) = false ∧
    ∃ wf, feed doSomething
        (env.parse formatter (w.files.set (lockPath env cacheDir bibFile) (some "")) bibFile).lines
        ((w.record (.openExcl (lockPath env cacheDir bibFile))
          (w.files.set (lockPath env cacheDir bibFile) (some ""))).record (.parse bibFile)
          (w.files.set (lockPath env cacheDir bibFile) (some ""))) = .done () wf ∧
      w1 = (refreshed env cacheDir subcache bibFile
          (env.parse formatter (w.files.set (lockPath env cacheDir bibFile) (some ""))
            bibFile).data wf).record (.remove (lockPath env cacheDir bibFile))
          ((refreshed env cacheDir subcache bibFile
            (env.parse formatter (w.files.set (lockPath env cacheDir bibFile) (some ""))
              bibFile).data wf).files.set (lockPath env cacheDir bibFile) none) := by
  have hr : (refreshAndDo env cacheDir bibFile subcache formatter doSomething w).returns
      = true := by rw [h]; rfl
  obtain ⟨h1, h2, h3⟩ := section_returns_inv env cacheDir (env.cacheName bibFile) w _ hr
  have hb := section_returns_body env cacheDir (env.cacheName bibFile) w
    (refreshBody env cacheDir bibFile subcache formatter doSomething)
    (refreshBody_spins env cacheDir bibFile subcache formatter doSomething) hr
  obtain ⟨_, _, _, wf, hf, hbody⟩ := refreshBody_returns_inv _ _ _ _ _ _ _ hb
  refine ⟨h1, h2, h3, wf, hf, ?_⟩
  have heq : refreshAndDo env cacheDir bibFile subcache formatter doSomething w = _ :=
    section_eq env cacheDir (env.cacheName bibFile) w
      (refreshBody env cacheDir bibFile subcache formatter doSomething) h1 h2
  rw [heq, hbody] at h
  simp only [Outcome.deferred, unlock_done env cacheDir _ _ h3, Outcome.done.injEq,
    true_and] at h
  exact h.symm

/-- The files, the history and the clock after a call of `refreshAndDo` that returns. -/
theorem refreshAndDo_done_world (env : Env) (cacheDir bibFile subcache : String)
    (formatter : Formatter) (doSomething : Sink) (w w1 : World)
    (h : refreshAndDo env cacheDir bibFile subcache formatter doSomething w = .done () w1) :
    w1.files (lockPath env cacheDir bibFile) = none ∧
    w1.files (timestampPath env cacheDir subcache bibFile) =
      some (written env (timestampPath env cacheDir subcache bibFile)
        (formatInt (toInt64 (w.clock w.tick)))) ∧
    (dataPath env cacheDir subcache bibFile ≠ lockPath env cacheDir bibFile →
      w1.files (dataPath env cacheDir subcache bibFile) =
        some (written env (dataPath env cacheDir subcache bibFile)
          (env.parse formatter (w.files.set (lockPath env cacheDir bibFile) (some ""))
            bibFile).data)) ∧
    (∀ q, q ≠ dataPath env cacheDir subcache bibFile →
      q ≠ timestampPath env cacheDir subcache bibFile → w1.modTime q = w.modTime q) ∧
    delivered w1.log = delivered w.log ++
      (env.parse formatter (w.files.set (lockPath env cacheDir bibFile) (some ""))
        bibFile).lines ∧
    parsed w1.log = parsed w.log ++ [bibFile] ∧
    (∀ q, q ≠ lockPath env cacheDir bibFile → q ≠ dataPath env cacheDir subcache bibFile →
      q ≠ timestampPath env cacheDir subcache bibFile → w1.files q = w.files q) := by
  obtain ⟨hm, _, _, wf, hf, rfl⟩ := refreshAndDo_done_inv _ _ _ _ _ _ _ _ h
  have htl := timestampPath_ne_lockPath env cacheDir subcache bibFile
  have hdt := dataPath_ne_timestampPath env cacheDir subcache bibFile
  obtain ⟨_, f2, f3, f4, f5, f6, _⟩ := feed_frame doSomething
    (env.parse formatter (w.files.set (lockPath env cacheDir bibFile) (some "")) bibFile).lines
    ((w.record (.openExcl (lockPath env cacheDir bibFile))
      (w.files.set (lockPath env cacheDir bibFile) (some ""))).record (.parse bibFile)
      (w.files.set (lockPath env cacheDir bibFile) (some "")))
  have fd := feed_done_delivered _ _ _ _ hf
  rw [hf] at f2 f3 f4 f5 f6
  simp only [Outcome.world_done, World.record_files, World.record_modTime, World.record_clock,
    World.record_tick, World.record_log] at f2 f3 f4 f5 f6 fd
  refine ⟨by simp, ?_, ?_, ?_, ?_, ?_, ?_⟩
  · simp [refreshed_files, Files.set, htl, f4, f5]
  · intro hne
    simp [refreshed_files, Files.set, hne, hdt]
  · intro q hd ht
    simp [refreshed_modTime _ _ _ _ _ _ q hd ht, f3]
  · simp only [World.record_log, refreshed_log, delivered_append, fd]
    simp [delivered]
  · simp only [World.record_log, refreshed_log, parsed_append, f6]
    simp [parsed]
  · intro q h1 h2 h3
    simp [refreshed_files, Files.set, h1, h2, h3, f2]

/-- What a call of `readCache` that returns has done, when the data file is not the
marker: the data file existed, no line was too long, its lines were delivered in
order, and the files are as before. -/
theorem readCache_done_inv (env : Env) (cacheDir bibFile subcache : String)
    (doSomething : Sink) (w w1 : World)
    (hne : dataPath env cacheDir subcache bibFile ≠ lockPath env cacheDir bibFile)
    (h : readCache env cacheDir bibFile subcache doSomething w = .done () w1) :
    w.files (lockPath env cacheDir bibFile) = none ∧
    env.exclErr (lockPath env cacheDir bibFile) = false ∧
    env.removeErr (lockPath env cacheDir bibFile) = false ∧
    w1.files = w.files ∧ w1.modTime = w.modTime ∧ parsed w1.log = parsed w.log ∧
    ∃ content, w.files (dataPath env cacheDir subcache bibFile) = some content ∧
      (scanAll content).2 = false ∧
      delivered w1.log = delivered w.log ++ (scanAll content).1 := by
  have hr : (readCache env cacheDir bibFile subcache doSomething w).returns = true := by
    rw [h]; rfl
  obtain ⟨h1, h2, h3⟩ := section_returns_inv env cacheDir (env.cacheName bibFile) w _ hr
  have hb := section_returns_body env cacheDir (env.cacheName bibFile) w
    (readBody env cacheDir bibFile subcache doSomething)
    (fun w0 => (readBody_frame env cacheDir bibFile subcache doSomething w0).1) hr
  obtain ⟨content, c1, c2, c3⟩ := readBody_returns_inv _ _ _ _ _ _ hb
  obtain ⟨b1, b2, b3, _, _, b6⟩ := readBody_frame env cacheDir bibFile subcache doSomething
    (w.record (.openExcl (filepathJoin cacheDir (env.cacheName bibFile ++ ".lock")))
      (w.files.set (filepathJoin cacheDir (env.cacheName bibFile ++ ".lock")) (some "")))
  have heq : readCache env cacheDir bibFile subcache doSomething w = _ :=
    section_eq env cacheDir (env.cacheName bibFile) w
      (readBody env cacheDir bibFile subcache doSomething) h1 h2
  have hw := (deferred_unlock env cacheDir (env.cacheName bibFile) _ h3 b1).2.2.2.2
  rw [← heq, h] at hw
  simp only [Outcome.world_done] at hw
  unfold lockPath at hne ⊢
  refine ⟨h1, h2, h3, ?_, ?_, ?_, content, ?_, c2, ?_⟩
  · rw [hw]
    simp only [World.record_files, b2]
    exact Files.set_set_none _ _ _ h1
  · rw [hw]; simp [b3]
  · rw [hw]
    simp only [World.record_log, parsed_append, b6]
    simp [parsed]
  · simpa [Files.set, hne] using c1
  · rw [hw]
    simp only [World.record_log, delivered_append, c3]
    simp [delivered]

/-- With a callback that never panics, `readCache` returns and delivers the lines of
the data file when the marker is absent and can be created and removed, the data file
exists and holds no line that is too long. -/
theorem readCache_returns (env : Env) (cacheDir bibFile subcache : String)
    (doSomething : Sink) (w : World) (content : String)
    (hquiet : ∀ seen line, doSomething seen line = false)
    (hmarker : w.files (lockPath env cacheDir bibFile) = none)
    (hexcl : env.exclErr (lockPath env cacheDir bibFile) = false)
    (hremove : env.removeErr (lockPath env cacheDir bibFile) = false)
    (hfile : w.files (dataPath env cacheDir subcache bibFile) = some content)
    (hlines : (scanAll content).2 = false) :
    ∃ w1, readCache env cacheDir bibFile subcache doSomething w = .done () w1 := by
  have hne : dataPath env cacheDir subcache bibFile ≠ lockPath env cacheDir bibFile := by
    intro h
    rw [h, hmarker] at hfile
    simp at hfile
  unfold lockPath at hmarker hexcl hremove hne
  have heq : readCache env cacheDir bibFile subcache doSomething w = _ :=
    section_eq env cacheDir (env.cacheName bibFile) w
      (readBody env cacheDir bibFile subcache doSomething) hmarker hexcl
  have hb := readBody_returns env cacheDir bibFile subcache doSomething
    (w.record (.openExcl (filepathJoin cacheDir (env.cacheName bibFile ++ ".lock")))
      (w.files.set (filepathJoin cacheDir (env.cacheName bibFile ++ ".lock")) (some "")))
    content hquiet (by simpa [Files.set, hne] using hfile) hlines
  have hr := (deferred_unlock env cacheDir (env.cacheName bibFile)
    (readBody env cacheDir bibFile subcache doSomething
      (w.record (.openExcl (filepathJoin cacheDir (env.cacheName bibFile ++ ".lock")))
        (w.files.set (filepathJoin cacheDir (env.cacheName bibFile ++ ".lock")) (some ""))))
    hremove (readBody_frame env cacheDir bibFile subcache doSomething _).1).2.1
  rw [← heq, hb] at hr
  cases hc : readCache env cacheDir bibFile subcache doSomething w with
  | done u w1 => exact ⟨w1, rfl⟩
  | abort w1 => rw [hc] at hr; simp at hr
  | spin w1 => rw [hc] at hr; simp at hr

/-- The body of `refreshAndDo` changes no file other than the data file and the
timestamp file of its entry. -/
theorem refreshBody_frame (env : Env) (cacheDir bibFile subcache : String)
    (formatter : Formatter) (doSomething : Sink) (wl : World) (q : String)
    (hd : q ≠ dataPath env cacheDir subcache bibFile)
    (ht : q ≠ timestampPath env cacheDir subcache bibFile) :
    (refreshBody env cacheDir bibFile subcache formatter doSomething wl).world.files q =
      wl.files q := by
  obtain ⟨_, hfiles⟩ := feed_parse_extends doSomething
    (env.parse formatter wl.files bibFile).lines bibFile wl
  refine refreshBody_cases env cacheDir bibFile subcache formatter doSomething wl
    (fun o : Outcome Unit => o.world.files q = wl.files q) ?_ ?_ ?_ ?_ ?_
  · intro wa hf
    rw [hf] at hfiles
    simp only [Outcome.world_abort] at hfiles ⊢
    rw [hfiles]
  · intro w1 hf _
    rw [hf] at hfiles
    simp only [Outcome.world_done, Outcome.world_abort] at hfiles ⊢
    rw [hfiles]
  · intro w1 hf _ _
    rw [hf] at hfiles
    simp only [Outcome.world_done, Outcome.world_abort, World.record_files] at hfiles ⊢
    rw [hfiles]
  · intro w1 hf _ _ _
    rw [hf] at hfiles
    simp only [Outcome.world_done, Outcome.world_abort] at hfiles ⊢
    simp [refreshedData_files, Files.set, hd, hfiles]
  · intro w1 hf _ _ _
    rw [hf] at hfiles
    simp only [Outcome.world_done] at hfiles ⊢
    simp [refreshed_files, Files.set, hd, ht, hfiles]

/-- A call of `refreshAndDo`, however it ends, changes no file other than the marker,
the data file and the timestamp file of its entry. -/
theorem refreshAndDo_frame (env : Env) (cacheDir bibFile subcache : String)
    (formatter : Formatter) (doSomething : Sink) (w : World) (q : String)
    (hl : q ≠ lockPath env cacheDir bibFile)
    (hd : q ≠ dataPath env cacheDir subcache bibFile)
    (ht : q ≠ timestampPath env cacheDir subcache bibFile) :
    (refreshAndDo env cacheDir bibFile subcache formatter doSomething w).world.files q =
      w.files q := by
  unfold lockPath at hl
  refine section_cases env cacheDir (env.cacheName bibFile) w
    (refreshBody env cacheDir bibFile subcache formatter doSomething)
    (fun o : Outcome Unit => o.world.files q = w.files q) ?_ ?_ ?_
  · intro _; rfl
  · intro _ _; rfl
  · intro _ _
    rw [deferred_unlock_world env cacheDir (env.cacheName bibFile) _
      (refreshBody_spins env cacheDir bibFile subcache formatter doSomething _)]
    have hb := refreshBody_frame env cacheDir bibFile subcache formatter doSomething
      (w.record (.openExcl (filepathJoin cacheDir (env.cacheName bibFile ++ ".lock")))
        (w.files.set (filepathJoin cacheDir (env.cacheName bibFile ++ ".lock")) (some "")))
      q hd ht
    simp only [World.record_files] at hb ⊢
    split
    · rw [hb]; simp [Files.set, hl]
    · simp [Files.set, hl, hb]

/-- The body of `refreshAndDo` calls the parser exactly once, however it ends. -/
theorem refreshBody_parsed (env : Env) (cacheDir bibFile subcache : String)
    (formatter : Formatter) (doSomething : Sink) (wl : World) :
    parsed (refreshBody env cacheDir bibFile subcache formatter doSomething wl).world.log =
      parsed wl.log ++ [bibFile] := by
  have hp := (feed_frame doSomething (env.parse formatter wl.files bibFile).lines
    (wl.record (.parse bibFile) wl.files)).2.2.2.2.2.1
  simp only [World.record_log, parsed_append] at hp
  have hp2 : parsed [(⟨.parse bibFile, wl.files⟩ : Step)] = [bibFile] := by simp [parsed]
  rw [hp2] at hp
  refine refreshBody_cases env cacheDir bibFile subcache formatter doSomething wl
    (fun o : Outcome Unit => parsed o.world.log = parsed wl.log ++ [bibFile]) ?_ ?_ ?_ ?_ ?_
  · intro wa hf
    rw [hf] at hp
    simpa using hp
  · intro w1 hf _
    rw [hf] at hp
    simpa using hp
  · intro w1 hf _ _
    rw [hf] at hp
    simp only [Outcome.world_done] at hp
    simp only [Outcome.world_abort, World.record_log, parsed_append, hp]
    simp [parsed]
  · intro w1 hf _ _ _
    rw [hf] at hp
    simp only [Outcome.world_done] at hp
    simp only [Outcome.world_abort, refreshedData_log, parsed_append, hp]
    simp [parsed]
  · intro w1 hf _ _ _
    rw [hf] at hp
    simp only [Outcome.world_done] at hp
    simp only [Outcome.world_done, refreshed_log, parsed_append, hp]
    simp [parsed]

/-- A call of `refreshAndDo` that gets the marker calls the parser exactly once,
however it ends. -/
theorem refreshAndDo_parsed (env : Env) (cacheDir bibFile subcache : String)
    (formatter : Formatter) (doSomething : Sink) (w : World)
    (hmarker : w.files (lockPath env cacheDir bibFile) = none)
    (hexcl : env.exclErr (lockPath env cacheDir bibFile) = false) :
    parsed (refreshAndDo env cacheDir bibFile subcache formatter doSomething w).world.log =
      parsed w.log ++ [bibFile] := by
  unfold lockPath at hmarker hexcl
  have heq : refreshAndDo env cacheDir bibFile subcache formatter doSomething w = _ :=
    section_eq env cacheDir (env.cacheName bibFile) w
      (refreshBody env cacheDir bibFile subcache formatter doSomething) hmarker hexcl
  rw [heq, deferred_unlock_world env cacheDir (env.cacheName bibFile) _
    (refreshBody_spins env cacheDir bibFile subcache formatter doSomething _)]
  simp only [World.record_log, parsed_append, refreshBody_parsed]
  simp [parsed]

/-- A call of `readCache` with the marker absent and removable parses nothing and
leaves the files as they were, however it ends. -/
theorem readCache_frame (env : Env) (cacheDir bibFile subcache : String)
    (doSomething : Sink) (w : World)
    (hmarker : w.files (lockPath env cacheDir bibFile) = none)
    (hremove : env.removeErr (lockPath env cacheDir bibFile) = false) :
    parsed (readCache env cacheDir bibFile subcache doSomething w).world.log = parsed w.log ∧
    (readCache env cacheDir bibFile subcache doSomething w).world.files = w.files := by
  unfold lockPath at hmarker hremove
  refine section_cases env cacheDir (env.cacheName bibFile) w
    (readBody env cacheDir bibFile subcache doSomething)
    (fun o : Outcome Unit => parsed o.world.log = parsed w.log ∧ o.world.files = w.files)
    ?_ ?_ ?_
  · intro _; simp [parsed_append, parsed]
  · intro _ _; simp [parsed_append, parsed]
  · intro _ _
    obtain ⟨b1, b2, _, _, _, b6⟩ := readBody_frame env cacheDir bibFile subcache doSomething
      (w.record (.openExcl (filepathJoin cacheDir (env.cacheName bibFile ++ ".lock")))
        (w.files.set (filepathJoin cacheDir (env.cacheName bibFile ++ ".lock")) (some "")))
    rw [deferred_unlock_world env cacheDir (env.cacheName bibFile) _ b1]
    simp only [World.record_log, parsed_append, b6, World.record_files, hremove,
      Bool.false_eq_true, if_false, b2]
    exact ⟨by simp [parsed], Files.set_set_none _ _ _ hmarker⟩

theorem ReadAndDo_cons (env : Env) (cacheDir subcache : String) (formatter : Formatter)
    (doSomething : Sink) (bibFile : String) (rest : List String) (w : World) :
    ReadAndDo env cacheDir subcache formatter doSomething (bibFile :: rest) w =
      (isFresh env cacheDir subcache bibFile w).bind fun fresh w1 =>
      if !fresh then
        (refreshAndDo env cacheDir bibFile subcache formatter doSomething w1).bind fun _ w2 =>
        ReadAndDo env cacheDir subcache formatter doSomething rest w2
      else
        (readCache env cacheDir bibFile subcache doSomething w1).bind fun _ w2 =>
        ReadAndDo env cacheDir subcache formatter doSomething rest w2 := rfl

theorem Outcome.bind_assoc (o : Outcome α) (f : α → World → Outcome β)
    (g : β → World → Outcome γ) :
    (o.bind f).bind g = o.bind fun a w => (f a w).bind g := by
  cases o <;> rfl

/-- The sources of a list are handled in order: the sources of a first part, then the
rest from the world the first part ended in. -/
theorem ReadAndDo_append (env : Env) (cacheDir subcache : String) (formatter : Formatter)
    (doSomething : Sink) (pre : List String) :
    ∀ (rest : List String) (w : World),
      ReadAndDo env cacheDir subcache formatter doSomething (pre ++ rest) w =
        (ReadAndDo env cacheDir subcache formatter doSomething pre w).bind fun _ w1 =>
          ReadAndDo env cacheDir subcache formatter doSomething rest w1 := by
  induction pre with
  | nil => intro rest w; rfl
  | cons a pre ih =>
    intro rest w
    rw [List.cons_append, ReadAndDo_cons, ReadAndDo_cons, Outcome.bind_assoc]
    congr 1
    funext fresh w1
    cases fresh
    · simp only [Bool.not_false, if_true, Outcome.bind_assoc]
      congr 1
      funext _ w2
      exact ih rest w2
    · simp only [Bool.not_true, Bool.false_eq_true, if_false, Outcome.bind_assoc]
      congr 1
      funext _ w2
      exact ih rest w2

/-- The verdict of `isFresh` on a timestamp file that holds the decimal text of an
int64. -/
theorem isFresh_after_stamp (env : Env) (cacheDir subcache bibFile : String) (w : World)
    (t m : Int) (ht1 : minInt64 ≤ t) (ht2 : t ≤ maxInt64)
    (hmarker : w.files (lockPath env cacheDir bibFile) = none)
    (hexcl : env.exclErr (lockPath env cacheDir bibFile) = false)
    (hremove : env.removeErr (lockPath env cacheDir bibFile) = false)
    (hfile : w.files (timestampPath env cacheDir subcache bibFile) = some (formatInt t))
    (hstat : osStat env w bibFile = some m) :
    (isFresh env cacheDir subcache bibFile w).value? = some (decide (toInt64 m ≤ t)) := by
  rw [isFresh_value env cacheDir subcache bibFile w hmarker hexcl hremove, hfile]
  simp [scanFirst_formatInt _ ht1 ht2, parseInt_formatInt _ ht1 ht2,
    osStat_locked env w bibFile _ _ _ m hstat hmarker]

/-- A call of `ReadAndDo` for one source that is fresh reads the data file: nothing is
parsed and the lines of the data file are delivered. -/
theorem ReadAndDo_fresh (env : Env) (cacheDir subcache : String) (formatter : Formatter)
    (doSomething : Sink) (bibFile : String) (w : World) (content : String)
    (hquiet : ∀ seen line, doSomething seen line = false)
    (hfresh : (isFresh env cacheDir subcache bibFile w).value? = some true)
    (hfile : w.files (dataPath env cacheDir subcache bibFile) = some content)
    (hlines : (scanAll content).2 = false) :
    ∃ w2, ReadAndDo env cacheDir subcache formatter doSomething [bibFile] w = .done () w2 ∧
      delivered w2.log = delivered w.log ++ (scanAll content).1 ∧
      parsed w2.log = parsed w.log := by
  have hdone := Outcome.done_of_value _ true hfresh
  obtain ⟨i1, i2, i3⟩ := isFresh_returns_inv env cacheDir subcache bibFile w
    (by rw [hdone]; rfl)
  obtain ⟨k1, _, k3, k4⟩ := isFresh_done_world env cacheDir subcache bibFile w _ true hdone
  have hne : dataPath env cacheDir subcache bibFile ≠ lockPath env cacheDir bibFile := by
    intro h
    rw [h, i1] at hfile
    simp at hfile
  obtain ⟨w2, hread⟩ := readCache_returns env cacheDir bibFile subcache doSomething
    (isFresh env cacheDir subcache bibFile w).world content hquiet (by rw [k1]; exact i1) i2 i3
    (by rw [k1]; exact hfile) hlines
  obtain ⟨_, _, _, _, _, r6, c, c1, _, c3⟩ := readCache_done_inv _ _ _ _ _ _ _ hne hread
  rw [k1, hfile] at c1
  simp only [Option.some.injEq] at c1
  subst c1
  refine ⟨w2, ?_, by rw [c3, k4], by rw [r6, k3]⟩
  rw [ReadAndDo_cons, hdone]
  simp [hread, ReadAndDo]

theorem breakLine_rest_length (data : List Char) :
    ((breakLine data).2.getD []).length ≤ data.length - 1 := by
  induction data with
  | nil => simp [breakLine]
  | cons c cs ih =>
    unfold breakLine
    split
    · simp
    · simp only [List.length_cons, Nat.add_sub_cancel]
      omega

theorem scan_rest_length (data rest : List Char) (text : String)
    (hs : scan data = .token text rest) : rest.length < data.length := by
  unfold scan at hs
  split at hs
  · simp at hs
  · split at hs
    · simp at hs
    · rename_i hne _
      simp only [ScanResult.token.injEq] at hs
      have h1 := breakLine_rest_length data
      rw [hs.2] at h1
      have h2 : 0 < data.length := List.length_pos.2 hne
      omega

/-- The fuel of `scanAll` is enough: any fuel above the length of the data gives the
same tokens. -/
theorem scanTokens_fuel (f1 : Nat) :
    ∀ (f2 : Nat) (data : List Char), data.length < f1 → data.length < f2 →
      scanTokens f1 data = scanTokens f2 data := by
  induction f1 with
  | zero => intro f2 data h; omega
  | succ f1 ih =>
    intro f2 data h1 h2
    cases f2 with
    | zero => omega
    | succ f2 =>
      unfold scanTokens
      cases hs : scan data with
      | eof => rfl
      | tooLong => rfl
      | token text rest =>
        have hrest := scan_rest_length data rest text hs
        simp only []
        rw [ih f2 rest (by omega) (by omega)]

theorem scanTokens_token (fuel : Nat) (data rest : List Char) (text : String)
    (h : scan data = .token text rest) :
    scanTokens (fuel + 1) data = (text :: (scanTokens fuel rest).1, (scanTokens fuel rest).2) := by
  simp only [scanTokens, h]

theorem breakLine_append (l rest : List Char) (h : ∀ c ∈ l, c ≠ '\n') :
    breakLine (l ++ '\n' :: rest) = (l, some rest) := by
  induction l with
  | nil => simp [breakLine]
  | cons c cs ih =>
    have hc : c ≠ '\n' := h c (by simp)
    have := ih (fun d hd => h d (by simp [hd]))
    simp [breakLine, hc, this]

/-- The scanner finds, in a file that holds lines each ended by a newline, exactly
those lines, when no line holds a line-end character or is too long. -/
theorem scanAll_unlines (lines : List String)
    (h : ∀ l ∈ lines, (∀ c ∈ l.data, c ≠ '\n' ∧ c ≠ '\r') ∧
      byteLen l.data < maxScanTokenSize) :
    scanAll (unlines lines) = (lines, false) := by
  induction lines with
  | nil => simp [unlines, scanAll, scanTokens, scan]
  | cons l rest ih =>
    obtain ⟨hl, hb⟩ := h l (by simp)
    have ih1 := ih (fun x hx => h x (by simp [hx]))
    unfold scanAll at ih1 ⊢
    have hbreak := breakLine_append l.data (unlines rest).data (fun c hc => (hl c hc).1)
    have hcr := dropCR_plain l.data (fun c hc => (hl c hc).2)
    have hscan : scan (l.data ++ '\n' :: (unlines rest).data) =
        .token l (unlines rest).data := by
      unfold scan
      rw [if_neg (by simp), hbreak]
      simp only [hcr, Option.getD_some]
      rw [if_neg (by omega)]
    have hfuel : scanTokens (l.data ++ '\n' :: (unlines rest).data).length
        (unlines rest).data = scanTokens ((unlines rest).data.length + 1) (unlines rest).data :=
      scanTokens_fuel _ _ _ (by simp; omega) (by omega)
    have hdata : (unlines (l :: rest)).data = l.data ++ '\n' :: (unlines rest).data := rfl
    rw [hdata, scanTokens_token _ _ _ _ hscan, hfuel, ih1]

/-- What `os.Stat` gives for a source after a call of `refreshAndDo` that returns is
what it gave before, unless the source is the data file or the timestamp file of the
entry. -/
theorem refreshAndDo_done_stat (env : Env) (cacheDir bibFile subcache : String)
    (formatter : Formatter) (doSomething : Sink) (w w1 : World) (p : String)
    (h : refreshAndDo env cacheDir bibFile subcache formatter doSomething w = .done () w1)
    (hd : env.resolve p ≠ dataPath env cacheDir subcache bibFile)
    (ht : env.resolve p ≠ timestampPath env cacheDir subcache bibFile) :
    osStat env w1 p = osStat env w p := by
  obtain ⟨hm, _, _, _⟩ := refreshAndDo_done_inv _ _ _ _ _ _ _ _ h
  obtain ⟨d1, _, _, d4, _, _, d7⟩ := refreshAndDo_done_world _ _ _ _ _ _ _ _ h
  apply osStat_congr
  · by_cases hl : env.resolve p = lockPath env cacheDir bibFile
    · rw [hl, d1, hm]
    · exact d7 _ hl hd ht
  · exact d4 _ hd ht

/-! ## The claims -/

/-- C1, as the code has it. Started with the lock marker absent (and creatable and
removable) and the source file stat-able with modification time `m` in nanoseconds
since the epoch, `isFresh` returns true if and only if the timestamp file exists and
the integer read from it (`ParseInt` of the first line the scanner yields) is at least
`toInt64 m`, the int64 that `UnixNano()` returns for the modification time.  When `m`
is representable as an int64 (a date between the years 1678 and 2262) that value is
`m` itself and the verdict is the one the claim states: true if and only if the stored
integer is at least the modification time.  `isFresh` returns false when the timestamp
file is missing, whatever the data file, and false when `toInt64 m` is strictly
greater than the stored integer.  For a timestamp file that holds the decimal text of
an int64 `t`, as `refreshAndDo` writes it, the verdict is exactly `toInt64 m ≤ t`. -/
theorem isFresh_iff_timestamp_current (env : Env) (cacheDir subcache bibFile : String)
    (w : World) (m : Int)
    (hmarker : w.files (lockPath env cacheDir bibFile) = none)
    (hexcl : env.exclErr (lockPath env cacheDir bibFile) = false)
    (hremove : env.removeErr (lockPath env cacheDir bibFile) = false)
    (hstat : osStat env w bibFile = some m) :
    ((isFresh env cacheDir subcache bibFile w).value? = some true ↔
      ∃ content text, w.files (timestampPath env cacheDir subcache bibFile) = some content ∧
        scanFirst content = some text ∧ toInt64 m ≤ (parseInt text).1) ∧
    (minInt64 ≤ m → m ≤ maxInt64 →
      ((isFresh env cacheDir subcache bibFile w).value? = some true ↔
        ∃ content text, w.files (timestampPath env cacheDir subcache bibFile) = some content ∧
          scanFirst content = some text ∧ m ≤ (parseInt text).1) ∧
      (∀ content text, w.files (timestampPath env cacheDir subcache bibFile) = some content →
        scanFirst content = some text → (parseInt text).1 < m →
        (isFresh env cacheDir subcache bibFile w).value? = some false)) ∧
    (w.files (timestampPath env cacheDir subcache bibFile) = none →
      (isFresh env cacheDir subcache bibFile w).value? = some false) ∧
    (∀ content text, w.files (timestampPath env cacheDir subcache bibFile) = some content →
      scanFirst content = some text → (parseInt text).1 < toInt64 m →
      (isFresh env cacheDir subcache bibFile w).value? = some false) ∧
    (∀ t, minInt64 ≤ t → t ≤ maxInt64 →
      w.files (timestampPath env cacheDir subcache bibFile) = some (formatInt t) →
      (isFresh env cacheDir subcache bibFile w).value? = some (decide (toInt64 m ≤ t))) := by
  rw [isFresh_value env cacheDir subcache bibFile w hmarker hexcl hremove,
    osStat_locked env w bibFile _ _ _ m hstat hmarker]
  have hiff : (match w.files (timestampPath env cacheDir subcache bibFile) with
      | none => some false
      | some content =>
        match scanFirst content with
        | none => none
        | some text =>
          match some m with
          | none => none
          | some m => some (decide (toInt64 m ≤ (parseInt text).1))) = some true ↔
      ∃ content text, w.files (timestampPath env cacheDir subcache bibFile) = some content ∧
        scanFirst content = some text ∧ toInt64 m ≤ (parseInt text).1 := by
    constructor
    · intro h
      cases h1 : w.files (timestampPath env cacheDir subcache bibFile) with
      | none => simp [h1] at h
      | some content =>
        cases h2 : scanFirst content with
        | none => simp [h1, h2] at h
        | some text =>
          simp only [h1, h2, Option.some.injEq, decide_eq_true_eq] at h
          exact ⟨content, text, rfl, h2, h⟩
    · rintro ⟨content, text, h1, h2, h3⟩
      simp [h1, h2, h3]
  have hstale : ∀ content text,
      w.files (timestampPath env cacheDir subcache bibFile) = some content →
      scanFirst content = some text → (parseInt text).1 < toInt64 m →
      (match w.files (timestampPath env cacheDir subcache bibFile) with
      | none => some false
      | some content =>
        match scanFirst content with
        | none => none
        | some text =>
          match some m with
          | none => none
          | some m => some (decide (toInt64 m ≤ (parseInt text).1))) = some false := by
    intro content text h1 h2 h3
    have h4 : ¬ (toInt64 m ≤ (parseInt text).1) := by omega
    simp [h1, h2, h4]
  refine ⟨hiff, ?_, ?_, hstale, ?_⟩
  · intro hlo hhi
    refine ⟨by rw [hiff, toInt64_id m hlo hhi], ?_⟩
    intro content text h1 h2 h3
    exact hstale content text h1 h2 (by rw [toInt64_id m hlo hhi]; exact h3)
  · intro h1
    simp [h1]
  · intro t ht1 ht2 h1
    simp [h1, scanFirst_formatInt t ht1 ht2, parseInt_formatInt t ht1 ht2]

/-- C1 at the example cache: the timestamp file holds 100, the source was modified at
50, and `isFresh` returns true. -/
theorem isFresh_iff_timestamp_current_witness :
    freshWorld.files (lockPath demoEnv "/c" "refs.bib") = none ∧
    osStat demoEnv freshWorld "refs.bib" = some 50 ∧
    (isFresh demoEnv "/c" "default" "refs.bib" freshWorld).value? = some true :=
  ⟨by decide, by decide,
    ((isFresh_iff_timestamp_current demoEnv "/c" "default" "refs.bib" freshWorld 50
      (by decide) (by decide) (by decide) (by decide)).2.1 (by decide) (by decide)).1.2
      ⟨"100", "100", by decide, by decide, by decide⟩⟩

/-- C1 as stated fails: the timestamp file holds 100 and the source was last modified
at the first instant of the year 2300, a modification time in nanoseconds that is
strictly greater than the stored integer; `UnixNano()` wraps it to a negative int64
and `isFresh` returns true. -/
theorem wrapped_time_counterexample :
    (stampedAt "100" year2300).files (lockPath demoEnv "/c" "refs.bib") = none ∧
    (stampedAt "100" year2300).files (timestampPath demoEnv "/c" "default" "refs.bib") =
      some "100" ∧
    scanFirst "100" = some "100" ∧
    parseInt "100" = (100, none) ∧
    osStat demoEnv (stampedAt "100" year2300) "refs.bib" = some year2300 ∧
    (100 : Int) < year2300 ∧
    toInt64 year2300 = -8032952073709551616 ∧
    (isFresh demoEnv "/c" "default" "refs.bib" (stampedAt "100" year2300)).value? =
      some true := by
  decide

/-- C5. `IsFresh` over a list returns true if and only if `isFresh` returns true for
every member (so it returns true for the empty list), and it stops at the first stale
member: when the members before `s` are fresh and `s` is stale, the call returns false
in the very world in which `isFresh` of `s` ended, whatever follows `s` in the list; no
call is made for a later source. -/
theorem IsFresh_all_and_short_circuit (env : Env) (cacheDir subcache : String)
    (l : List String) (w : World) :
    ((IsFresh env cacheDir subcache l w).value? = some true ↔
      ∀ s ∈ l, (isFresh env cacheDir subcache s w).value? = some true) ∧
    IsFresh env cacheDir subcache [] w = .done true w ∧
    (∀ (pre post : List String) (s : String) (w1 w2 : World),
      IsFresh env cacheDir subcache pre w = .done true w1 →
      isFresh env cacheDir subcache s w1 = .done false w2 →
      IsFresh env cacheDir subcache (pre ++ s :: post) w = .done false w2) :=
  ⟨IsFresh_true_iff env cacheDir subcache l w, rfl,
    fun pre post s w1 w2 h1 h2 => IsFresh_first_stale env cacheDir subcache pre w w1 w2 s post h1 h2⟩

/-- C5 at the example cache: a list of fresh members is fresh, and for the subcache
`other`, which has no timestamp file, the first member is already stale. -/
theorem IsFresh_all_and_short_circuit_witness :
    (IsFresh demoEnv "/c" "default" ["refs.bib", "refs.bib"] freshWorld).value? = some true ∧
    (IsFresh demoEnv "/c" "other" ["refs.bib", "missing.bib"] freshWorld).value? = some false :=
  ⟨(IsFresh_all_and_short_circuit demoEnv "/c" "default" ["refs.bib", "refs.bib"] freshWorld).1.2
      (by decide),
    by decide⟩

/-- C7, as the code has it. A timestamp file whose first line the scanner yields is
never a reason to abort: `isFresh` compares whatever value `ParseInt` returned with
`toInt64 m`, the int64 that `UnixNano()` returns for the modification time `m` of the
source.  With a syntax error (empty text, a character that is no digit) that value is 0
and the verdict is false whenever `toInt64 m` is positive, so for every source modified
after the epoch at a time representable as an int64 (before the year 2262).  With a
range error (a decimal number outside int64) the value is not 0 but the nearest int64
bound: the smallest int64 for a text that starts with a minus sign, the largest
otherwise. -/
theorem isFresh_malformed_timestamp (env : Env) (cacheDir subcache bibFile : String)
    (w : World) (m : Int) (content text : String)
    (hmarker : w.files (lockPath env cacheDir bibFile) = none)
    (hexcl : env.exclErr (lockPath env cacheDir bibFile) = false)
    (hremove : env.removeErr (lockPath env cacheDir bibFile) = false)
    (hstat : osStat env w bibFile = some m)
    (hfile : w.files (timestampPath env cacheDir subcache bibFile) = some content)
    (hscan : scanFirst content = some text) :
    (isFresh env cacheDir subcache bibFile w).value? =
      some (decide (toInt64 m ≤ (parseInt text).1)) ∧
    ((parseInt text).2 = some .errSyntax → (parseInt text).1 = 0 ∧
      (0 < toInt64 m → (isFresh env cacheDir subcache bibFile w).value? = some false) ∧
      (0 < m → m ≤ maxInt64 → (isFresh env cacheDir subcache bibFile w).value? = some false)) ∧
    ((parseInt text).2 = some .errRange →
      (parseInt text).1 = if text.data.head? = some '-' then minInt64 else maxInt64) := by
  have hv : (isFresh env cacheDir subcache bibFile w).value? =
      some (decide (toInt64 m ≤ (parseInt text).1)) := by
    rw [isFresh_value env cacheDir subcache bibFile w hmarker hexcl hremove, hfile,
      osStat_locked env w bibFile _ _ _ m hstat hmarker]
    simp [hscan]
  refine ⟨hv, ?_, parseInt_range_value text⟩
  intro herr
  have h0 := (parseInt_error_value text).1 herr
  have hfalse : 0 < toInt64 m → (isFresh env cacheDir subcache bibFile w).value? = some false := by
    intro hpos
    rw [hv, h0]
    simp
    omega
  refine ⟨h0, hfalse, fun hpos hrep => hfalse ?_⟩
  rw [toInt64_id m (by unfold minInt64; omega) hrep]
  exact hpos

/-- C7 at the example cache: the timestamp file holds `last tuesday`, `ParseInt`
reports a syntax error, and `isFresh` returns false for the source modified at time 50. -/
theorem isFresh_malformed_timestamp_witness :
    (parseInt "last tuesday").2 = some .errSyntax ∧
    (isFresh demoEnv "/c" "default" "refs.bib" (stampedWorld "last tuesday\n")).value? =
      some false :=
  ⟨by decide,
    ((isFresh_malformed_timestamp demoEnv "/c" "default" "refs.bib"
      (stampedWorld "last tuesday\n") 50 "last tuesday\n" "last tuesday"
      (by decide) (by decide) (by decide) (by decide) (by decide) (by decide)).2.1
      (by decide)).2.2 (by decide) (by decide)⟩

/-- C7 as stated fails twice.  The text `9223372036854775808` is not a valid int64
(`ParseInt` reports a range error), yet the stored timestamp is read as the largest
int64, not as 0, and `isFresh` returns true for a source modified after the epoch.
And with the text `last tuesday`, read as 0, `isFresh` returns true for a source last
modified at the first instant of the year 2300, which is after the epoch. -/
theorem lenient_parse_counterexample :
    parseInt "9223372036854775808" = (maxInt64, some .errRange) ∧
    (stampedWorld "9223372036854775808").files (lockPath demoEnv "/c" "refs.bib") = none ∧
    osStat demoEnv (stampedWorld "9223372036854775808") "refs.bib" = some 50 ∧
    (isFresh demoEnv "/c" "default" "refs.bib" (stampedWorld "9223372036854775808")).value? =
      some true ∧
    parseInt "last tuesday" = (0, some .errSyntax) ∧
    osStat demoEnv (stampedAt "last tuesday\n" year2300) "refs.bib" = some year2300 ∧
    0 < year2300 ∧
    (isFresh demoEnv "/c" "default" "refs.bib" (stampedAt "last tuesday\n" year2300)).value? =
      some true := by
  decide

/-- C8. Scoped locking. For `isFresh`, `refreshAndDo` and `readCache`, started with the
marker `<key>.lock` absent: however the call ends (normal return, the early return of
`isFresh` when the timestamp file is missing, a panic after a failed stat, a failed
open or create, a panic of the parser or of the callback), the marker is absent in
the world in which it ends, provided its removal does not itself fail; the call never
waits.  `lock` and `unlock` touch no file other than the marker. -/
theorem marker_released_on_every_exit (env : Env) (cacheDir subcache bibFile : String)
    (formatter : Formatter) (doSomething : Sink) (w : World)
    (hmarker : w.files (lockPath env cacheDir bibFile) = none)
    (hremove : env.removeErr (lockPath env cacheDir bibFile) = false) :
    ((isFresh env cacheDir subcache bibFile w).world.files (lockPath env cacheDir bibFile) = none ∧
      (isFresh env cacheDir subcache bibFile w).spins = false) ∧
    ((refreshAndDo env cacheDir bibFile subcache formatter doSomething w).world.files
        (lockPath env cacheDir bibFile) = none ∧
      (refreshAndDo env cacheDir bibFile subcache formatter doSomething w).spins = false) ∧
    ((readCache env cacheDir bibFile subcache doSomething w).world.files
        (lockPath env cacheDir bibFile) = none ∧
      (readCache env cacheDir bibFile subcache doSomething w).spins = false) ∧
    (∀ (w0 : World) (q : String), q ≠ lockPath env cacheDir bibFile →
      (lock env cacheDir (env.cacheName bibFile) w0).world.files q = w0.files q ∧
      (unlock env cacheDir (env.cacheName bibFile) w0).world.files q = w0.files q) := by
  refine ⟨?_, ?_, ?_, ?_⟩
  · exact section_marker env cacheDir (env.cacheName bibFile) w
      (isFreshBody env cacheDir subcache bibFile)
      (fun w1 => (isFreshBody_world env cacheDir subcache bibFile w1).2.2.2.2.1) hmarker hremove
  · exact section_marker env cacheDir (env.cacheName bibFile) w
      (refreshBody env cacheDir bibFile subcache formatter doSomething)
      (fun w1 => refreshBody_spins env cacheDir bibFile subcache formatter doSomething w1)
      hmarker hremove
  · exact section_marker env cacheDir (env.cacheName bibFile) w
      (readBody env cacheDir bibFile subcache doSomething)
      (fun w1 => (readBody_frame env cacheDir bibFile subcache doSomething w1).1) hmarker hremove
  · intro w0 q hq
    unfold lockPath at hq
    constructor
    · unfold lock
      simp only []
      split
      · rfl
      · split
        · rfl
        · simp [Files.set_other _ _ _ _ hq]
    · unfold unlock
      simp only []
      split
      · rfl
      · simp [Files.set_other _ _ _ _ hq]

/-- C8 on two panicking calls: `isFresh` for a source that cannot be stat-ed, and
`refreshAndDo` in a directory where the data file cannot be created; the marker is
absent after both. -/
theorem marker_released_on_every_exit_witness :
    noSourceWorld.files (lockPath demoEnv "/c" "refs.bib") = none ∧
    (isFresh demoEnv "/c" "default" "refs.bib" noSourceWorld).aborts = true ∧
    (isFresh demoEnv "/c" "default" "refs.bib" noSourceWorld).world.files
      (lockPath demoEnv "/c" "refs.bib") = none ∧
    (refreshAndDo readOnlyEnv "/c" "refs.bib" "default" demoFormatter quietSink
      demoWorld).aborts = true ∧
    (refreshAndDo readOnlyEnv "/c" "refs.bib" "default" demoFormatter quietSink
      demoWorld).world.files (lockPath readOnlyEnv "/c" "refs.bib") = none :=
  ⟨by decide, by decide,
    (marker_released_on_every_exit demoEnv "/c" "default" "refs.bib" demoFormatter quietSink
      noSourceWorld (by decide) (by decide)).1.1,
    by decide,
    (marker_released_on_every_exit readOnlyEnv "/c" "default" "refs.bib" demoFormatter quietSink
      demoWorld (by decide) (by decide)).2.1.1⟩

/-- C9, as the code has it. A failed `os.Create` is fatal: when creating the data file
or creating the timestamp file fails, `refreshAndDo` does not return normally, and it
panics once it holds the lock.  The error `WriteString` returns is not looked at:
when the lock, the parser, the callback and both creations succeed, `refreshAndDo`
returns normally whatever the writes report. -/
theorem refreshAndDo_create_failure_fatal (env : Env) (cacheDir bibFile subcache : String)
    (formatter : Formatter) (doSomething : Sink) (w : World) :
    ((env.createErr (dataPath env cacheDir subcache bibFile) = true ∨
        env.createErr (timestampPath env cacheDir subcache bibFile) = true) →
      (refreshAndDo env cacheDir bibFile subcache formatter doSomething w).returns = false ∧
      (w.files (lockPath env cacheDir bibFile) = none →
        env.exclErr (lockPath env cacheDir bibFile) = false →
        (refreshAndDo env cacheDir bibFile subcache formatter doSomething w).aborts = true)) ∧
    (w.files (lockPath env cacheDir bibFile) = none →
      env.exclErr (lockPath env cacheDir bibFile) = false →
      env.removeErr (lockPath env cacheDir bibFile) = false →
      env.createErr (dataPath env cacheDir subcache bibFile) = false →
      env.createErr (timestampPath env cacheDir subcache bibFile) = false →
      (env.parse formatter (w.files.set (lockPath env cacheDir bibFile) (some "")) bibFile).fails
        = false →
      (∀ seen line, doSomething seen line = false) →
      (refreshAndDo env cacheDir bibFile subcache formatter doSomething w).returns = true) := by
  constructor
  · intro hfail
    have hret : (refreshAndDo env cacheDir bibFile subcache formatter doSomething w).returns
        = false := by
      cases hr : (refreshAndDo env cacheDir bibFile subcache formatter doSomething w).returns with
      | false => rfl
      | true =>
        have hb := section_returns_body env cacheDir (env.cacheName bibFile) w
          (refreshBody env cacheDir bibFile subcache formatter doSomething)
          (refreshBody_spins env cacheDir bibFile subcache formatter doSomething) hr
        obtain ⟨h1, h2, _⟩ := refreshBody_returns_inv _ _ _ _ _ _ _ hb
        rcases hfail with h | h
        · rw [h1] at h; simp at h
        · rw [h2] at h; simp at h
    refine ⟨hret, fun hmarker hexcl => ?_⟩
    unfold lockPath at hmarker hexcl
    have heq : refreshAndDo env cacheDir bibFile subcache formatter doSomething w = _ :=
      section_eq env cacheDir (env.cacheName bibFile) w
        (refreshBody env cacheDir bibFile subcache formatter doSomething) hmarker hexcl
    rw [heq]
    apply deferred_aborts
    rcases Outcome.trichotomy (refreshBody env cacheDir bibFile subcache formatter doSomething
      (w.record (.openExcl (filepathJoin cacheDir (env.cacheName bibFile ++ ".lock")))
        (w.files.set (filepathJoin cacheDir (env.cacheName bibFile ++ ".lock")) (some ""))))
      with h | h | h
    · obtain ⟨h1, h2, _⟩ := refreshBody_returns_inv _ _ _ _ _ _ _ h
      rcases hfail with h3 | h3
      · rw [h1] at h3; simp at h3
      · rw [h2] at h3; simp at h3
    · exact h
    · rw [refreshBody_spins] at h; simp at h
  · intro hmarker hexcl hremove hcd hct hparse hquiet
    unfold lockPath at hmarker hexcl hremove hparse
    have heq : refreshAndDo env cacheDir bibFile subcache formatter doSomething w = _ :=
      section_eq env cacheDir (env.cacheName bibFile) w
        (refreshBody env cacheDir bibFile subcache formatter doSomething) hmarker hexcl
    rw [heq, (deferred_unlock env cacheDir (env.cacheName bibFile) _ hremove
      (refreshBody_spins _ _ _ _ _ _ _)).2.1]
    refine refreshBody_cases env cacheDir bibFile subcache formatter doSomething _
      (fun o : Outcome Unit => o.returns = true) ?_ ?_ ?_ ?_ ?_
    · intro wa hf
      have h := congrArg Outcome.returns hf
      rw [feed_quiet doSomething hquiet] at h
      simp at h
    · intro w1 _ h
      simp only [World.record_files] at h
      rw [hparse] at h
      simp at h
    · intro w1 _ _ h
      rw [hcd] at h
      simp at h
    · intro w1 _ _ _ h
      rw [hct] at h
      simp at h
    · intro w1 _ _ _ _
      rfl

/-- C9 in a directory where the data file cannot be created: `refreshAndDo` panics. -/
theorem refreshAndDo_create_failure_fatal_witness :
    readOnlyEnv.createErr (dataPath readOnlyEnv "/c" "default" "refs.bib") = true ∧
    (refreshAndDo readOnlyEnv "/c" "refs.bib" "default" demoFormatter quietSink
      demoWorld).returns = false ∧
    (refreshAndDo readOnlyEnv "/c" "refs.bib" "default" demoFormatter quietSink
      demoWorld).aborts = true :=
  ⟨by decide,
    ((refreshAndDo_create_failure_fatal readOnlyEnv "/c" "refs.bib" "default" demoFormatter
      quietSink demoWorld).1 (Or.inl (by decide))).1,
    ((refreshAndDo_create_failure_fatal readOnlyEnv "/c" "refs.bib" "default" demoFormatter
      quietSink demoWorld).1 (Or.inl (by decide))).2 (by decide) (by decide)⟩

/-- C9 as stated fails: the write of the data file stops after three characters and
reports an error, and `refreshAndDo` returns normally all the same, leaving the cut
data file under a new timestamp. -/
theorem write_failure_not_fatal_counterexample :
    fullDiskEnv.shortWrite (dataPath fullDiskEnv "/c" "default" "refs.bib") = some 3 ∧
    (refreshAndDo fullDiskEnv "/c" "refs.bib" "default" demoFormatter quietSink
      demoWorld).returns = true ∧
    (refreshAndDo fullDiskEnv "/c" "refs.bib" "default" demoFormatter quietSink
      demoWorld).world.files (dataPath fullDiskEnv "/c" "default" "refs.bib") = some "A. " ∧
    (refreshAndDo fullDiskEnv "/c" "refs.bib" "default" demoFormatter quietSink
      demoWorld).world.files (timestampPath fullDiskEnv "/c" "default" "refs.bib") =
      some "100" := by
  decide

/-- C10, as the code has it. Unless the data file is the lock marker itself, in every
state `refreshAndDo` passes through and in the state it ends in, the timestamp file
has the content it had before the call, or the data file holds what the write of the
parser's text left there, which is the complete text unless that write was cut short.
In a call that does not return while the removal of the marker does not fail (the
marker is held, creating the marker fails, the callback or the parser panics, or a
creation fails), the timestamp file keeps its content in every state. -/
theorem timestamp_only_after_data (env : Env) (cacheDir bibFile subcache : String)
    (formatter : Formatter) (doSomething : Sink) (w : World)
    (hne : dataPath env cacheDir subcache bibFile ≠ lockPath env cacheDir bibFile) :
    Extends w (refreshAndDo env cacheDir bibFile subcache formatter doSomething w).world
      (fun st => st.after (timestampPath env cacheDir subcache bibFile) =
          w.files (timestampPath env cacheDir subcache bibFile) ∨
        st.after (dataPath env cacheDir subcache bibFile) =
          some (written env (dataPath env cacheDir subcache bibFile)
            (env.parse formatter (w.files.set (lockPath env cacheDir bibFile) (some ""))
              bibFile).data)) ∧
    ((refreshAndDo env cacheDir bibFile subcache formatter doSomething w).world.files
        (timestampPath env cacheDir subcache bibFile) =
          w.files (timestampPath env cacheDir subcache bibFile) ∨
      (refreshAndDo env cacheDir bibFile subcache formatter doSomething w).world.files
        (dataPath env cacheDir subcache bibFile) =
          some (written env (dataPath env cacheDir subcache bibFile)
            (env.parse formatter (w.files.set (lockPath env cacheDir bibFile) (some ""))
              bibFile).data)) ∧
    (env.shortWrite (dataPath env cacheDir subcache bibFile) = none →
      written env (dataPath env cacheDir subcache bibFile)
        (env.parse formatter (w.files.set (lockPath env cacheDir bibFile) (some ""))
          bibFile).data =
        (env.parse formatter (w.files.set (lockPath env cacheDir bibFile) (some ""))
          bibFile).data) ∧
    ((refreshAndDo env cacheDir bibFile subcache formatter doSomething w).returns = false →
      env.removeErr (lockPath env cacheDir bibFile) = false →
      Extends w (refreshAndDo env cacheDir bibFile subcache formatter doSomething w).world
        (fun st => st.after (timestampPath env cacheDir subcache bibFile) =
          w.files (timestampPath env cacheDir subcache bibFile)) ∧
      (refreshAndDo env cacheDir bibFile subcache formatter doSomething w).world.files
        (timestampPath env cacheDir subcache bibFile) =
          w.files (timestampPath env cacheDir subcache bibFile)) := by
  have htl := timestampPath_ne_lockPath env cacheDir subcache bibFile
  unfold lockPath at hne htl ⊢
  have hwritten : env.shortWrite (dataPath env cacheDir subcache bibFile) = none →
      written env (dataPath env cacheDir subcache bibFile)
        (env.parse formatter (w.files.set (filepathJoin cacheDir
          (env.cacheName bibFile ++ ".lock")) (some "")) bibFile).data =
        (env.parse formatter (w.files.set (filepathJoin cacheDir
          (env.cacheName bibFile ++ ".lock")) (some "")) bibFile).data := by
    intro h
    simp [written, h]
  refine section_cases env cacheDir (env.cacheName bibFile) w
    (refreshBody env cacheDir bibFile subcache formatter doSomething)
    (fun o : Outcome Unit =>
      Extends w o.world
        (fun st => st.after (timestampPath env cacheDir subcache bibFile) =
            w.files (timestampPath env cacheDir subcache bibFile) ∨
          st.after (dataPath env cacheDir subcache bibFile) =
            some (written env (dataPath env cacheDir subcache bibFile)
              (env.parse formatter (w.files.set (filepathJoin cacheDir
                (env.cacheName bibFile ++ ".lock")) (some "")) bibFile).data)) ∧
      (o.world.files (timestampPath env cacheDir subcache bibFile) =
          w.files (timestampPath env cacheDir subcache bibFile) ∨
        o.world.files (dataPath env cacheDir subcache bibFile) =
          some (written env (dataPath env cacheDir subcache bibFile)
            (env.parse formatter (w.files.set (filepathJoin cacheDir
              (env.cacheName bibFile ++ ".lock")) (some "")) bibFile).data)) ∧
      (env.shortWrite (dataPath env cacheDir subcache bibFile) = none →
        written env (dataPath env cacheDir subcache bibFile)
          (env.parse formatter (w.files.set (filepathJoin cacheDir
            (env.cacheName bibFile ++ ".lock")) (some "")) bibFile).data =
          (env.parse formatter (w.files.set (filepathJoin cacheDir
            (env.cacheName bibFile ++ ".lock")) (some "")) bibFile).data) ∧
      (o.returns = false →
        env.removeErr (filepathJoin cacheDir (env.cacheName bibFile ++ ".lock")) = false →
        Extends w o.world
          (fun st => st.after (timestampPath env cacheDir subcache bibFile) =
            w.files (timestampPath env cacheDir subcache bibFile)) ∧
        o.world.files (timestampPath env cacheDir subcache bibFile) =
          w.files (timestampPath env cacheDir subcache bibFile))) ?_ ?_ ?_
  · intro _
    have h : Extends w (w.record (.openExcl (filepathJoin cacheDir
        (env.cacheName bibFile ++ ".lock"))) w.files)
        (fun st => st.after (timestampPath env cacheDir subcache bibFile) =
          w.files (timestampPath env cacheDir subcache bibFile)) :=
      Extends.record _ _ _ _ rfl
    exact ⟨h.mono (fun st hst => Or.inl hst), Or.inl rfl, hwritten, fun _ _ => ⟨h, rfl⟩⟩
  · intro _ _
    have h : Extends w (w.record (.openExcl (filepathJoin cacheDir
        (env.cacheName bibFile ++ ".lock"))) w.files)
        (fun st => st.after (timestampPath env cacheDir subcache bibFile) =
          w.files (timestampPath env cacheDir subcache bibFile)) :=
      Extends.record _ _ _ _ rfl
    exact ⟨h.mono (fun st hst => Or.inl hst), Or.inl rfl, hwritten, fun _ _ => ⟨h, rfl⟩⟩
  · intro _ _
    have hold : (w.record (.openExcl (filepathJoin cacheDir (env.cacheName bibFile ++ ".lock")))
        (w.files.set (filepathJoin cacheDir (env.cacheName bibFile ++ ".lock"))
          (some ""))).files (timestampPath env cacheDir subcache bibFile) =
        w.files (timestampPath env cacheDir subcache bibFile) := by
      simp [Files.set, htl]
    have hlock : Extends w (w.record (.openExcl (filepathJoin cacheDir
        (env.cacheName bibFile ++ ".lock")))
        (w.files.set (filepathJoin cacheDir (env.cacheName bibFile ++ ".lock")) (some "")))
        (fun st => st.after (timestampPath env cacheDir subcache bibFile) =
          w.files (timestampPath env cacheDir subcache bibFile)) :=
      Extends.record _ _ _ _ (by simp [Files.set, htl])
    obtain ⟨b1, b2, b3⟩ := refreshBody_order env cacheDir bibFile subcache formatter doSomething
      _ _ hold
    simp only [World.record_files] at b1 b2 b3
    have hspin := refreshBody_spins env cacheDir bibFile subcache formatter doSomething
      (w.record (.openExcl (filepathJoin cacheDir (env.cacheName bibFile ++ ".lock")))
        (w.files.set (filepathJoin cacheDir (env.cacheName bibFile ++ ".lock")) (some "")))
    rw [deferred_unlock_world env cacheDir (env.cacheName bibFile) _ hspin]
    refine ⟨?_, ?_, hwritten, ?_⟩
    · refine (hlock.mono (fun st hst => Or.inl hst)).trans (b1.trans (Extends.record _ _ _ _ ?_))
      simp only []
      split
      · exact b2
      · simpa [Files.set, htl, hne] using b2
    · simp only [World.record_files]
      split
      · exact b2
      · simpa [Files.set, htl, hne] using b2
    · intro hret hremove
      have hbody : (refreshBody env cacheDir bibFile subcache formatter doSomething
          (w.record (.openExcl (filepathJoin cacheDir (env.cacheName bibFile ++ ".lock")))
            (w.files.set (filepathJoin cacheDir (env.cacheName bibFile ++ ".lock"))
              (some "")))).returns = false := by
        cases hb : (refreshBody env cacheDir bibFile subcache formatter doSomething
          (w.record (.openExcl (filepathJoin cacheDir (env.cacheName bibFile ++ ".lock")))
            (w.files.set (filepathJoin cacheDir (env.cacheName bibFile ++ ".lock"))
              (some "")))) with
        | done a w1 => simp [hb, Outcome.deferred, unlock, hremove] at hret
        | abort w1 => rfl
        | spin w1 => rfl
      obtain ⟨c1, c2⟩ := b3 hbody
      simp only [hremove, Bool.false_eq_true, if_false, World.record_files]
      refine ⟨hlock.trans (c1.trans (Extends.record _ _ _ _ ?_)), ?_⟩
      · simpa [Files.set, htl] using c2
      · simpa [Files.set, htl] using c2

/-- C10 at the example cache, for the subcache `default`, whose data file is not the
marker. -/
theorem timestamp_only_after_data_witness :
    dataPath demoEnv "/c" "default" "refs.bib" ≠ lockPath demoEnv "/c" "refs.bib" ∧
    ((refreshAndDo demoEnv "/c" "refs.bib" "default" demoFormatter quietSink demoWorld).world.files
        (timestampPath demoEnv "/c" "default" "refs.bib") =
          demoWorld.files (timestampPath demoEnv "/c" "default" "refs.bib") ∨
      (refreshAndDo demoEnv "/c" "refs.bib" "default" demoFormatter quietSink demoWorld).world.files
        (dataPath demoEnv "/c" "default" "refs.bib") =
          some (written demoEnv (dataPath demoEnv "/c" "default" "refs.bib")
            (demoEnv.parse demoFormatter
              (demoWorld.files.set (lockPath demoEnv "/c" "refs.bib") (some ""))
              "refs.bib").data)) :=
  ⟨by decide,
    (timestamp_only_after_data demoEnv "/c" "refs.bib" "default" demoFormatter quietSink
      demoWorld (by decide)).2.1⟩

/-- C10 as stated fails in two ways.  When the write of the data file is cut short the
error is dropped and the timestamp file is written all the same: the call ends with
the new timestamp `100` next to a data file that holds three characters of the
parser's text.  And for the subcache `lock` the data file is the lock marker, which
`unlock` removes: the call ends with the new timestamp and no data file. -/
theorem timestamp_with_cut_data_counterexample :
    (demoParse demoFormatter demoWorld.files "refs.bib").data = "A. Author (2020)\n" ∧
    (refreshAndDo fullDiskEnv "/c" "refs.bib" "default" demoFormatter quietSink
      demoWorld).world.files (timestampPath fullDiskEnv "/c" "default" "refs.bib") =
      some "100" ∧
    (refreshAndDo fullDiskEnv "/c" "refs.bib" "default" demoFormatter quietSink
      demoWorld).world.files (dataPath fullDiskEnv "/c" "default" "refs.bib") = some "A. " ∧
    (refreshAndDo demoEnv "/c" "refs.bib" "lock" demoFormatter quietSink
      demoWorld).world.files (timestampPath demoEnv "/c" "lock" "refs.bib") = some "100" ∧
    (refreshAndDo demoEnv "/c" "refs.bib" "lock" demoFormatter quietSink
      demoWorld).world.files (dataPath demoEnv "/c" "lock" "refs.bib") = none := by
  decide

/-- C3, as the code has it. After a call of `refreshAndDo` that returns and whose
timestamp write was not cut short, the timestamp file holds the clock reading the
call took, as `UnixNano()` returns it, and the marker is absent; what `os.Stat` gives
for the source is what it gave before the call, unless the source is itself the data
file or the timestamp file of the entry.  In the world the call ends in and in every
later world in which the timestamp file is untouched, the marker is absent and the
source can be stat-ed with modification time `m`, `isFresh` returns true exactly when
`toInt64 m`, the int64 that `UnixNano()` returns for `m`, is not greater than the
stored reading; when `m` and the clock reading are representable as int64 (dates
between the years 1678 and 2262) that is: exactly when the modification time is not
newer than the clock reading. -/
theorem refresh_then_fresh (env : Env) (cacheDir bibFile subcache : String)
    (formatter : Formatter) (doSomething : Sink) (w w1 : World)
    (hrun : refreshAndDo env cacheDir bibFile subcache formatter doSomething w = .done () w1)
    (hfull : env.shortWrite (timestampPath env cacheDir subcache bibFile) = none) :
    w1.files (timestampPath env cacheDir subcache bibFile) =
      some (formatInt (toInt64 (w.clock w.tick))) ∧
    w1.files (lockPath env cacheDir bibFile) = none ∧
    (env.resolve bibFile ≠ dataPath env cacheDir subcache bibFile →
      env.resolve bibFile ≠ timestampPath env cacheDir subcache bibFile →
      osStat env w1 bibFile = osStat env w bibFile) ∧
    (∀ (w2 : World) (m : Int),
      w2.files (timestampPath env cacheDir subcache bibFile) =
        w1.files (timestampPath env cacheDir subcache bibFile) →
      w2.files (lockPath env cacheDir bibFile) = none →
      osStat env w2 bibFile = some m →
      (isFresh env cacheDir subcache bibFile w2).value? =
        some (decide (toInt64 m ≤ toInt64 (w.clock w.tick))) ∧
      (minInt64 ≤ m → m ≤ maxInt64 → minInt64 ≤ w.clock w.tick → w.clock w.tick ≤ maxInt64 →
        (isFresh env cacheDir subcache bibFile w2).value? =
          some (decide (m ≤ w.clock w.tick)))) := by
  obtain ⟨_, hexcl, hremove, _⟩ := refreshAndDo_done_inv _ _ _ _ _ _ _ _ hrun
  obtain ⟨d1, d2, _⟩ := refreshAndDo_done_world _ _ _ _ _ _ _ _ hrun
  have hts : w1.files (timestampPath env cacheDir subcache bibFile) =
      some (formatInt (toInt64 (w.clock w.tick))) := by
    rw [d2]; simp [written, hfull]
  refine ⟨hts, d1, refreshAndDo_done_stat _ _ _ _ _ _ _ _ _ hrun, ?_⟩
  intro w2 m h1 h2 h3
  obtain ⟨r1, r2⟩ := toInt64_range (w.clock w.tick)
  have hv := isFresh_after_stamp env cacheDir subcache bibFile w2 _ m r1 r2 h2 hexcl hremove
    (by rw [h1, hts]) h3
  refine ⟨hv, ?_⟩
  intro m1 m2 c1 c2
  rw [hv, toInt64_id m m1 m2, toInt64_id _ c1 c2]

/-- C3 at the example cache: the source was modified at 50, the refresh reads the clock
at 100, and `isFresh` returns true right afterwards. -/
theorem refresh_then_fresh_witness :
    (refreshAndDo demoEnv "/c" "refs.bib" "default" demoFormatter quietSink demoWorld).returns
      = true ∧
    osStat demoEnv
      (refreshAndDo demoEnv "/c" "refs.bib" "default" demoFormatter quietSink demoWorld).world
      "refs.bib" = some 50 ∧
    demoWorld.clock demoWorld.tick = 100 ∧
    (isFresh demoEnv "/c" "default" "refs.bib"
      (refreshAndDo demoEnv "/c" "refs.bib" "default" demoFormatter quietSink
        demoWorld).world).value? = some true :=
  ⟨by decide, by decide, by decide,
    (((refresh_then_fresh demoEnv "/c" "refs.bib" "default" demoFormatter quietSink demoWorld
      (refreshAndDo demoEnv "/c" "refs.bib" "default" demoFormatter quietSink demoWorld).world
      (Outcome.done_of_value _ () (by decide)) (by decide)).2.2.2
      (refreshAndDo demoEnv "/c" "refs.bib" "default" demoFormatter quietSink demoWorld).world
      50 rfl (by decide) (by decide)).2 (by decide) (by decide) (by decide) (by decide)).trans
      (by decide)⟩

/-- C3 as stated fails: for a source whose modification time (500) is later than what
the clock reads (100), `refreshAndDo` completes and `isFresh`, called in the world it
ends in, returns false. -/
theorem refresh_then_stale_counterexample :
    osStat demoEnv futureWorld "refs.bib" = some 500 ∧
    futureWorld.clock futureWorld.tick = 100 ∧
    (refreshAndDo demoEnv "/c" "refs.bib" "default" demoFormatter quietSink futureWorld).returns
      = true ∧
    (refreshAndDo demoEnv "/c" "refs.bib" "default" demoFormatter quietSink
      futureWorld).world.files (timestampPath demoEnv "/c" "default" "refs.bib") = some "100" ∧
    (isFresh demoEnv "/c" "default" "refs.bib"
      (refreshAndDo demoEnv "/c" "refs.bib" "default" demoFormatter quietSink
        futureWorld).world).value? = some false := by
  decide

/-- C6, as the code has it. For two subcaches of one source whose data and timestamp
files are four different files, the second subcache's data file not being the lock
marker: `refreshAndDo` on the first, however it ends, leaves the data file and the
timestamp file of the second unchanged, and `readCache` for the second, when it
returns, delivers the lines of the same unchanged data file before and after.  When
moreover the source is not itself the data file or the timestamp file of the first
subcache, `isFresh` for the second gives, after a refresh of the first that returns,
the result it gave before. -/
theorem disjoint_subcaches_independent (env : Env) (cacheDir bibFile c1 c2 : String)
    (formatter : Formatter) (doSomething : Sink) (w : World)
    (h1 : dataPath env cacheDir c2 bibFile ≠ dataPath env cacheDir c1 bibFile)
    (h2 : dataPath env cacheDir c2 bibFile ≠ timestampPath env cacheDir c1 bibFile)
    (h3 : timestampPath env cacheDir c2 bibFile ≠ dataPath env cacheDir c1 bibFile)
    (h4 : timestampPath env cacheDir c2 bibFile ≠ timestampPath env cacheDir c1 bibFile)
    (h5 : dataPath env cacheDir c2 bibFile ≠ lockPath env cacheDir bibFile) :
    ((refreshAndDo env cacheDir bibFile c1 formatter doSomething w).world.files
        (dataPath env cacheDir c2 bibFile) = w.files (dataPath env cacheDir c2 bibFile) ∧
      (refreshAndDo env cacheDir bibFile c1 formatter doSomething w).world.files
        (timestampPath env cacheDir c2 bibFile) =
          w.files (timestampPath env cacheDir c2 bibFile)) ∧
    (∀ w1, refreshAndDo env cacheDir bibFile c1 formatter doSomething w = .done () w1 →
      (env.resolve bibFile ≠ dataPath env cacheDir c1 bibFile →
        env.resolve bibFile ≠ timestampPath env cacheDir c1 bibFile →
        (isFresh env cacheDir c2 bibFile w1).value? =
          (isFresh env cacheDir c2 bibFile w).value?) ∧
      (∀ wa, readCache env cacheDir bibFile c2 doSomething w = .done () wa →
        ∃ content, w.files (dataPath env cacheDir c2 bibFile) = some content ∧
          w1.files (dataPath env cacheDir c2 bibFile) = some content ∧
          delivered wa.log = delivered w.log ++ (scanAll content).1) ∧
      (∀ wb, readCache env cacheDir bibFile c2 doSomething w1 = .done () wb →
        ∃ content, w.files (dataPath env cacheDir c2 bibFile) = some content ∧
          w1.files (dataPath env cacheDir c2 bibFile) = some content ∧
          delivered wb.log = delivered w1.log ++ (scanAll content).1)) := by
  have hd := refreshAndDo_frame env cacheDir bibFile c1 formatter doSomething w
    (dataPath env cacheDir c2 bibFile) h5 h1 h2
  have ht := refreshAndDo_frame env cacheDir bibFile c1 formatter doSomething w
    (timestampPath env cacheDir c2 bibFile) (timestampPath_ne_lockPath env cacheDir c2 bibFile)
    h3 h4
  refine ⟨⟨hd, ht⟩, ?_⟩
  intro w1 hrun
  rw [hrun] at hd ht
  simp only [Outcome.world_done] at hd ht
  obtain ⟨hm, _, _, _⟩ := refreshAndDo_done_inv _ _ _ _ _ _ _ _ hrun
  obtain ⟨d1, _, _, d4, _, _, d7⟩ := refreshAndDo_done_world _ _ _ _ _ _ _ _ hrun
  refine ⟨?_, ?_, ?_⟩
  · intro h6 h7
    refine isFresh_value_local env cacheDir c2 bibFile w w1 (by rw [d1, hm]) ht ?_ (d4 _ h6 h7)
    by_cases hl : env.resolve bibFile = lockPath env cacheDir bibFile
    · rw [hl, d1, hm]
    · exact d7 _ hl h6 h7
  · intro wa hread
    obtain ⟨_, _, _, _, _, _, content, c1, _, c3⟩ := readCache_done_inv _ _ _ _ _ _ _ h5 hread
    exact ⟨content, c1, by rw [hd, c1], c3⟩
  · intro wb hread
    obtain ⟨_, _, _, _, _, _, content, c1, _, c3⟩ := readCache_done_inv _ _ _ _ _ _ _ h5 hread
    exact ⟨content, by rw [← hd, c1], c1, c3⟩

/-- C6 at the example cache: a refresh of the subcache `default` leaves the two files of
the subcache `a` as they were, and `isFresh` for `a` gives true as before. -/
theorem disjoint_subcaches_independent_witness :
    ((refreshAndDo demoEnv "/c" "refs.bib" "default" demoFormatter quietSink viewWorld).world.files
        (dataPath demoEnv "/c" "a" "refs.bib") = viewWorld.files (dataPath demoEnv "/c" "a" "refs.bib") ∧
      (refreshAndDo demoEnv "/c" "refs.bib" "default" demoFormatter quietSink viewWorld).world.files
        (timestampPath demoEnv "/c" "a" "refs.bib") =
          viewWorld.files (timestampPath demoEnv "/c" "a" "refs.bib")) ∧
    viewWorld.files (timestampPath demoEnv "/c" "a" "refs.bib") = some "100" ∧
    (isFresh demoEnv "/c" "a" "refs.bib" viewWorld).value? = some true ∧
    (isFresh demoEnv "/c" "a" "refs.bib"
      (refreshAndDo demoEnv "/c" "refs.bib" "default" demoFormatter quietSink
        viewWorld).world).value? = (isFresh demoEnv "/c" "a" "refs.bib" viewWorld).value? :=
  ⟨(disjoint_subcaches_independent demoEnv "/c" "refs.bib" "default" "a" demoFormatter quietSink
    viewWorld (by decide) (by decide) (by decide) (by decide) (by decide)).1,
    by decide, by decide,
    ((disjoint_subcaches_independent demoEnv "/c" "refs.bib" "default" "a" demoFormatter quietSink
      viewWorld (by decide) (by decide) (by decide) (by decide) (by decide)).2
      (refreshAndDo demoEnv "/c" "refs.bib" "default" demoFormatter quietSink viewWorld).world
      (Outcome.done_of_value _ () (by decide))).1 (by decide) (by decide)⟩

/-- C6 as stated fails.  The subcaches `a.timestamp` and `a` are distinct, and the data
file of the first is the timestamp file of the second: a refresh of `a.timestamp`
overwrites the timestamp `100` of `a` with the parser's text, and `isFresh` for `a`,
true before, is false afterwards.  And in a cache kept in `/home/u` the data file of
the subcache `/../refs.bib` is the source `/home/u/refs.bib` itself, while the four
files of `/../refs.bib` and `a` are different paths: a refresh of `/../refs.bib`
leaves the files of `a` as they were and overwrites the source, whose modification
time moves to the time of the write, and `isFresh` for `a`, true before, is false
afterwards. -/
theorem subcache_clash_counterexample :
    (dataPath demoEnv "/c" "a.timestamp" "refs.bib" = timestampPath demoEnv "/c" "a" "refs.bib" ∧
      viewWorld.files (timestampPath demoEnv "/c" "a" "refs.bib") = some "100" ∧
      (isFresh demoEnv "/c" "a" "refs.bib" viewWorld).value? = some true ∧
      (refreshAndDo demoEnv "/c" "refs.bib" "a.timestamp" demoFormatter quietSink
        viewWorld).returns = true ∧
      (refreshAndDo demoEnv "/c" "refs.bib" "a.timestamp" demoFormatter quietSink
        viewWorld).world.files (timestampPath demoEnv "/c" "a" "refs.bib") =
        some "A. Author (2020)\n" ∧
      (isFresh demoEnv "/c" "a" "refs.bib"
        (refreshAndDo demoEnv "/c" "refs.bib" "a.timestamp" demoFormatter quietSink
          viewWorld).world).value? = some false) ∧
    (dataPath demoEnv "/home/u" "/../refs.bib" "refs.bib" = "/home/u/refs.bib" ∧
      demoEnv.resolve "refs.bib" = "/home/u/refs.bib" ∧
      timestampPath demoEnv "/home/u" "/../refs.bib" "refs.bib" = "/home/u/refs.bib.timestamp" ∧
      dataPath demoEnv "/home/u" "a" "refs.bib" =
        "/home/u/b2ef12d45fe269a344610001fe9366888d68dbad80e6357e86b5ae057d71eacc.a" ∧
      timestampPath demoEnv "/home/u" "a" "refs.bib" =
        "/home/u/b2ef12d45fe269a344610001fe9366888d68dbad80e6357e86b5ae057d71eacc.a.timestamp" ∧
      lockPath demoEnv "/home/u" "refs.bib" =
        "/home/u/b2ef12d45fe269a344610001fe9366888d68dbad80e6357e86b5ae057d71eacc.lock" ∧
      osStat demoEnv homeWorld "refs.bib" = some 50 ∧
      (isFresh demoEnv "/home/u" "a" "refs.bib" homeWorld).value? = some true ∧
      (refreshAndDo demoEnv "/home/u" "refs.bib" "/../refs.bib" demoFormatter quietSink
        homeWorld).returns = true ∧
      (refreshAndDo demoEnv "/home/u" "refs.bib" "/../refs.bib" demoFormatter quietSink
        homeWorld).world.files (dataPath demoEnv "/home/u" "a" "refs.bib") =
        some "An old line\n" ∧
      (refreshAndDo demoEnv "/home/u" "refs.bib" "/../refs.bib" demoFormatter quietSink
        homeWorld).world.files (timestampPath demoEnv "/home/u" "a" "refs.bib") = some "100" ∧
      osStat demoEnv
        (refreshAndDo demoEnv "/home/u" "refs.bib" "/../refs.bib" demoFormatter quietSink
          homeWorld).world "refs.bib" = some 200 ∧
      (isFresh demoEnv "/home/u" "a" "refs.bib"
        (refreshAndDo demoEnv "/home/u" "refs.bib" "/../refs.bib" demoFormatter quietSink
          homeWorld).world).value? = some false) := by
  decide

/-- C2. `ReadAndDo` handles the sources in list order and decides for each source on
the result `isFresh` gives for it in the world `w1` in which the sources before it
have been handled.  The check itself parses nothing and changes no file.  When the
result is false the source is refreshed: the parser is called exactly once for it,
and a refresh that returns has written the timestamp file and the data file and
delivered the parser's lines.  When the result is true the stored data file is read:
the parser is not called, no file changes, and the lines of the data file are
delivered: the tokens the scanner finds in it, which for a data file that holds
lines each ended by a newline (none with a line-end character inside, none too long)
are exactly those lines.  In both cases the rest of the list follows from the world
this ended in. -/
theorem ReadAndDo_decides_per_source (env : Env) (cacheDir subcache : String)
    (formatter : Formatter) (doSomething : Sink) (pre post : List String) (s : String)
    (w w1 w2 : World) (fresh : Bool)
    (hpre : ReadAndDo env cacheDir subcache formatter doSomething pre w = .done () w1)
    (hcheck : isFresh env cacheDir subcache s w1 = .done fresh w2) :
    (parsed w2.log = parsed w1.log ∧ delivered w2.log = delivered w1.log ∧
      w2.files = w1.files) ∧
    (fresh = false →
      ReadAndDo env cacheDir subcache formatter doSomething (pre ++ s :: post) w =
        ((refreshAndDo env cacheDir s subcache formatter doSomething w2).bind fun _ w3 =>
          ReadAndDo env cacheDir subcache formatter doSomething post w3) ∧
      parsed (refreshAndDo env cacheDir s subcache formatter doSomething w2).world.log =
        parsed w2.log ++ [s] ∧
      (∀ w3, refreshAndDo env cacheDir s subcache formatter doSomething w2 = .done () w3 →
        w3.files (timestampPath env cacheDir subcache s) =
          some (written env (timestampPath env cacheDir subcache s)
            (formatInt (toInt64 (w2.clock w2.tick)))) ∧
        (dataPath env cacheDir subcache s ≠ lockPath env cacheDir s →
          w3.files (dataPath env cacheDir subcache s) =
            some (written env (dataPath env cacheDir subcache s)
              (env.parse formatter (w2.files.set (lockPath env cacheDir s) (some "")) s).data)) ∧
        delivered w3.log = delivered w2.log ++
          (env.parse formatter (w2.files.set (lockPath env cacheDir s) (some "")) s).lines)) ∧
    (fresh = true →
      ReadAndDo env cacheDir subcache formatter doSomething (pre ++ s :: post) w =
        ((readCache env cacheDir s subcache doSomething w2).bind fun _ w3 =>
          ReadAndDo env cacheDir subcache formatter doSomething post w3) ∧
      parsed (readCache env cacheDir s subcache doSomething w2).world.log = parsed w2.log ∧
      (readCache env cacheDir s subcache doSomething w2).world.files = w2.files ∧
      (∀ content w3, w2.files (dataPath env cacheDir subcache s) = some content →
        readCache env cacheDir s subcache doSomething w2 = .done () w3 →
        delivered w3.log = delivered w2.log ++ (scanAll content).1) ∧
      (∀ lines w3,
        (∀ l ∈ lines, (∀ c ∈ l.data, c ≠ '\n' ∧ c ≠ '\r') ∧
          byteLen l.data < maxScanTokenSize) →
        w2.files (dataPath env cacheDir subcache s) = some (unlines lines) →
        readCache env cacheDir s subcache doSomething w2 = .done () w3 →
        delivered w3.log = delivered w2.log ++ lines)) := by
  have hr : (isFresh env cacheDir subcache s w1).returns = true := by rw [hcheck]; rfl
  obtain ⟨i1, i2, i3⟩ := isFresh_returns_inv env cacheDir subcache s w1 hr
  obtain ⟨k1, _, k3, k4⟩ := isFresh_done_world env cacheDir subcache s w1 w2 fresh hcheck
  have hstep : ReadAndDo env cacheDir subcache formatter doSomething (pre ++ s :: post) w =
      if !fresh then
        (refreshAndDo env cacheDir s subcache formatter doSomething w2).bind fun _ w3 =>
        ReadAndDo env cacheDir subcache formatter doSomething post w3
      else
        (readCache env cacheDir s subcache doSomething w2).bind fun _ w3 =>
        ReadAndDo env cacheDir subcache formatter doSomething post w3 := by
    rw [ReadAndDo_append, hpre, Outcome.bind_done, ReadAndDo_cons, hcheck, Outcome.bind_done]
  have hm2 : w2.files (lockPath env cacheDir s) = none := by rw [k1]; exact i1
  refine ⟨⟨k3, k4, k1⟩, ?_, ?_⟩
  · intro hf
    subst hf
    refine ⟨by simpa using hstep, refreshAndDo_parsed _ _ _ _ _ _ _ hm2 i2, ?_⟩
    intro w3 hrun
    obtain ⟨_, d2, d3, _, d5, _⟩ := refreshAndDo_done_world _ _ _ _ _ _ _ _ hrun
    exact ⟨d2, d3, d5⟩
  · intro hf
    subst hf
    obtain ⟨r1, r2⟩ := readCache_frame env cacheDir s subcache doSomething w2 hm2 i3
    have hread : ∀ content w3, w2.files (dataPath env cacheDir subcache s) = some content →
        readCache env cacheDir s subcache doSomething w2 = .done () w3 →
        delivered w3.log = delivered w2.log ++ (scanAll content).1 := by
      intro content w3 hfile hread
      have hne : dataPath env cacheDir subcache s ≠ lockPath env cacheDir s := by
        intro h
        rw [h, hm2] at hfile
        simp at hfile
      obtain ⟨_, _, _, _, _, _, c, c1, _, c3⟩ := readCache_done_inv _ _ _ _ _ _ _ hne hread
      rw [hfile] at c1
      simp only [Option.some.injEq] at c1
      subst c1
      exact c3
    refine ⟨by simpa using hstep, r1, r2, hread, ?_⟩
    intro lines w3 hlines hfile hrd
    rw [hread _ w3 hfile hrd, scanAll_unlines lines hlines]

/-- C2 at the example cache, for the list `refs.bib`, `other.bib`: the entry of
`refs.bib` is missing and the one of `other.bib` is fresh.  `refs.bib` is refreshed,
which calls the parser once; `other.bib`, reached after that refresh, is still fresh
and its data file is read without the parser.  The whole call parses `refs.bib` only
and delivers the parser's line for it followed by the two lines of the data file of
`other.bib`. -/
theorem ReadAndDo_decides_per_source_witness :
    (isFresh demoEnv "/c" "default" "refs.bib" pairWorld).value? = some false ∧
    parsed (refreshAndDo demoEnv "/c" "refs.bib" "default" demoFormatter quietSink
      (isFresh demoEnv "/c" "default" "refs.bib" pairWorld).world).world.log =
      parsed (isFresh demoEnv "/c" "default" "refs.bib" pairWorld).world.log ++ ["refs.bib"] ∧
    (isFresh demoEnv "/c" "default" "other.bib"
      (ReadAndDo demoEnv "/c" "default" demoFormatter quietSink ["refs.bib"]
        pairWorld).world).value? = some true ∧
    parsed (readCache demoEnv "/c" "other.bib" "default" quietSink
      (isFresh demoEnv "/c" "default" "other.bib"
        (ReadAndDo demoEnv "/c" "default" demoFormatter quietSink ["refs.bib"]
          pairWorld).world).world).world.log =
      parsed (isFresh demoEnv "/c" "default" "other.bib"
        (ReadAndDo demoEnv "/c" "default" demoFormatter quietSink ["refs.bib"]
          pairWorld).world).world.log ∧
    parsed (ReadAndDo demoEnv "/c" "default" demoFormatter quietSink ["refs.bib", "other.bib"]
      pairWorld).world.log = ["refs.bib"] ∧
    delivered (ReadAndDo demoEnv "/c" "default" demoFormatter quietSink
      ["refs.bib", "other.bib"] pairWorld).world.log =
      ["A. Author (2020)", "B. Writer (2021)", "C. Third (2022)"] :=
  ⟨by decide,
    ((ReadAndDo_decides_per_source demoEnv "/c" "default" demoFormatter quietSink []
      ["other.bib"] "refs.bib" pairWorld pairWorld
      (isFresh demoEnv "/c" "default" "refs.bib" pairWorld).world false rfl
      (Outcome.done_of_value _ false (by decide))).2.1 rfl).2.1,
    by decide,
    ((ReadAndDo_decides_per_source demoEnv "/c" "default" demoFormatter quietSink ["refs.bib"]
      [] "other.bib" pairWorld
      (ReadAndDo demoEnv "/c" "default" demoFormatter quietSink ["refs.bib"] pairWorld).world
      (isFresh demoEnv "/c" "default" "other.bib"
        (ReadAndDo demoEnv "/c" "default" demoFormatter quietSink ["refs.bib"]
          pairWorld).world).world true
      (Outcome.done_of_value _ () (by decide))
      (Outcome.done_of_value _ true (by decide))).2.2 rfl).2.1,
    by decide, by decide⟩

/-- C4, as the code has it. Take a parser that passes to the callback exactly the lines
the scanner finds in the text it returns, none of them too long, a callback that
never panics, writes that are not cut short, a subcache whose data file is not the
lock marker, and a source that can be stat-ed, that is not itself the data file or the
timestamp file of the entry, and whose modification time, as `UnixNano()` returns it,
is not later than the next clock reading, as `UnixNano()` returns it.  If a call of
`ReadAndDo` for the one source returns, a second call made in the world the first
ended in returns too, delivers the same lines as the first, and does not call the
parser. -/
theorem ReadAndDo_twice (env : Env) (cacheDir subcache bibFile : String)
    (formatter : Formatter) (doSomething : Sink) (w w1 : World) (m : Int)
    (hquiet : ∀ seen line, doSomething seen line = false)
    (hforward : ∀ files, (env.parse formatter files bibFile).lines =
        (scanAll (env.parse formatter files bibFile).data).1 ∧
      (scanAll (env.parse formatter files bibFile).data).2 = false)
    (hwd : env.shortWrite (dataPath env cacheDir subcache bibFile) = none)
    (hwt : env.shortWrite (timestampPath env cacheDir subcache bibFile) = none)
    (hne : dataPath env cacheDir subcache bibFile ≠ lockPath env cacheDir bibFile)
    (hsd : env.resolve bibFile ≠ dataPath env cacheDir subcache bibFile)
    (hst : env.resolve bibFile ≠ timestampPath env cacheDir subcache bibFile)
    (hstat : osStat env w bibFile = some m)
    (hnow : toInt64 m ≤ toInt64 (w.clock w.tick))
    (hfirst : ReadAndDo env cacheDir subcache formatter doSomething [bibFile] w = .done () w1) :
    ∃ w2 lines,
      ReadAndDo env cacheDir subcache formatter doSomething [bibFile] w1 = .done () w2 ∧
      delivered w1.log = delivered w.log ++ lines ∧
      delivered w2.log = delivered w1.log ++ lines ∧
      parsed w2.log = parsed w1.log := by
  rw [ReadAndDo_cons] at hfirst
  cases hc : isFresh env cacheDir subcache bibFile w with
  | abort wa => simp [hc] at hfirst
  | spin wa => simp [hc] at hfirst
  | done fresh wa =>
    obtain ⟨i1, i2, i3⟩ := isFresh_returns_inv env cacheDir subcache bibFile w
      (by rw [hc]; rfl)
    have hw := isFresh_world env cacheDir subcache bibFile w i1 i2 i3
    rw [hc] at hw
    simp only [Outcome.world_done] at hw
    obtain ⟨k1, k2, k3, k4, _, k6, _⟩ := hw
    rw [hc, Outcome.bind_done] at hfirst
    cases fresh with
    | true =>
      simp only [Bool.not_true, Bool.false_eq_true, if_false] at hfirst
      cases hread : readCache env cacheDir bibFile subcache doSomething wa with
      | abort wb => simp [hread] at hfirst
      | spin wb => simp [hread] at hfirst
      | done u wb =>
        simp only [hread, Outcome.bind_done, ReadAndDo, Outcome.done.injEq, true_and] at hfirst
        subst hfirst
        obtain ⟨_, _, _, r4, r5, _, content, c1, c2, c3⟩ :=
          readCache_done_inv _ _ _ _ _ _ _ hne hread
        have hfresh : (isFresh env cacheDir subcache bibFile wb).value? = some true := by
          rw [isFresh_value_congr env cacheDir subcache bibFile w wb (by rw [r4, k1])
            (by rw [r5, k2]), hc]
          rfl
        obtain ⟨w2, g1, g2, g3⟩ := ReadAndDo_fresh env cacheDir subcache formatter doSomething
          bibFile wb content hquiet hfresh (by rw [r4]; exact c1) c2
        exact ⟨w2, (scanAll content).1, g1, by rw [c3, k6], g2, g3⟩
    | false =>
      simp only [Bool.not_false, if_true] at hfirst
      cases hrun : refreshAndDo env cacheDir bibFile subcache formatter doSomething wa with
      | abort wb => simp [hrun] at hfirst
      | spin wb => simp [hrun] at hfirst
      | done u wb =>
        simp only [hrun, Outcome.bind_done, ReadAndDo, Outcome.done.injEq, true_and] at hfirst
        subst hfirst
        obtain ⟨d1, d2, d3, _, d5, _, _⟩ := refreshAndDo_done_world _ _ _ _ _ _ _ _ hrun
        obtain ⟨f1, f2⟩ := hforward (wa.files.set (lockPath env cacheDir bibFile) (some ""))
        obtain ⟨r1, r2⟩ := toInt64_range (w.clock w.tick)
        have hstamp : wb.files (timestampPath env cacheDir subcache bibFile) =
            some (formatInt (toInt64 (w.clock w.tick))) := by
          rw [d2, k3, k4]; simp [written, hwt]
        have hdata : wb.files (dataPath env cacheDir subcache bibFile) =
            some (env.parse formatter (wa.files.set (lockPath env cacheDir bibFile) (some ""))
              bibFile).data := by
          rw [d3 hne]; simp [written, hwd]
        have hstatb : osStat env wb bibFile = some m := by
          rw [refreshAndDo_done_stat _ _ _ _ _ _ _ _ _ hrun hsd hst, ← hstat]
          exact osStat_congr env w wa bibFile (by rw [k1]) (by rw [k2])
        have hfresh : (isFresh env cacheDir subcache bibFile wb).value? = some true := by
          rw [isFresh_after_stamp env cacheDir subcache bibFile wb _ m r1 r2 d1 i2 i3 hstamp
            hstatb]
          simp [hnow]
        obtain ⟨w2, g1, g2, g3⟩ := ReadAndDo_fresh env cacheDir subcache formatter doSomething
          bibFile wb _ hquiet hfresh hdata f2
        exact ⟨w2, _, g1, by rw [d5, k6, f1], g2, g3⟩

/-- C4 at the example cache: the first call refreshes, the second delivers the same
line from the data file. -/
theorem ReadAndDo_twice_witness :
    (ReadAndDo demoEnv "/c" "default" demoFormatter quietSink ["refs.bib"] demoWorld).returns
      = true ∧
    ∃ w2 lines,
      ReadAndDo demoEnv "/c" "default" demoFormatter quietSink ["refs.bib"]
        (ReadAndDo demoEnv "/c" "default" demoFormatter quietSink ["refs.bib"]
          demoWorld).world = .done () w2 ∧
      delivered (ReadAndDo demoEnv "/c" "default" demoFormatter quietSink ["refs.bib"]
        demoWorld).world.log = delivered demoWorld.log ++ lines ∧
      delivered w2.log =
        delivered (ReadAndDo demoEnv "/c" "default" demoFormatter quietSink ["refs.bib"]
          demoWorld).world.log ++ lines ∧
      parsed w2.log =
        parsed (ReadAndDo demoEnv "/c" "default" demoFormatter quietSink ["refs.bib"]
          demoWorld).world.log :=
  ⟨by decide,
    ReadAndDo_twice demoEnv "/c" "default" "refs.bib" demoFormatter quietSink demoWorld
      (ReadAndDo demoEnv "/c" "default" demoFormatter quietSink ["refs.bib"] demoWorld).world 50
      (fun _ _ => rfl)
      (fun _ => (by decide : ["A. Author (2020)"] = (scanAll "A. Author (2020)\n").1 ∧
        (scanAll "A. Author (2020)\n").2 = false))
      (by decide) (by decide) (by decide) (by decide) (by decide)
      (by decide) (by decide) (Outcome.done_of_value _ () (by decide))⟩

/-- C4 as stated fails in three ways.  For the subcache `lock` the data file is the lock
marker: the first call delivers the parser's line and the second call, which judges
the entry fresh, reads the empty marker and delivers nothing.  For a source whose
modification time is later than the clock reading, the second call finds the entry
stale and calls the parser again.  And for the source `/c/x.timestamp` and the subcache
`/../x` the timestamp file of the entry is the source itself: the first call writes
the timestamp into the source, which moves its modification time past the clock
reading, and the second call calls the parser again. -/
theorem ReadAndDo_twice_counterexample :
    ((ReadAndDo demoEnv "/c" "lock" demoFormatter quietSink ["refs.bib"] demoWorld).returns
        = true ∧
      delivered (ReadAndDo demoEnv "/c" "lock" demoFormatter quietSink ["refs.bib"]
        demoWorld).world.log = ["A. Author (2020)"] ∧
      (ReadAndDo demoEnv "/c" "lock" demoFormatter quietSink ["refs.bib"]
        (ReadAndDo demoEnv "/c" "lock" demoFormatter quietSink ["refs.bib"]
          demoWorld).world).returns = true ∧
      delivered (ReadAndDo demoEnv "/c" "lock" demoFormatter quietSink ["refs.bib"]
        (ReadAndDo demoEnv "/c" "lock" demoFormatter quietSink ["refs.bib"]
          demoWorld).world).world.log = ["A. Author (2020)"]) ∧
    (parsed (ReadAndDo demoEnv "/c" "default" demoFormatter quietSink ["refs.bib"]
        futureWorld).world.log = ["refs.bib"] ∧
      parsed (ReadAndDo demoEnv "/c" "default" demoFormatter quietSink ["refs.bib"]
        (ReadAndDo demoEnv "/c" "default" demoFormatter quietSink ["refs.bib"]
          futureWorld).world).world.log = ["refs.bib", "refs.bib"]) ∧
    (timestampPath demoEnv "/c" "/../x" "/c/x.timestamp" = "/c/x.timestamp" ∧
      demoEnv.resolve "/c/x.timestamp" = "/c/x.timestamp" ∧
      dataPath demoEnv "/c" "/../x" "/c/x.timestamp" = "/c/x" ∧
      dataPath demoEnv "/c" "/../x" "/c/x.timestamp" ≠ lockPath demoEnv "/c" "/c/x.timestamp" ∧
      osStat demoEnv selfWorld "/c/x.timestamp" = some 50 ∧
      selfWorld.clock selfWorld.tick = 100 ∧
      (ReadAndDo demoEnv "/c" "/../x" demoFormatter quietSink ["/c/x.timestamp"]
        selfWorld).returns = true ∧
      osStat demoEnv (ReadAndDo demoEnv "/c" "/../x" demoFormatter quietSink ["/c/x.timestamp"]
        selfWorld).world "/c/x.timestamp" = some 101 ∧
      parsed (ReadAndDo demoEnv "/c" "/../x" demoFormatter quietSink ["/c/x.timestamp"]
        (ReadAndDo demoEnv "/c" "/../x" demoFormatter quietSink ["/c/x.timestamp"]
          selfWorld).world).world.log = ["/c/x.timestamp", "/c/x.timestamp"]) := by
  decide

end Cache
